import Mathlib

/-!
gomat: TLV codec, message framing, QR payload, secure channel and the
handshake and commissioning flows.

A shallow embedding of `tlv.go`, `qr.go`, `securechannel.go` and `flows.go`.
Bytes, `uint16`, `uint32` and `uint64` values are natural numbers; every
conversion that can lose bits is written as an explicit `%`.  A function that
mutates its receiver returns the new receiver; a Go `error` result is an
`Option Error` (`none` is `nil`); a Go panic is the result `none` of a function
returning `Option`.
-/

namespace Gomat

/-! ## Go runtime pieces used by the sources -/

/-- Go `error` values: the two sentinels of package `io`, the errors built with
`fmt.Errorf` (format string and arguments: unsigned numbers for `Errorf`, signed
ones for `Errorfi`, the text of another error for `Errorw`), and errors raised
by the packages the sources call into (network, AES, CCM, X.509). -/
inductive Error where
  | EOF
  | ErrUnexpectedEOF
  | Errorf (format : String) (args : List Nat)
  | Errorfi (format : String) (args : List Int)
  | Errorw (format : String) (cause : Error)
  | External (what : String)
deriving DecidableEq, Repr

/-- The type `bytes.Buffer`, as far as the sources use it: `done` holds the bytes
already read, the most recent first (`buf[:off]` reversed), `unread` is
`buf[off:]`, and `lastRead` says that the last operation was a read of at least
one byte (`lastRead != opInvalid`). -/
structure Buffer where
  done : List Nat
  unread : List Nat
  lastRead : Bool
deriving DecidableEq, Repr

/-- The zero `bytes.Buffer` (`var buffer bytes.Buffer`). -/
def Buffer.empty : Buffer := ⟨[], [], false⟩

/-- Go `bytes.NewBuffer(buf)`. -/
def NewBuffer (buf : List Nat) : Buffer := ⟨[], buf, false⟩

/-- Go `(*Buffer).Bytes`: the unread portion. -/
def Buffer.Bytes (b : Buffer) : List Nat := b.unread

/-- Go `(*Buffer).Len`. -/
def Buffer.Len (b : Buffer) : Nat := b.unread.length

/-- Go `(*Buffer).Reset`. -/
def Buffer.Reset (_b : Buffer) : Buffer := ⟨[], [], false⟩

/-- Go `(*Buffer).ReadByte`: `io.EOF` (after a reset) on an empty buffer. -/
def Buffer.ReadByte (b : Buffer) : Buffer × Nat × Option Error :=
  match b.unread with
  | [] => (b.Reset, 0, some Error.EOF)
  | c :: rest => (⟨c :: b.done, rest, true⟩, c, none)

/-- Go `(*Buffer).UnreadByte`: steps back one byte, only right after a
successful read; otherwise it returns an error (which no caller looks at) and
changes nothing. -/
def Buffer.UnreadByte (b : Buffer) : Buffer :=
  if b.lastRead then
    match b.done with
    | [] => ⟨[], b.unread, false⟩
    | c :: d => ⟨d, c :: b.unread, false⟩
  else b

/-- Go `(*Buffer).Read(p)` with `len(p) = n`: the bytes copied into the front of
`p`, and `io.EOF` when the buffer is empty and `n > 0`. -/
def Buffer.Read (b : Buffer) (n : Nat) : Buffer × List Nat × Option Error :=
  match b.unread with
  | [] => (b.Reset, [], if n = 0 then none else some Error.EOF)
  | c :: rest =>
    let got := (c :: rest).take n
    (⟨got.reverse ++ b.done, (c :: rest).drop n, decide (0 < got.length)⟩, got, none)

/-- Go `(*Buffer).Write`. -/
def Buffer.Write (b : Buffer) (p : List Nat) : Buffer := ⟨b.done, b.unread ++ p, false⟩

/-- Go `(*Buffer).WriteByte`. -/
def Buffer.WriteByte (b : Buffer) (c : Nat) : Buffer := b.Write [c]

/-- Go `io.ReadFull(r, bs)` on a `*bytes.Buffer` with `len(bs) = n`: one `Read`
gives all `n` bytes, or fewer; in the second case the next `Read` of the loop of
`io.ReadAtLeast` finds the buffer empty and the result is `io.EOF` when nothing
was read and `io.ErrUnexpectedEOF` otherwise.  The bytes read are consumed in
either case. -/
def ReadFull (b : Buffer) (n : Nat) : Buffer × Except Error (List Nat) :=
  match b.Read n with
  | (b1, got, err) =>
    if n ≤ got.length then (b1, Except.ok got)
    else
      match err with
      | some e => (b1, Except.error e)
      | none => ((b1.Read (n - got.length)).1, Except.error Error.ErrUnexpectedEOF)

/-- Little-endian bytes of `v`, `w` of them (`binary.LittleEndian.PutUintNN`). -/
def putLE : Nat → Nat → List Nat
  | 0, _ => []
  | w + 1, v => v % 256 :: putLE w (v / 256)

/-- Value of little-endian bytes (`binary.LittleEndian.UintNN`). -/
def getLE : List Nat → Nat
  | [] => 0
  | b :: bs => b + 256 * getLE bs

/-- Go `binary.Write(buf, binary.LittleEndian, v)` for an unsigned `v` of `w`
bytes. -/
def binaryWrite (b : Buffer) (w : Nat) (v : Nat) : Buffer := b.Write (putLE w v)

/-- Go `binary.Read(buf, binary.LittleEndian, &x)` for an unsigned `x` of `w`
bytes holding `cur`: the new value of `x` (unchanged when the read fails) and
the error. -/
def binaryRead (b : Buffer) (w : Nat) (cur : Nat) : Buffer × Nat × Option Error :=
  match ReadFull b w with
  | (b1, Except.ok bs) => (b1, getLE bs, none)
  | (b1, Except.error e) => (b1, cur, some e)

/-! ## tlv.go: TLV encoder and decoder -/

def TYPE_UINT_1 : Int := 4
def TYPE_UINT_2 : Int := 5
def TYPE_UINT_4 : Int := 6
def TYPE_UINT_8 : Int := 7

def PROTOCOL_ID_SECURE_CHANNEL : Nat := 0
def SEC_CHAN_OPCODE_ACK : Nat := 0x10
def SEC_CHAN_OPCODE_PBKDF_REQ : Nat := 0x20
def SEC_CHAN_OPCODE_PBKDF_RESP : Nat := 0x21
def SEC_CHAN_OPCODE_PAKE1 : Nat := 0x22
def SEC_CHAN_OPCODE_PAKE2 : Nat := 0x23
def SEC_CHAN_OPCODE_PAKE3 : Nat := 0x24
def SEC_CHAN_OPCODE_STATUS_REP : Nat := 0x40

/-- Go `type TLVBuffer struct { data bytes.Buffer }`. -/
structure TLVBuffer where
  data : Buffer
deriving DecidableEq, Repr

/-- Go `type TLVBufferDec struct { data *bytes.Buffer }`. -/
structure TLVBufferDec where
  data : Buffer
deriving DecidableEq, Repr

/-- Go `(*TLVBufferDec).checkAndSkip`. -/
def TLVBufferDec.checkAndSkip (b : TLVBufferDec) (d : Nat) : TLVBufferDec × Option Error :=
  match b.data.ReadByte with
  | (d1, _, some err) => (⟨d1⟩, some err)
  | (d1, o, none) =>
    if o ≠ d then
      (⟨d1.UnreadByte⟩, some (Error.Errorf "unexpected byte %x, expected %x" [o, d]))
    else (⟨d1⟩, none)

/-- The loop `for i:=0; i<did_read; i++ { b.data.UnreadByte() }`. -/
def unreadTimes : Nat → Buffer → Buffer
  | 0, b => b
  | n + 1, b => unreadTimes n b.UnreadByte

/-- The loop of `checkAndSkipBytes` over the bytes of `d` still to compare,
`all` being the whole of `d` (it is an argument of the error message). -/
def checkAndSkipBytesLoop (all : List Nat) : List Nat → Nat → Buffer → Buffer × Option Error
  | [], _, b => (b, none)
  | now :: more, did_read, b =>
    match b.ReadByte with
    | (b1, _, some err) => (b1, some err)
    | (b1, o, none) =>
      let did_read := did_read + 1
      if o ≠ now then
        (unreadTimes did_read b1, some (Error.Errorf "unexpected byte %x, expected %x" (o :: all)))
      else checkAndSkipBytesLoop all more did_read b1

/-- Go `(*TLVBufferDec).checkAndSkipBytes`. -/
def TLVBufferDec.checkAndSkipBytes (b : TLVBufferDec) (d : List Nat) : TLVBufferDec × Option Error :=
  match checkAndSkipBytesLoop d d 0 b.data with
  | (b1, err) => (⟨b1⟩, err)

/-- Go `(*TLVBufferDec).readOctetString`: the buffer afterwards, the bytes
returned (`nil` is `[]`) and the error. -/
def TLVBufferDec.readOctetString (b : TLVBufferDec) (itag : Nat) :
    TLVBufferDec × List Nat × Option Error :=
  match b.data.ReadByte with
  | (d1, _, some err) => (⟨d1⟩, [], some err)
  | (d1, ctrl, none) =>
    let tagtype := ctrl >>> 5
    if tagtype ≠ 1 then (⟨d1⟩, [], some (Error.Errorf "can't handle tag type %x" [ctrl]))
    else
      match d1.ReadByte with
      | (d2, _, some err) => (⟨d2⟩, [], some err)
      | (d2, tag, none) =>
        if tag ≠ itag then
          (⟨d2⟩, [], some (Error.Errorf "unexpected tag %d, expected %d" [tag, itag]))
        else
          let tp := ctrl &&& 0x1f
          if tp ≠ 0x10 then
            (⟨d2⟩, [], some (Error.Errorf "can't handle octet string type %x" [ctrl]))
          else
            match d2.ReadByte with
            | (d3, _, some err) => (⟨d3⟩, [], some err)
            | (d3, s, none) =>
              match d3.Read s with
              | (d4, _, some err) => (⟨d4⟩, [], some err)
              | (d4, got, none) =>
                let out := got ++ List.replicate (s - got.length) 0
                let n := got.length
                if n ≠ s then (⟨d4⟩, [], some (Error.Errorf "not able to read %d bytes" [s]))
                else (⟨d4⟩, out, none)

/-- Go `(*TLVBufferDec).readUInt`.  In the branches for the widths 2, 4 and 8
the result of `binary.Read` is dropped and the `err` tested afterwards is the
one of the tag read, which is `nil` there; `o` stays 0 when the read fails. -/
def TLVBufferDec.readUInt (b : TLVBufferDec) (itag : Nat) :
    TLVBufferDec × Nat × Option Error :=
  match b.data.ReadByte with
  | (d1, _, some err) => (⟨d1⟩, 0, some err)
  | (d1, ctrl, none) =>
    let tagtype := ctrl >>> 5
    if tagtype ≠ 1 then (⟨d1⟩, 0, some (Error.Errorf "can't handle tag type %x" [ctrl]))
    else
      match d1.ReadByte with
      | (d2, _, some err) => (⟨d2⟩, 0, some err)
      | (d2, tag, none) =>
        if tag ≠ itag then
          (⟨d2⟩, 0, some (Error.Errorf "unexpected tag %d, expected %d" [tag, itag]))
        else
          let tp : Int := ((ctrl &&& 0x1f : Nat) : Int)
          if tp = TYPE_UINT_1 then
            match d2.ReadByte with
            | (d3, _, some err) => (⟨d3⟩, 0, some err)
            | (d3, o, none) => (⟨d3⟩, o, none)
          else if tp = TYPE_UINT_2 then
            match binaryRead d2 2 0 with
            | (d3, o, _) => (⟨d3⟩, o, none)
          else if tp = TYPE_UINT_4 then
            match binaryRead d2 4 0 with
            | (d3, o, _) => (⟨d3⟩, o, none)
          else if tp = TYPE_UINT_8 then
            match binaryRead d2 8 0 with
            | (d3, o, _) => (⟨d3⟩, o, none)
          else (⟨d2⟩, 0, some (Error.Errorf "can't handle uint string type %x" [ctrl]))

/-- Go `(*TLVBuffer).writeControl`. -/
def TLVBuffer.writeControl (b : TLVBuffer) (ctrl : Nat) : TLVBuffer := ⟨b.data.Write [ctrl]⟩

/-- Go `(*TLVBuffer).writeTagContentSpecific`. -/
def TLVBuffer.writeTagContentSpecific (b : TLVBuffer) (tag : Nat) : TLVBuffer :=
  ⟨b.data.Write [tag]⟩

/-- Go `(*TLVBuffer).writeUInt(tag byte, typ int, val uint64)`. -/
def TLVBuffer.writeUInt (b : TLVBuffer) (tag : Nat) (typ : Int) (val : Nat) : TLVBuffer :=
  let ctrl := (0x1 <<< 5) % 256
  let ctrl := ctrl ||| (typ % 256).toNat
  let d := b.data.WriteByte ctrl
  let d := d.WriteByte tag
  if typ = TYPE_UINT_1 then ⟨d.WriteByte (val % 256)⟩
  else if typ = TYPE_UINT_2 then ⟨binaryWrite d 2 (val % 2 ^ 16)⟩
  else if typ = TYPE_UINT_4 then ⟨binaryWrite d 4 (val % 2 ^ 32)⟩
  else if typ = TYPE_UINT_8 then ⟨binaryWrite d 8 (val % 2 ^ 64)⟩
  else ⟨d⟩

/-- Go `(*TLVBuffer).writeOctetString`. -/
def TLVBuffer.writeOctetString (b : TLVBuffer) (tag : Nat) (data : List Nat) : TLVBuffer :=
  let ctrl := (0x1 <<< 5) % 256
  let ctrl := ctrl ||| 0x10
  let d := b.data.WriteByte ctrl
  let d := d.WriteByte tag
  let d := d.WriteByte (data.length % 256)
  ⟨d.Write data⟩

/-- Go `(*TLVBuffer).writeBool`. -/
def TLVBuffer.writeBool (b : TLVBuffer) (tag : Nat) (val : Bool) : TLVBuffer :=
  let ctrl := (0x1 <<< 5) % 256
  let ctrl := if val then ctrl ||| 0x8 else ctrl ||| 0x9
  let d := b.data.WriteByte ctrl
  ⟨d.WriteByte tag⟩

/-- Go `(*TLVBuffer).writeAnonStruct`. -/
def TLVBuffer.writeAnonStruct (b : TLVBuffer) : TLVBuffer := ⟨b.data.WriteByte 0x15⟩

/-- Go `(*TLVBuffer).writeAnonStructEnd`. -/
def TLVBuffer.writeAnonStructEnd (b : TLVBuffer) : TLVBuffer := ⟨b.data.WriteByte 0x18⟩

/-- The zero `TLVBuffer` (`var tlv TLVBuffer`). -/
def TLVBuffer.empty : TLVBuffer := ⟨Buffer.empty⟩

/-! ## tlv.go: message framing -/

/-- Go `type ProtocolMessage struct`. -/
structure ProtocolMessage where
  exchangeFlags : Nat
  opcode : Nat
  exchangeId : Nat
  protocolId : Nat
  ackCounter : Nat
deriving DecidableEq, Repr

/-- Go `type Message struct`; a `nil` slice is `[]`. -/
structure Message where
  sessionId : Nat
  securityFlags : Nat
  messageCounter : Nat
  sourceNodeId : List Nat
  destinationNodeId : List Nat
  prot : ProtocolMessage
deriving DecidableEq, Repr

/-- The zero `Message` (`var msgdec Message`). -/
def Message.zero : Message := ⟨0, 0, 0, [], [], ⟨0, 0, 0, 0, 0⟩⟩

/-- Go `(*Message).calcMessageFlags`. -/
def Message.calcMessageFlags (m : Message) : Nat :=
  let out := 0
  let out := if m.sourceNodeId.length = 8 then out ||| 4 else out
  let dsiz : Nat :=
    if m.destinationNodeId.length = 2 then 2
    else if m.destinationNodeId.length = 8 then 1
    else 0
  out ||| (dsiz % 256)

/-- Go `(*Message).encodeBase`. -/
def Message.encodeBase (m : Message) (data : Buffer) : Buffer :=
  let data := data.WriteByte m.calcMessageFlags
  let data := binaryWrite data 2 (m.sessionId % 2 ^ 16)
  let data := data.WriteByte m.securityFlags
  let data := binaryWrite data 4 (m.messageCounter % 2 ^ 32)
  let data := if m.sourceNodeId.length = 8 then data.Write m.sourceNodeId else data
  if m.destinationNodeId.length > 0 then data.Write m.destinationNodeId else data

/-- Go `(*Message).encode`. -/
def Message.encode (m : Message) (data : Buffer) : Buffer :=
  let data := data.WriteByte m.calcMessageFlags
  let data := binaryWrite data 2 (m.sessionId % 2 ^ 16)
  let data := data.WriteByte m.securityFlags
  let data := binaryWrite data 4 (m.messageCounter % 2 ^ 32)
  let data := if m.sourceNodeId.length = 8 then data.Write m.sourceNodeId else data
  let data := if m.destinationNodeId.length > 0 then data.Write m.destinationNodeId else data
  let data := data.WriteByte m.prot.exchangeFlags
  let data := data.WriteByte m.prot.opcode
  let data := binaryWrite data 2 (m.prot.exchangeId % 2 ^ 16)
  binaryWrite data 2 (m.prot.protocolId % 2 ^ 16)

/-- The statements `s = make([]byte, n); _, err := data.Read(s)`: the slice is
the bytes read padded with zeros to `n`. -/
def readSlice (data : Buffer) (n : Nat) : Buffer × List Nat × Option Error :=
  match data.Read n with
  | (d1, got, err) => (d1, got ++ List.replicate (n - got.length) 0, err)

/-- Last part of `(*Message).decode`, from the read of `exchangeFlags` on. -/
def Message.decodeProt (m : Message) (data : Buffer) : Message × Buffer × Option Error :=
  match data.ReadByte with
  | (d1, xf, err1) =>
    let m := { m with prot := { m.prot with exchangeFlags := xf } }
    match err1 with
    | some err => (m, d1, some err)
    | none =>
      match d1.ReadByte with
      | (d2, op, err2) =>
        let m := { m with prot := { m.prot with opcode := op } }
        match err2 with
        | some err => (m, d2, some err)
        | none =>
          match binaryRead d2 2 m.prot.exchangeId with
          | (d3, xid, _) =>
            let m := { m with prot := { m.prot with exchangeId := xid } }
            match binaryRead d3 2 m.prot.protocolId with
            | (d4, pid, _) =>
              let m := { m with prot := { m.prot with protocolId := pid } }
              if m.prot.exchangeFlags &&& 0x2 ≠ 0 then
                match binaryRead d4 4 m.prot.ackCounter with
                | (d5, ack, _) => ({ m with prot := { m.prot with ackCounter := ack } }, d5, none)
              else (m, d4, none)

/-- Middle part of `(*Message).decode`: the destination node id, selected by
the low two bits of `flags`. -/
def Message.decodeDest (m : Message) (flags : Nat) (data : Buffer) :
    Message × Buffer × Option Error :=
  if flags &&& 3 ≠ 0 then
    let dsiz := if flags &&& 3 = 1 then 8 else if flags &&& 3 = 2 then 2 else 0
    if dsiz ≠ 0 then
      match readSlice data dsiz with
      | (d1, dst, err) =>
        let m := { m with destinationNodeId := dst }
        match err with
        | some e => (m, d1, some e)
        | none => m.decodeProt d1
    else m.decodeProt data
  else m.decodeProt data

/-- Go `(*Message).decode`: the receiver afterwards, the buffer afterwards and
the error returned.  The results of `binary.Read` are not looked at. -/
def Message.decode (m : Message) (data : Buffer) : Message × Buffer × Option Error :=
  match data.ReadByte with
  | (d1, _, some err) => (m, d1, some err)
  | (d1, flags, none) =>
    match binaryRead d1 2 m.sessionId with
    | (d2, sid, _) =>
      let m := { m with sessionId := sid }
      match d2.ReadByte with
      | (d3, sf, err3) =>
        let m := { m with securityFlags := sf }
        match err3 with
        | some err => (m, d3, some err)
        | none =>
          match binaryRead d3 4 m.messageCounter with
          | (d4, ctr, _) =>
            let m := { m with messageCounter := ctr }
            if flags &&& 4 ≠ 0 then
              match readSlice d4 8 with
              | (d5, src, err5) =>
                let m := { m with sourceNodeId := src }
                match err5 with
                | some err => (m, d5, some err)
                | none => m.decodeDest flags d5
            else m.decodeDest flags d4

/-- Go `type StatusReport struct`. -/
structure StatusReport where
  generalCode : Nat
  protocolId : Nat
  protocolCode : Nat
deriving DecidableEq, Repr

/-- Go `decodeStatusReport`: the `StatusReport` of the `AllResp` returned.  The
results of `binary.Read` are not looked at. -/
def decodeStatusReport (buf : Buffer) : StatusReport × Buffer :=
  match binaryRead buf 2 0 with
  | (b1, generalCode, _) =>
    match binaryRead b1 4 0 with
    | (b2, protocolId, _) =>
      match binaryRead b2 2 0 with
      | (b3, protocolCode, _) => (⟨generalCode, protocolId, protocolCode⟩, b3)

/-- Go `Ack`. -/
def Ack (cnt : Nat) (counter : Nat) : List Nat :=
  let msg : Message :=
    { sessionId := 0x0, securityFlags := 0, messageCounter := cnt,
      sourceNodeId := [1, 2, 3, 4, 5, 6, 7, 8], destinationNodeId := [],
      prot := { exchangeFlags := 3, opcode := SEC_CHAN_OPCODE_ACK, exchangeId := 0xba3e,
                protocolId := 0x00, ackCounter := 0 } }
  let buffer := msg.encode Buffer.empty
  let buffer := binaryWrite buffer 4 (counter % 2 ^ 32)
  buffer.Bytes

/-- Go `Secured`. -/
def Secured (session : Nat) (counter : Nat) : List Nat :=
  let msg : Message :=
    { sessionId := session, securityFlags := 0, messageCounter := counter,
      sourceNodeId := [1, 2, 3, 4, 5, 6, 7, 8], destinationNodeId := [],
      prot := ⟨0, 0, 0, 0, 0⟩ }
  (msg.encodeBase Buffer.empty).Bytes

/-- Two messages agree on every field of the envelope. -/
def Message.sameEnvelope (a b : Message) : Prop :=
  a.sessionId = b.sessionId ∧ a.securityFlags = b.securityFlags ∧
  a.messageCounter = b.messageCounter ∧ a.sourceNodeId = b.sourceNodeId ∧
  a.destinationNodeId = b.destinationNodeId

/-! ## qr.go: base-38 QR payload

A Go `string` is the list of its bytes. -/

/-- The bytes of an ASCII string literal. -/
def ascii (s : String) : List Nat := s.toList.map Char.toNat

/-- Go `const alphabet`. -/
def alphabet : List Nat := ascii "0123456789ABCDEFGHIJKLMNOPQRSTUVWXYZ-."

/-- The loop of `a2n` from index `i` on, over the rest of the alphabet. -/
def a2nLoop (a : Nat) : Nat → List Nat → Option Nat
  | _, [] => none
  | i, c :: cs => if c = a then some i else a2nLoop a (i + 1) cs

/-- Go `a2n`: the index of `a` in the alphabet; `none` is `panic("")`. -/
def a2n (a : Nat) : Option Nat := a2nLoop a 0 alphabet

/-- Go `type BitBuffer struct`.  The `int` fields only count upwards from 0. -/
structure BitBuffer where
  bytes : List Nat
  current_byte : Nat
  current_bit : Nat
  total_bytes : Nat
deriving DecidableEq, Repr

/-- Go `(*BitBuffer).add_byte`. -/
def BitBuffer.add_byte (bb : BitBuffer) (n : Nat) : BitBuffer :=
  { bb with total_bytes := bb.total_bytes + 1, bytes := bb.bytes ++ [n] }

/-- Go `(*BitBuffer).get`: the bit and the buffer afterwards; `none` is the
index-out-of-range panic of `bb.bytes[bb.current_byte]`. -/
def BitBuffer.get (bb : BitBuffer) : Option (Nat × BitBuffer) :=
  match bb.bytes[bb.current_byte]? with
  | none => none
  | some b =>
    let out := (b >>> bb.current_bit) &&& 1
    let bb := { bb with current_bit := bb.current_bit + 1 }
    if bb.current_bit = 8 then
      some (out, { bb with current_byte := bb.current_byte + 1, current_bit := 0 })
    else some (out, bb)

/-- The loop of `get_number` with `k` rounds to go; `out` and `mult` are
`uint64`. -/
def get_numberLoop : Nat → Nat → Nat → BitBuffer → Option (Nat × BitBuffer)
  | 0, out, _, bb => some (out, bb)
  | k + 1, out, mult, bb =>
    match bb.get with
    | none => none
    | some (g, bb1) =>
      get_numberLoop k ((out + g * mult % 2 ^ 64) % 2 ^ 64) (mult * 2 % 2 ^ 64) bb1

/-- Go `(*BitBuffer).get_number`. -/
def BitBuffer.get_number (bb : BitBuffer) (bits : Nat) : Option (Nat × BitBuffer) :=
  get_numberLoop bits 0 1 bb

/-- Go `(*BitBuffer).get_bit`; `none` is the index-out-of-range panic. -/
def BitBuffer.get_bit (bb : BitBuffer) (n : Nat) : Option Nat :=
  let b_byte := n / 8
  let b_bit := n % 8
  match bb.bytes[b_byte]? with
  | none => none
  | some b => some ((b >>> b_bit) &&& 1)

/-- Go `(*BitBuffer).reset_ptr`. -/
def BitBuffer.reset_ptr (bb : BitBuffer) : BitBuffer :=
  { bb with current_bit := 0, current_byte := 0 }

/-- The first loop of `b38_decode`: groups of 5 bytes, then what is left. -/
def in_array : List Nat → List (List Nat)
  | a :: b :: c :: d :: e :: rest => [a, b, c, d, e] :: in_array rest
  | [] => []
  | rest => [rest]

/-- One step of `for _, n := range a` over a Go string: the code point at the
front of the bytes and its width, the code point being `0xFFFD` with width 1
where the bytes are not valid UTF-8 (`utf8.DecodeRuneInString`). -/
def decodeRune : List Nat → Nat × Nat
  | [] => (0xFFFD, 0)
  | s0 :: t =>
    if s0 < 0x80 then (s0, 1)
    else if s0 < 0xC2 ∨ 0xF4 < s0 then (0xFFFD, 1)
    else
      let sz := if s0 < 0xE0 then 2 else if s0 < 0xF0 then 3 else 4
      let lo := if s0 = 0xE0 then 0xA0 else if s0 = 0xF0 then 0x90 else 0x80
      let hi := if s0 = 0xED then 0x9F else if s0 = 0xF4 then 0x8F else 0xBF
      if t.length + 1 < sz then (0xFFFD, 1)
      else
        match t with
        | [] => (0xFFFD, 1)
        | s1 :: t1 =>
          if s1 < lo ∨ hi < s1 then (0xFFFD, 1)
          else if sz ≤ 2 then (((s0 &&& 0x1F) <<< 6) ||| (s1 &&& 0x3F), 2)
          else
            match t1 with
            | [] => (0xFFFD, 1)
            | s2 :: t2 =>
              if s2 < 0x80 ∨ 0xBF < s2 then (0xFFFD, 1)
              else if sz ≤ 3 then
                (((s0 &&& 0x0F) <<< 12) ||| ((s1 &&& 0x3F) <<< 6) ||| (s2 &&& 0x3F), 3)
              else
                match t2 with
                | [] => (0xFFFD, 1)
                | s3 :: _ =>
                  if s3 < 0x80 ∨ 0xBF < s3 then (0xFFFD, 1)
                  else
                    (((s0 &&& 0x07) <<< 18) ||| ((s1 &&& 0x3F) <<< 12) |||
                      ((s2 &&& 0x3F) <<< 6) ||| (s3 &&& 0x3F), 4)

/-- The code points `for _, n := range a` goes through; every step takes at
least one byte, so `fuel = len(a)` steps are enough. -/
def runesAux : Nat → List Nat → List Nat
  | 0, _ => []
  | _ + 1, [] => []
  | fuel + 1, c :: cs =>
    (decodeRune (c :: cs)).1 :: runesAux fuel ((c :: cs).drop (decodeRune (c :: cs)).2)

/-- The code points of a Go string, in order. -/
def runes (a : List Nat) : List Nat := runesAux a.length a

/-- The loop `for _, n := range(a) { b24 += a2n(byte(n))*uint32(mult); mult *= 38 }`
over the code points still to come; `b24` is `uint32`, `mult` is `int` (a group
has at most 5 code points, so `mult` stays below `38^5`). -/
def b24Loop : List Nat → Nat → Nat → Option Nat
  | [], b24, _ => some b24
  | n :: ns, b24, mult =>
    match a2n (n % 256) with
    | none => none
    | some v => b24Loop ns ((b24 + v * (mult % 2 ^ 32) % 2 ^ 32) % 2 ^ 32) (mult * 38)

/-- The loop `for i:=0; i<3; i++ { bb.add_byte(byte(b24&0xff)); b24 = b24 >>8 }`. -/
def add3 (bb : BitBuffer) (b24 : Nat) : BitBuffer :=
  let bb := bb.add_byte ((b24 &&& 0xff) % 256)
  let b24 := b24 >>> 8
  let bb := bb.add_byte ((b24 &&& 0xff) % 256)
  let b24 := b24 >>> 8
  bb.add_byte ((b24 &&& 0xff) % 256)

/-- The loop `for _, a := range in_array` of `b38_decode`. -/
def b38_decodeLoop : List (List Nat) → BitBuffer → Option BitBuffer
  | [], bb => some bb
  | a :: more, bb =>
    match b24Loop (runes a) 0 1 with
    | none => none
    | some b24 => b38_decodeLoop more (add3 bb b24)

/-- Go `b38_decode`; `none` is the panic of `a2n`. -/
def b38_decode (s : List Nat) : Option BitBuffer :=
  b38_decodeLoop (in_array s) ⟨[], 0, 0, 0⟩

/-- Go `type QrContent struct`. -/
structure QrContent where
  version : Nat
  vendor : Nat
  product : Nat
  discriminator : Nat
  passcode : Nat
deriving DecidableEq, Repr

/-- Go `decode_qr_text`; `none` is a panic (`"wrong qr"`, `a2n`, or an index out
of range in `get`). -/
def decode_qr_text (s : List Nat) : Option QrContent :=
  if s.take 3 ≠ ascii "MT:" then none
  else
    let s := s.drop 3
    match b38_decode s with
    | none => none
    | some bb =>
      let bb := bb.reset_ptr
      match bb.get_number 3 with
      | none => none
      | some (version, bb) =>
        match bb.get_number 16 with
        | none => none
        | some (vendor, bb) =>
          match bb.get_number 16 with
          | none => none
          | some (product, bb) =>
            match bb.get_number 2 with
            | none => none
            | some (_, bb) =>
              match bb.get_number 8 with
              | none => none
              | some (_, bb) =>
                match bb.get_number 12 with
                | none => none
                | some (discriminator, bb) =>
                  match bb.get_number 27 with
                  | none => none
                  | some (passcode, _) =>
                    some { version := version % 2 ^ 8, vendor := vendor % 2 ^ 16,
                           product := product % 2 ^ 16,
                           discriminator := discriminator % 2 ^ 16,
                           passcode := passcode % 2 ^ 32 }

/-- Bit `k` of the bit stream of `bytes`, every byte taken least significant
bit first (0 past the end of the bytes). -/
def streamBit (bytes : List Nat) (k : Nat) : Nat := bytes.getD (k / 8) 0 / 2 ^ (k % 8) % 2

/-- The field of `n` bits that starts at bit `lo` of the bit stream, its first
bit being the least significant. -/
def streamField (bytes : List Nat) : Nat → Nat → Nat
  | _, 0 => 0
  | lo, n + 1 => streamBit bytes lo + 2 * streamField bytes (lo + 1) n

/-- The groups of a base-38 string: consecutive groups of 5 characters, the
last one of 1 to 4 characters when the length is no multiple of 5. -/
def groupsOf5 (s : List Nat) : List (List Nat) :=
  (List.range ((s.length + 4) / 5)).map (fun k => (s.drop (5 * k)).take 5)

/-- The value of a group `g`: the sum over `i` of `a2n(g[i]) * 38^i` (a
character outside the alphabet counts 0). -/
def groupValue (g : List Nat) : Nat :=
  ((List.range g.length).map (fun i => (a2n (g.getD i 0)).getD 0 * 38 ^ i)).sum

/-- The three bytes of a group of value `v`: `v mod 256`, `(v / 2^8) mod 256`,
`(v / 2^16) mod 256`. -/
def groupBytes (g : List Nat) : List Nat :=
  [groupValue g % 256, groupValue g / 2 ^ 8 % 256, groupValue g / 2 ^ 16 % 256]

/-! ## securechannel.go

The types `MessageHeader`, `ProtocolHeader`, `DecodedGeneric` and
`StatusReportElements`, the functions `MessageHeader.Encode`,
`MessageHeader.Decode`, `ProtocolHeader.Decode`, `ackGen` and
`EncodeStatusReport`, and the packages `ccm` and `mattertlv` are not among the
sources; the functions are parameters of the model (`Deps`), together with
`aes.NewCipher` and the outcome of a socket write. -/

/-- Modelled from the spec: the type `MessageHeader` is not among the sources;
these are the envelope fields of §3, under the names `Send` gives them. -/
structure MessageHeader where
  sessionId : Nat
  securityFlags : Nat
  messageCounter : Nat
  sourceNodeId : List Nat
  destinationNodeId : List Nat
deriving DecidableEq, Repr

/-- Modelled from the spec: the type `ProtocolHeader` is not among the sources;
these are the protocol header fields of §3, `ProtocolId` and `Opcode` under the
names `Receive` uses. -/
structure ProtocolHeader where
  ExchangeFlags : Nat
  Opcode : Nat
  ExchangeId : Nat
  ProtocolId : Nat
  AckCounter : Nat
deriving DecidableEq, Repr

/-- Modelled from the spec: the type `StatusReportElements` is not among the
sources; `Receive` and `Close` use these three fields (`uint16`, `uint32`,
`uint16` by §6). -/
structure StatusReportElements where
  GeneralCode : Nat
  ProtocolId : Nat
  ProtocolCode : Nat
deriving DecidableEq, Repr

/-- Modelled from the spec: the type `DecodedGeneric` is not among the sources;
these are the fields `Receive` and `flows.go` use, `T` being
`mattertlv.TlvItem`. -/
structure DecodedGeneric (T : Type) where
  MessageHeader : MessageHeader
  ProtocolHeader : ProtocolHeader
  Payload : List Nat
  StatusReport : StatusReportElements
  Tlv : T

/-- What `securechannel.go` calls into.  `Block` is `cipher.Block`, `CCM` the
value `ccm.NewCCM` returns and `TlvItem` is `mattertlv.TlvItem` with zero value
`TlvZero`.  `Encode` gives the bytes `(*MessageHeader).Encode` writes; the two
`Decode` functions give the header decoded into a zero header and the number of
bytes taken from the front of the buffer (their errors are not looked at by
`Receive`); `WriteTo` is the error, if any, of writing a datagram to an open
socket. -/
structure Deps where
  Block : Type
  CCM : Type
  TlvItem : Type
  TlvZero : TlvItem
  Encode : MessageHeader → List Nat
  DecodeMessageHeader : List Nat → MessageHeader × Nat
  DecodeProtocolHeader : List Nat → ProtocolHeader × Nat
  ackGen : ProtocolHeader → Nat → List Nat
  EncodeStatusReport : StatusReportElements → List Nat
  NewCipher : List Nat → Except Error Block
  NewCCM : Block → Nat → Nat → Except Error CCM
  Seal : CCM → List Nat → List Nat → List Nat → List Nat
  Open : CCM → List Nat → List Nat → List Nat → Except Error (List Nat)
  Decode : List Nat → TlvItem
  WriteTo : List Nat → Option Error

/-- A bound UDP socket (`net.PacketConn`): the datagrams that will arrive, in
order, the datagrams written, oldest first, and whether it has been closed. -/
structure PacketConn where
  inbound : List (List Nat)
  outbound : List (List Nat)
  closed : Bool
deriving DecidableEq, Repr

/-- Go `type udpChannel struct`; the interface value `Udp` is `none` when `nil`.
The remote address is an IP and a port. -/
structure udpChannel where
  Udp : Option PacketConn
  Remote_address : List Nat × Nat
deriving DecidableEq, Repr

/-- Go `(*udpChannel).send`; `none` is the panic of a call on a `nil`
interface. -/
def udpChannel.send (D : Deps) (ch : udpChannel) (data : List Nat) :
    Option (udpChannel × Option Error) :=
  match ch.Udp with
  | none => none
  | some c =>
    if c.closed then some (ch, some (Error.External "use of closed network connection"))
    else
      match D.WriteTo data with
      | some e => some (ch, some e)
      | none => some ({ ch with Udp := some { c with outbound := c.outbound ++ [data] } }, none)

/-- Go `make_nonce3`. -/
def make_nonce3 (counter : Nat) (node : List Nat) : List Nat :=
  let n := Buffer.empty
  let n := n.WriteByte 0
  let n := binaryWrite n 4 (counter % 2 ^ 32)
  let n := n.Write node
  n.Bytes

/-- Go `type SecureChannel struct`; the pointer `Udp` is `none` when `nil`, and
otherwise holds the `udpChannel` it points to. -/
structure SecureChannel where
  Udp : Option udpChannel
  encrypt_key : List Nat
  decrypt_key : List Nat
  remote_node : List Nat
  local_node : List Nat
  Counter : Nat
  session : Int
deriving DecidableEq, Repr

/-- The zero `SecureChannel` (`SecureChannel{}`). -/
def SecureChannel.zero : SecureChannel := ⟨none, [], [], [], [], 0, 0⟩

/-- What one call of `Send` did: the `MessageHeader` it built, the bytes it
handed to `sc.Udp.send` (when it got that far) and the error it returned. -/
structure SendRecord where
  msg : MessageHeader
  datagram : Option (List Nat)
  err : Option Error
deriving DecidableEq, Repr

/-- Go `(*SecureChannel).Send`: the channel afterwards and the record of the
call; `none` is a nil-pointer panic in `sc.Udp.send`. -/
def SecureChannel.Send (D : Deps) (sc : SecureChannel) (data : List Nat) :
    Option (SecureChannel × SendRecord) :=
  let sc := { sc with Counter := (sc.Counter + 1) % 2 ^ 32 }
  let buffer := Buffer.empty
  let msg : MessageHeader :=
    { sessionId := (sc.session % 2 ^ 16).toNat, securityFlags := 0,
      messageCounter := sc.Counter, sourceNodeId := [1, 2, 3, 4, 5, 6, 7, 8],
      destinationNodeId := [] }
  let buffer := buffer.Write (D.Encode msg)
  let transmit (buffer : Buffer) : Option (SecureChannel × SendRecord) :=
    match sc.Udp with
    | none => none
    | some ch =>
      match ch.send D buffer.Bytes with
      | none => none
      | some (ch1, err) => some ({ sc with Udp := some ch1 }, ⟨msg, some buffer.Bytes, err⟩)
  if sc.encrypt_key.length = 0 then
    transmit (buffer.Write data)
  else
    let header_slice := buffer.Bytes
    let add2 := header_slice
    let nonce := make_nonce3 sc.Counter sc.local_node
    match D.NewCipher sc.encrypt_key with
    | Except.error err => some (sc, ⟨msg, none, some err⟩)
    | Except.ok c =>
      match D.NewCCM c 16 nonce.length with
      | Except.error err => some (sc, ⟨msg, none, some err⟩)
      | Except.ok ccm =>
        let CipherText := D.Seal ccm nonce data add2
        transmit (buffer.Write CipherText)

/-- The zero `DecodedGeneric` (`DecodedGeneric{}`). -/
def DecodedGeneric.zero (D : Deps) : DecodedGeneric D.TlvItem :=
  ⟨⟨0, 0, 0, [], []⟩, ⟨0, 0, 0, 0, 0⟩, [], ⟨0, 0, 0⟩, D.TlvZero⟩

/-- The statements of `Receive` from `decode_buffer := bytes.NewBuffer(data)`
to the end of `if len(sc.decrypt_key) > 0 { ... } else { ... }`: the record
`out` with both headers and the payload, or the error `Receive` returns. -/
def SecureChannel.decodeDatagram (D : Deps) (sc : SecureChannel) (data : List Nat) :
    Except Error (DecodedGeneric D.TlvItem) :=
  let out := DecodedGeneric.zero D
  let out := { out with MessageHeader := (D.DecodeMessageHeader data).1 }
  let decode_buffer := data.drop (D.DecodeMessageHeader data).2
  let add := data.take (data.length - decode_buffer.length)
  let proto := decode_buffer
  if sc.decrypt_key.length > 0 then
    let nonce := make_nonce3 out.MessageHeader.messageCounter sc.remote_node
    match D.NewCipher sc.decrypt_key with
    | Except.error err => Except.error err
    | Except.ok c =>
      match D.NewCCM c 16 nonce.length with
      | Except.error err => Except.error err
      | Except.ok ccm =>
        match D.Open ccm nonce proto add with
        | Except.error err => Except.error err
        | Except.ok outx =>
          Except.ok { out with ProtocolHeader := (D.DecodeProtocolHeader outx).1,
                               Payload := outx.drop (D.DecodeProtocolHeader outx).2 }
  else
    Except.ok { out with ProtocolHeader := (D.DecodeProtocolHeader decode_buffer).1,
                         Payload := decode_buffer.drop (D.DecodeProtocolHeader decode_buffer).2 }

/-- The three `binary.Read` calls of `Receive` on the payload of a status
report; their results are not looked at. -/
def readStatusReport (payload : List Nat) : StatusReportElements :=
  let buf := NewBuffer payload
  match binaryRead buf 2 0 with
  | (b1, GeneralCode, _) =>
    match binaryRead b1 4 0 with
    | (b2, ProtocolId, _) =>
      match binaryRead b2 2 0 with
      | (_, ProtocolCode, _) => ⟨GeneralCode, ProtocolId, ProtocolCode⟩

/-- What one call of `Receive` gives: the channel afterwards, the record and the
error returned, and the records of the calls of `Send` it made, in order. -/
structure ReceiveResult (D : Deps) where
  sc : SecureChannel
  out : DecodedGeneric D.TlvItem
  err : Option Error
  sends : List SendRecord

/-- The channel `sc` with socket `c` of `ch`, its queue of datagrams to come
replaced by `q`. -/
def SecureChannel.withInbound (sc : SecureChannel) (ch : udpChannel) (c : PacketConn)
    (q : List (List Nat)) : SecureChannel :=
  { sc with Udp := some { ch with Udp := some { c with inbound := q } } }

/-- Go `(*SecureChannel).Receive` on an open socket `c` of `ch`, by recursion on
the datagrams still to come: the read times out when there is none; a
standalone ACK makes `Receive` call itself on the rest.  `ReadFrom` fills a
buffer of `1024*10` bytes.  `none` is a panic inside `Send`. -/
def SecureChannel.ReceiveFrom (D : Deps) (sc : SecureChannel) (ch : udpChannel)
    (c : PacketConn) : List (List Nat) → Option (ReceiveResult D)
  | [] =>
    some ⟨sc.withInbound ch c [], DecodedGeneric.zero D, some (Error.External "i/o timeout"), []⟩
  | dgram :: rest =>
    let sc1 := sc.withInbound ch c rest
    let data := dgram.take (1024 * 10)
    match sc1.decodeDatagram D data with
    | Except.error err => some ⟨sc1, DecodedGeneric.zero D, some err, []⟩
    | Except.ok out =>
      if out.ProtocolHeader.ProtocolId = 0 ∧ out.ProtocolHeader.Opcode = SEC_CHAN_OPCODE_ACK then
        SecureChannel.ReceiveFrom D sc ch c rest
      else
        let ack := D.ackGen out.ProtocolHeader out.MessageHeader.messageCounter
        match sc1.Send D ack with
        | none => none
        | some (sc2, rec) =>
          if out.ProtocolHeader.ProtocolId = 0 ∧
              out.ProtocolHeader.Opcode = SEC_CHAN_OPCODE_STATUS_REP then
            some ⟨sc2, { out with StatusReport := readStatusReport out.Payload }, none, [rec]⟩
          else if out.Payload.length > 0 then
            some ⟨sc2, { out with Tlv := D.Decode out.Payload }, none, [rec]⟩
          else some ⟨sc2, out, none, [rec]⟩

/-- Go `(*SecureChannel).Receive`; `none` is a panic (a `nil` `Udp`, or inside
`Send`).  On a closed socket `ReadFrom` fails. -/
def SecureChannel.Receive (D : Deps) (sc : SecureChannel) : Option (ReceiveResult D) :=
  match sc.Udp with
  | none => none
  | some ch =>
    match ch.Udp with
    | none => none
    | some c =>
      if c.closed then
        some ⟨sc, DecodedGeneric.zero D,
          some (Error.External "use of closed network connection"), []⟩
      else SecureChannel.ReceiveFrom D sc ch c c.inbound

/-- Go `(*SecureChannel).Close`; `none` is a panic inside `Send`. -/
def SecureChannel.Close (D : Deps) (sc : SecureChannel) : Option (SecureChannel × List SendRecord) :=
  match sc.Udp with
  | none => some (sc, [])
  | some ch =>
    match ch.Udp with
    | none => some (sc, [])
    | some _ =>
      let sr := D.EncodeStatusReport ⟨0, 0, 3⟩
      match sc.Send D sr with
      | none => none
      | some (sc1, rec) =>
        match sc1.Udp with
        | none => none
        | some ch1 =>
          match ch1.Udp with
          | none => none
          | some c1 =>
            some ({ sc1 with Udp := some { ch1 with Udp := some { c1 with closed := true } } },
              [rec])

/-- A call of `Send` or of `Receive` on a channel. -/
inductive Call where
  | send (data : List Nat)
  | receive
deriving DecidableEq, Repr

/-- A sequence of calls on one channel, one after the other: the channel at the
end and the records of all calls of `Send` made, those inside `Receive`
included, in order; `none` when a call panics. -/
def SecureChannel.run (D : Deps) : List Call → SecureChannel → Option (SecureChannel × List SendRecord)
  | [], sc => some (sc, [])
  | Call.send data :: calls, sc =>
    match sc.Send D data with
    | none => none
    | some (sc1, rec) =>
      match SecureChannel.run D calls sc1 with
      | none => none
      | some (sc2, recs) => some (sc2, rec :: recs)
  | Call.receive :: calls, sc =>
    match sc.Receive D with
    | none => none
    | some r =>
      match SecureChannel.run D calls r.sc with
      | none => none
      | some (sc2, recs) => some (sc2, r.sends ++ recs)

/-- The `MessageHeader` a call of `Send` on `sc` builds. -/
def sendHeader (sc : SecureChannel) : MessageHeader :=
  ⟨(sc.session % 2 ^ 16).toNat, 0, (sc.Counter + 1) % 2 ^ 32, [1, 2, 3, 4, 5, 6, 7, 8], []⟩

/-- The socket of `sc` is bound: neither `sc.Udp` nor `sc.Udp.Udp` is `nil`. -/
def SecureChannel.started (sc : SecureChannel) : Prop :=
  ∃ ch c, sc.Udp = some ch ∧ ch.Udp = some c

/-- The datagram `dgram` is, for `Receive` on `sc`, a standalone ACK: it decodes
(and, with a `decrypt_key`, opens) to protocol id 0 and opcode `0x10`. -/
def SecureChannel.isStandaloneAck (D : Deps) (sc : SecureChannel) (dgram : List Nat) : Prop :=
  ∃ out, sc.decodeDatagram D (dgram.take (1024 * 10)) = Except.ok out ∧
    out.ProtocolHeader.ProtocolId = 0 ∧ out.ProtocolHeader.Opcode = SEC_CHAN_OPCODE_ACK

/-! ## flows.go

The SPAKE2+ context, the methods of the Sigma context, the certificate manager,
the message builders and the package `mattertlv` are not among the sources; they
are parameters of the model (`FlowDeps`).  The numbers a run draws with
`math/rand`, `CreateRandomBytes` and `ecdh.GenerateKey` are inputs of the
functions, and so is the outcome of `net.ListenPacket`.  Lines written with
`log.Printf` are not part of the model. -/

/-- Modelled from the spec: the constant `ProtocolIdSecureChannel` is not among
the sources; §6 gives the secure-channel protocol the id 0, as
`PROTOCOL_ID_SECURE_CHANNEL` of `tlv.go` has it. -/
def ProtocolIdSecureChannel : Nat := 0

/-- Modelled from the spec: the type `sigmaContext` is not among the sources;
these are the fields `SigmaExchange` reads and writes, with `K` the ECDH key,
`P` the ECDSA private key (a pointer, `none` when `nil`), `T` the TLV item and
`other` whatever else the methods of the context keep. -/
structure sigmaContext (K P T S : Type) where
  session_privkey : K
  exchange : Nat
  sigma1payload : List Nat
  sigma2dec : DecodedGeneric T
  controller_key : Option P
  controller_matter_certificate : List Nat
  i2rkey : List Nat
  r2ikey : List Nat
  session : Int
  other : S

/-- What `flows.go` calls into, on top of what `securechannel.go` does.
`SpakeCtx` is the SPAKE2+ context with its methods (`Gen_random_X` stands for
one draw of the scalar), `X_As_bytes ctx` is `ctx.X.As_bytes()`, `Y_from_bytes`
is `ctx.Y.from_bytes`, `calc_hash` gives the context afterwards and the error
returned, and `cA`, `cB`, `spake_encrypt_key`, `spake_decrypt_key` read the
fields `cA`, `cB`, `encrypt_key`, `decrypt_key` of the context.  `GetIntRec` gives
the value and the error; `GetOctetStringRec` gives the bytes (empty when
absent).  The three `Write` functions of `mattertlv.TLVBuffer` give the bytes of
the buffer after the write, from the bytes before, the tag and the value.
`ecdsaPublicKey` is the type assertion `csrp.PublicKey.(*ecdsa.PublicKey)`,
`none` when it panics. -/
structure FlowDeps extends Deps where
  Fabric : Type
  SpakeCtx : Type
  EcdhKey : Type
  PrivateKey : Type
  PublicKey : Type
  Certificate : Type
  CertificateRequest : Type
  SigmaState : Type
  SigmaZero : SigmaState
  GetOctetStringRec : TlvItem → List Int → List Nat
  GetIntRec : TlvItem → List Int → Nat × Option Error
  WriteOctetString : List Nat → Nat → List Nat → List Nat
  WriteUInt64 : List Nat → Nat → Nat → List Nat
  WriteUInt16 : List Nat → Nat → Nat → List Nat
  pBKDFParamRequest : Nat → List Nat
  pake1ParamRequest : Nat → List Nat → List Nat
  pake3ParamRequest : Nat → List Nat → List Nat
  NewSpaceCtx : SpakeCtx
  Gen_w : SpakeCtx → Int → List Nat → Int → SpakeCtx
  Gen_random_X : SpakeCtx → SpakeCtx
  Calc_X : SpakeCtx → SpakeCtx
  X_As_bytes : SpakeCtx → List Nat
  Y_from_bytes : SpakeCtx → List Nat → SpakeCtx
  calc_ZV : SpakeCtx → SpakeCtx
  calc_hash : SpakeCtx → List Nat → SpakeCtx × Option Error
  cA : SpakeCtx → List Nat
  cB : SpakeCtx → List Nat
  spake_encrypt_key : SpakeCtx → List Nat
  spake_decrypt_key : SpakeCtx → List Nat
  genSigma1 : sigmaContext EcdhKey PrivateKey TlvItem SigmaState → Fabric → Nat →
    sigmaContext EcdhKey PrivateKey TlvItem SigmaState
  genSigma1Req2 : List Nat → Nat → List Nat
  sigma3 : sigmaContext EcdhKey PrivateKey TlvItem SigmaState → Fabric →
    sigmaContext EcdhKey PrivateKey TlvItem SigmaState × Except Error (List Nat)
  GetPrivkey : Fabric → Nat → Except Error PrivateKey
  GetCertificate : Fabric → Nat → Except Error Certificate
  GetCaCertificate : Fabric → Certificate
  SignCertificate : Fabric → PublicKey → Nat → Except Error Certificate
  SerializeCertificateIntoMatter : Fabric → Certificate → List Nat
  ipk : Fabric → List Nat
  IsOk : StatusReportElements → Bool
  id_to_bytes : Nat → List Nat
  EncodeIMInvokeRequest : Nat → Nat → Nat → List Nat → Bool → Nat → List Nat
  ParseImInvokeResponse : TlvItem → Int
  ParseCertificateRequest : List Nat → Except Error CertificateRequest
  ecdsaPublicKey : CertificateRequest → Option PublicKey

/-- The Sigma context over the types of `D`. -/
abbrev FlowDeps.Sigma (D : FlowDeps) : Type :=
  sigmaContext D.EcdhKey D.PrivateKey D.TlvItem D.SigmaState

/-- Go conversion `int(v)` of a `uint64` (two's complement, 64-bit `int`). -/
def intOfUint64 (v : Nat) : Int :=
  if v % 2 ^ 64 < 2 ^ 63 then ((v % 2 ^ 64 : Nat) : Int) else ((v % 2 ^ 64 : Nat) : Int) - 2 ^ 64

/-- What a handshake leaves behind: the `SecureChannel` and the error it
returns, the `udpChannel` behind the pointer that all channel values of the run
share, as the run left it, and the records of the calls of `Send` made, those
inside `Receive` included, in order. -/
structure FlowResult where
  sc : SecureChannel
  err : Option Error
  udp : Option udpChannel
  sends : List SendRecord
deriving DecidableEq, Repr

/-- Go `Spake2pExchange`, from `pake2_pb := ...` to the end; `none` is a panic
(the slice `pbkdf_request[6:]` of a shorter request, or inside `Send` or
`Receive`). -/
def Spake2pExchange.confirm (D : FlowDeps) (exchange : Nat) (secure_channel : SecureChannel)
    (sctx : D.SpakeCtx) (pbkdf_request : List Nat)
    (pbkdf_responseS pake2s : DecodedGeneric D.TlvItem) (pbkdf_response_session : Nat)
    (sends : List SendRecord) : Option FlowResult :=
  let pake2_pb := D.GetOctetStringRec pake2s.Tlv [1]
  let sctx := D.Y_from_bytes sctx pake2_pb
  let sctx := D.calc_ZV sctx
  let ttseed := ascii "CHIP PAKE V1 Commissioning"
  if pbkdf_request.length < 6 then none
  else
    let ttseed := ttseed ++ pbkdf_request.drop 6
    let ttseed := ttseed ++ pbkdf_responseS.Payload
    match D.calc_hash sctx ttseed with
    | (_, some err) => some ⟨SecureChannel.zero, some err, secure_channel.Udp, sends⟩
    | (sctx, none) =>
      let pake3 := D.pake3ParamRequest exchange (D.cA sctx)
      match secure_channel.Send D.toDeps pake3 with
      | none => none
      | some (secure_channel, rec) =>
        match secure_channel.Receive D.toDeps with
        | none => none
        | some r =>
          let sends := sends ++ rec :: r.sends
          match r.err with
          | some err => some ⟨SecureChannel.zero, some err, r.sc.Udp, sends⟩
          | none =>
            let status_report := r.out
            if status_report.StatusReport.ProtocolCode ≠ 0 then
              some ⟨SecureChannel.zero,
                some (Error.Errorf "pake3 is not success code: %d"
                  [status_report.StatusReport.ProtocolCode]), r.sc.Udp, sends⟩
            else
              some ⟨{ Udp := r.sc.Udp, decrypt_key := D.spake_decrypt_key sctx,
                      encrypt_key := D.spake_encrypt_key sctx,
                      remote_node := [0, 0, 0, 0, 0, 0, 0, 0],
                      local_node := [0, 0, 0, 0, 0, 0, 0, 0], Counter := 0,
                      session := intOfUint64 pbkdf_response_session }, none, r.sc.Udp, sends⟩

/-- Go `Spake2pExchange`, from `sctx := NewSpaceCtx()` to the checks on the
message received in reply to Pake1. -/
def Spake2pExchange.pake (D : FlowDeps) (pin : Int) (exchange : Nat)
    (secure_channel : SecureChannel) (pbkdf_request : List Nat)
    (pbkdf_responseS : DecodedGeneric D.TlvItem) (pbkdf_response_salt : List Nat)
    (pbkdf_response_iterations pbkdf_response_session : Nat) (sends : List SendRecord) :
    Option FlowResult :=
  let sctx := D.NewSpaceCtx
  let sctx := D.Gen_w sctx pin pbkdf_response_salt (intOfUint64 pbkdf_response_iterations)
  let sctx := D.Gen_random_X sctx
  let sctx := D.Calc_X sctx
  let pake1 := D.pake1ParamRequest exchange (D.X_As_bytes sctx)
  match secure_channel.Send D.toDeps pake1 with
  | none => none
  | some (secure_channel, rec) =>
    match secure_channel.Receive D.toDeps with
    | none => none
    | some r =>
      let sends := sends ++ rec :: r.sends
      match r.err with
      | some err =>
        some ⟨SecureChannel.zero, some (Error.Errorw "pake2 not received: %s" err), r.sc.Udp,
          sends⟩
      | none =>
        let pake2s := r.out
        if pake2s.ProtocolHeader.Opcode ≠ SEC_CHAN_OPCODE_PAKE2 then
          some ⟨SecureChannel.zero, some (Error.Errorf "SEC_CHAN_OPCODE_PAKE2 not received" []),
            r.sc.Udp, sends⟩
        else
          Spake2pExchange.confirm D exchange r.sc sctx pbkdf_request pbkdf_responseS pake2s
            pbkdf_response_session sends

/-- Go `Spake2pExchange`; `exchange` and `counter` are the two numbers drawn
with `randm.Intn`, and `udp` is `none` for a `nil` pointer. -/
def Spake2pExchange (D : FlowDeps) (pin : Int) (udp : Option udpChannel)
    (exchange counter : Nat) : Option FlowResult :=
  let exchange := exchange % 2 ^ 16
  let secure_channel : SecureChannel :=
    { Udp := udp, encrypt_key := [], decrypt_key := [], remote_node := [], local_node := [],
      Counter := counter % 2 ^ 32, session := 0 }
  let pbkdf_request := D.pBKDFParamRequest exchange
  match secure_channel.Send D.toDeps pbkdf_request with
  | none => none
  | some (secure_channel, rec) =>
    match secure_channel.Receive D.toDeps with
    | none => none
    | some r =>
      let sends := rec :: r.sends
      match r.err with
      | some err =>
        some ⟨SecureChannel.zero, some (Error.Errorw "pbkdf response not received: %s" err),
          r.sc.Udp, sends⟩
      | none =>
        let pbkdf_responseS := r.out
        if pbkdf_responseS.ProtocolHeader.Opcode ≠ SEC_CHAN_OPCODE_PBKDF_RESP then
          some ⟨SecureChannel.zero,
            some (Error.Errorf "SEC_CHAN_OPCODE_PBKDF_RESP not received" []), r.sc.Udp, sends⟩
        else
          let pbkdf_response_salt := D.GetOctetStringRec pbkdf_responseS.Tlv [4, 2]
          match D.GetIntRec pbkdf_responseS.Tlv [4, 1] with
          | (_, some _) =>
            some ⟨SecureChannel.zero,
              some (Error.Errorf "can't get pbkdf_response_iterations" []), r.sc.Udp, sends⟩
          | (pbkdf_response_iterations, none) =>
            match D.GetIntRec pbkdf_responseS.Tlv [3] with
            | (_, some _) =>
              some ⟨SecureChannel.zero,
                some (Error.Errorf "can't get pbkdf_response_session" []), r.sc.Udp, sends⟩
            | (pbkdf_response_session, none) =>
              Spake2pExchange.pake D pin exchange r.sc pbkdf_request pbkdf_responseS
                pbkdf_response_salt pbkdf_response_iterations pbkdf_response_session sends

/-- Go `SigmaExchange`, from `GetPrivkey` to the end. -/
def SigmaExchange.sigma3 (D : FlowDeps) (fabric : D.Fabric) (controller_id device_id : Nat)
    (secure_channel : SecureChannel) (sigma_context : D.Sigma) (sends : List SendRecord) :
    Option FlowResult :=
  match D.GetPrivkey fabric controller_id with
  | Except.error err => some ⟨SecureChannel.zero, some err, secure_channel.Udp, sends⟩
  | Except.ok key =>
    let sigma_context := { sigma_context with controller_key := some key }
    match D.GetCertificate fabric controller_id with
    | Except.error err => some ⟨SecureChannel.zero, some err, secure_channel.Udp, sends⟩
    | Except.ok controller_cert =>
      let sigma_context :=
        { sigma_context with
          controller_matter_certificate := D.SerializeCertificateIntoMatter fabric controller_cert }
      match D.sigma3 sigma_context fabric with
      | (_, Except.error err) => some ⟨SecureChannel.zero, some err, secure_channel.Udp, sends⟩
      | (sigma_context, Except.ok to_send) =>
        match secure_channel.Send D.toDeps to_send with
        | none => none
        | some (secure_channel, rec) =>
          match secure_channel.Receive D.toDeps with
          | none => none
          | some r =>
            let sends := sends ++ rec :: r.sends
            match r.err with
            | some err => some ⟨SecureChannel.zero, some err, r.sc.Udp, sends⟩
            | none =>
              let sigma_result := r.out
              if sigma_result.ProtocolHeader.Opcode ≠ SEC_CHAN_OPCODE_STATUS_REP then
                some ⟨SecureChannel.zero,
                  some (Error.Errorf "unexpected message (opcode:0x%x)"
                    [sigma_result.ProtocolHeader.Opcode]), r.sc.Udp, sends⟩
              else if ¬ D.IsOk sigma_result.StatusReport then
                some ⟨SecureChannel.zero,
                  some (Error.Errorf "sigma result is not ok %d %d %d"
                    [sigma_result.StatusReport.GeneralCode, sigma_result.StatusReport.ProtocolId,
                      sigma_result.StatusReport.ProtocolCode]), r.sc.Udp, sends⟩
              else
                some ⟨{ r.sc with decrypt_key := sigma_context.r2ikey,
                                  encrypt_key := sigma_context.i2rkey,
                                  remote_node := D.id_to_bytes device_id,
                                  local_node := D.id_to_bytes controller_id,
                                  session := sigma_context.session }, none, r.sc.Udp, sends⟩

/-- Go `SigmaExchange`, up to `sigma1 := genSigma1Req2(...)`: the context and
the Sigma1 message; `session_privkey` is the key `GenerateKey` draws and
`exchange` the number drawn with `randm.Intn`. -/
def SigmaExchange.sigma1 (D : FlowDeps) (fabric : D.Fabric) (device_id : Nat)
    (session_privkey : D.EcdhKey) (exchange : Nat) : D.Sigma × List Nat :=
  let controller_privkey := session_privkey
  let sigma_context : D.Sigma :=
    { session_privkey := controller_privkey, exchange := exchange % 2 ^ 16, sigma1payload := [],
      sigma2dec := DecodedGeneric.zero D.toDeps, controller_key := none,
      controller_matter_certificate := [], i2rkey := [], r2ikey := [], session := 0,
      other := D.SigmaZero }
  let sigma_context := D.genSigma1 sigma_context fabric device_id
  let sigma1 := D.genSigma1Req2 sigma_context.sigma1payload sigma_context.exchange
  (sigma_context, sigma1)

/-- Go `SigmaExchange`; `none` is a panic inside `Send` or `Receive`. -/
def SigmaExchange (D : FlowDeps) (fabric : D.Fabric) (controller_id device_id : Nat)
    (secure_channel : SecureChannel) (session_privkey : D.EcdhKey) (exchange : Nat) :
    Option FlowResult :=
  match SigmaExchange.sigma1 D fabric device_id session_privkey exchange with
  | (sigma_context, sigma1) =>
    match secure_channel.Send D.toDeps sigma1 with
    | none => none
    | some (secure_channel, rec) =>
      match secure_channel.Receive D.toDeps with
      | none => none
      | some r =>
        let sends := rec :: r.sends
        let sigma_context := { sigma_context with sigma2dec := r.out }
        match r.err with
        | some err => some ⟨SecureChannel.zero, some err, r.sc.Udp, sends⟩
        | none =>
          if sigma_context.sigma2dec.ProtocolHeader.ProtocolId = ProtocolIdSecureChannel ∧
              sigma_context.sigma2dec.ProtocolHeader.Opcode = SEC_CHAN_OPCODE_STATUS_REP then
            some ⟨SecureChannel.zero,
              some (Error.Errorf "sigma2 not received. status: %x %x"
                [sigma_context.sigma2dec.StatusReport.GeneralCode,
                  sigma_context.sigma2dec.StatusReport.ProtocolCode]), r.sc.Udp, sends⟩
          else if sigma_context.sigma2dec.ProtocolHeader.Opcode ≠ 0x31 then
            some ⟨SecureChannel.zero, some (Error.Errorf "sigma2 not received" []), r.sc.Udp,
              sends⟩
          else SigmaExchange.sigma3 D fabric controller_id device_id r.sc sigma_context sends

/-- Go `startUdpChannel`; `listen` is the outcome of `net.ListenPacket` on the
local port. -/
def startUdpChannel (remote_ip : List Nat) (remote_port _local_port : Nat)
    (listen : Except Error PacketConn) : Except Error udpChannel :=
  match listen with
  | Except.error err => Except.error err
  | Except.ok conn => Except.ok { Udp := some conn, Remote_address := (remote_ip, remote_port) }

/-- What `Commission` draws, in the order it draws: the two numbers of
`Spake2pExchange`, the 32 bytes and the exchange id of the CSR request, the
exchange ids of AddTrustedRootCertificate and AddNOC, the key and the exchange
id of `SigmaExchange`, the exchange id of CommissioningComplete. -/
structure Randomness (K : Type) where
  pase_exchange : Nat
  pase_counter : Nat
  csr_nonce : List Nat
  csr_exchange : Nat
  root_exchange : Nat
  noc_exchange : Nat
  sigma_privkey : K
  sigma_exchange : Nat
  complete_exchange : Nat

/-- What a block of `Commission` leaves behind: the variable `secure_channel`,
the error `Commission` returns from inside the block (`none` when the block
runs to its end) and the records of the calls of `Send` made. -/
structure StepResult where
  sc : SecureChannel
  err : Option Error
  sends : List SendRecord
deriving DecidableEq, Repr

/-- Go `Commission`, the block `// send csr request` up to
`x509.ParseCertificateRequest`: the step and, when it runs to its end, `csrp`. -/
def Commission.csr (D : FlowDeps) (secure_channel : SecureChannel) (nonce : List Nat)
    (exchange : Nat) : Option (StepResult × Option D.CertificateRequest) :=
  let tlvb := D.WriteOctetString [] 0 nonce
  let to_send := D.EncodeIMInvokeRequest 0 0x3e 4 tlvb false (exchange % 2 ^ 16)
  match secure_channel.Send D.toDeps to_send with
  | none => none
  | some (secure_channel, rec) =>
    match secure_channel.Receive D.toDeps with
    | none => none
    | some r =>
      let sends := rec :: r.sends
      match r.err with
      | some err => some (⟨r.sc, some err, sends⟩, none)
      | none =>
        let csr_resp := r.out
        let nocsr := D.GetOctetStringRec csr_resp.Tlv [1, 0, 0, 1, 0]
        if nocsr.length = 0 then
          some (⟨r.sc, some (Error.Errorf "nocsr not received" []), sends⟩, none)
        else
          let tlv2 := D.Decode nocsr
          let csr := D.GetOctetStringRec tlv2 [1]
          match D.ParseCertificateRequest csr with
          | Except.error err => some (⟨r.sc, some err, sends⟩, none)
          | Except.ok csrp => some (⟨r.sc, none, sends⟩, some csrp)

/-- Go `Commission`, the block `//AddTrustedRootCertificate`. -/
def Commission.root (D : FlowDeps) (fabric : D.Fabric) (secure_channel : SecureChannel)
    (exchange : Nat) : Option StepResult :=
  let tlv4 := D.WriteOctetString [] 0
    (D.SerializeCertificateIntoMatter fabric (D.GetCaCertificate fabric))
  let to_send := D.EncodeIMInvokeRequest 0 0x3e 0xb tlv4 false (exchange % 2 ^ 16)
  match secure_channel.Send D.toDeps to_send with
  | none => none
  | some (secure_channel, rec) =>
    match secure_channel.Receive D.toDeps with
    | none => none
    | some r =>
      let sends := rec :: r.sends
      match r.err with
      | some err => some ⟨r.sc, some err, sends⟩
      | none =>
        let resp := r.out
        let resp_status := D.ParseImInvokeResponse resp.Tlv
        if resp_status ≠ 0 then
          some ⟨r.sc,
            some (Error.Errorfi "unexpected status to AddTrustedRootCertificate %d" [resp_status]),
            sends⟩
        else some ⟨r.sc, none, sends⟩

/-- Go `Commission`, from `SignCertificate` through the block `//AddNOC` to the
three assignments that clear the keys and the session; `none` is a panic (the
type assertion on the public key, or inside `Send` or `Receive`). -/
def Commission.noc (D : FlowDeps) (fabric : D.Fabric) (controller_id device_id : Nat)
    (secure_channel : SecureChannel) (csrp : D.CertificateRequest) (exchange : Nat) :
    Option StepResult :=
  match D.ecdsaPublicKey csrp with
  | none => none
  | some pub =>
    match D.SignCertificate fabric pub device_id with
    | Except.error err => some ⟨secure_channel, some err, []⟩
    | Except.ok noc_x509 =>
      let noc_matter := D.SerializeCertificateIntoMatter fabric noc_x509
      let tlv5 := D.WriteOctetString [] 0 noc_matter
      let tlv5 := D.WriteOctetString tlv5 2 (D.ipk fabric)
      let tlv5 := D.WriteUInt64 tlv5 3 controller_id
      let tlv5 := D.WriteUInt16 tlv5 4 101
      let to_send := D.EncodeIMInvokeRequest 0 0x3e 0x6 tlv5 false (exchange % 2 ^ 16)
      match secure_channel.Send D.toDeps to_send with
      | none => none
      | some (secure_channel, rec) =>
        match secure_channel.Receive D.toDeps with
        | none => none
        | some r =>
          let sends := rec :: r.sends
          match r.err with
          | some err => some ⟨r.sc, some err, sends⟩
          | none =>
            let resp := r.out
            match D.GetIntRec resp.Tlv [1, 0, 0, 1, 0] with
            | (_, some err) =>
              some ⟨r.sc, some (Error.Errorw "error during AddNOC %s" err), sends⟩
            | (resp_status_add_noc, none) =>
              if resp_status_add_noc ≠ 0 then
                some ⟨r.sc,
                  some (Error.Errorf "unexpected status to AddNOC %d" [resp_status_add_noc]),
                  sends⟩
              else
                some ⟨{ r.sc with decrypt_key := [], encrypt_key := [], session := 0 }, none,
                  sends⟩

/-- Go `Commission`, the block `//commissioning complete` to the final
`return nil`; both branches of the last `if` only write a log line. -/
def Commission.complete (D : FlowDeps) (secure_channel : SecureChannel) (exchange : Nat) :
    Option StepResult :=
  let to_send := D.EncodeIMInvokeRequest 0 0x30 4 [] false (exchange % 2 ^ 16)
  match secure_channel.Send D.toDeps to_send with
  | none => none
  | some (secure_channel, rec) =>
    match secure_channel.Receive D.toDeps with
    | none => none
    | some r =>
      let sends := rec :: r.sends
      match r.err with
      | some err => some ⟨r.sc, some err, sends⟩
      | none =>
        let respx := r.out
        match D.GetIntRec respx.Tlv [1, 0, 0, 1, 0] with
        | (_, some err) => some ⟨r.sc, some err, sends⟩
        | (commissioning_result, none) =>
          if commissioning_result = 0 then some ⟨r.sc, none, sends⟩
          else some ⟨r.sc, none, sends⟩

/-- Go `Commission` between `defer secure_channel.Close()` and the return: the
variable `secure_channel` and the error at the return, the `udpChannel` behind
`channel` as the run left it, and the records of the calls of `Send`. -/
def Commission.body (D : FlowDeps) (fabric : D.Fabric) (pin : Int)
    (controller_id device_id : Nat) (channel : udpChannel) (rnd : Randomness D.EcdhKey) :
    Option FlowResult :=
  match Spake2pExchange D pin (some channel) rnd.pase_exchange rnd.pase_counter with
  | none => none
  | some pase =>
    match pase.err with
    | some err => some ⟨pase.sc, some err, pase.udp, pase.sends⟩
    | none =>
      match Commission.csr D pase.sc rnd.csr_nonce rnd.csr_exchange with
      | none => none
      | some (s1, none) => some ⟨s1.sc, s1.err, s1.sc.Udp, pase.sends ++ s1.sends⟩
      | some (s1, some csrp) =>
        match s1.err with
        | some err => some ⟨s1.sc, some err, s1.sc.Udp, pase.sends ++ s1.sends⟩
        | none =>
          match Commission.root D fabric s1.sc rnd.root_exchange with
          | none => none
          | some s2 =>
            match s2.err with
            | some err =>
              some ⟨s2.sc, some err, s2.sc.Udp, pase.sends ++ s1.sends ++ s2.sends⟩
            | none =>
              match Commission.noc D fabric controller_id device_id s2.sc csrp
                  rnd.noc_exchange with
              | none => none
              | some s3 =>
                match s3.err with
                | some err =>
                  some ⟨s3.sc, some err, s3.sc.Udp,
                    pase.sends ++ s1.sends ++ s2.sends ++ s3.sends⟩
                | none =>
                  match SigmaExchange D fabric controller_id device_id s3.sc rnd.sigma_privkey
                      rnd.sigma_exchange with
                  | none => none
                  | some sig =>
                    match sig.err with
                    | some err =>
                      some ⟨sig.sc, some err, sig.udp,
                        pase.sends ++ s1.sends ++ s2.sends ++ s3.sends ++ sig.sends⟩
                    | none =>
                      match Commission.complete D sig.sc rnd.complete_exchange with
                      | none => none
                      | some s4 =>
                        some ⟨s4.sc, s4.err, s4.sc.Udp,
                          pase.sends ++ s1.sends ++ s2.sends ++ s3.sends ++ sig.sends ++
                            s4.sends⟩

/-- What a call of `Commission` leaves behind: the error returned, the
`udpChannel` it worked on (`none` when the socket was not bound) and the records
of the calls of `Send` made, in order. -/
structure CommissionResult where
  err : Option Error
  udp : Option udpChannel
  sends : List SendRecord
deriving DecidableEq, Repr

/-- Go `Commission`.  The deferred `secure_channel.Close()` runs at the return,
on the variable `secure_channel` as it then is; `none` is a panic. -/
def Commission (D : FlowDeps) (fabric : D.Fabric) (device_ip : List Nat) (pin : Int)
    (controller_id device_id : Nat) (listen : Except Error PacketConn)
    (rnd : Randomness D.EcdhKey) : Option CommissionResult :=
  match startUdpChannel device_ip 5540 55555 listen with
  | Except.error err => some ⟨some err, none, []⟩
  | Except.ok channel =>
    match Commission.body D fabric pin controller_id device_id channel rnd with
    | none => none
    | some b =>
      match b.sc.Close D.toDeps with
      | none => none
      | some (closed, sends) =>
        some ⟨b.err, (match closed.Udp with
                      | some ch => some ch
                      | none => b.udp), b.sends ++ sends⟩

/-- The pointer `u` is not `nil`, its socket is bound and has not been closed. -/
def udpOpen (u : Option udpChannel) : Prop :=
  ∃ ch c, u = some ch ∧ ch.Udp = some c ∧ c.closed = false

/-! ## Inputs for the examples -/

/-- The message of `test1` in `tlv.go`. -/
def test1_msg : Message :=
  { sessionId := 0x1234, securityFlags := 0, messageCounter := 1,
    sourceNodeId := [1, 2, 3, 4, 5, 6, 7, 8], destinationNodeId := [],
    prot := { exchangeFlags := 5, opcode := 0x20, exchangeId := 0xba3e,
              protocolId := PROTOCOL_ID_SECURE_CHANNEL, ackCounter := 0 } }

/-- Modelled from the spec: `MessageHeader.Decode` is not among the sources;
the envelope of §3: flags, session id (u16 LE), security flags, counter (u32
LE), an 8-byte source node id when bit 2 of the flags is set, a destination node
id of 8 or 2 bytes for destination size 1 or 2.  Gives the header and the number
of bytes taken. -/
def specDecodeMessageHeader (data : List Nat) : MessageHeader × Nat :=
  match data with
  | flags :: s0 :: s1 :: sf :: c0 :: c1 :: c2 :: c3 :: rest =>
    let srcLen := if flags &&& 4 ≠ 0 then 8 else 0
    let dstLen := if flags &&& 3 = 1 then 8 else if flags &&& 3 = 2 then 2 else 0
    (⟨getLE [s0, s1], sf, getLE [c0, c1, c2, c3], rest.take srcLen,
      (rest.drop srcLen).take dstLen⟩, 8 + srcLen + dstLen)
  | _ => (⟨0, 0, 0, [], []⟩, data.length)

/-- Modelled from the spec: `ProtocolHeader.Decode` is not among the sources;
the protocol header of §3: exchange flags, opcode, exchange id (u16 LE),
protocol id (u16 LE), and the acknowledged counter (u32 LE) when bit 1 of the
exchange flags is set.  Gives the header and the number of bytes taken. -/
def specDecodeProtocolHeader (data : List Nat) : ProtocolHeader × Nat :=
  match data with
  | xf :: op :: e0 :: e1 :: p0 :: p1 :: rest =>
    if xf &&& 2 ≠ 0 then
      (⟨xf, op, getLE [e0, e1], getLE [p0, p1], getLE (rest.take 4)⟩, 6 + min 4 rest.length)
    else (⟨xf, op, getLE [e0, e1], getLE [p0, p1], 0⟩, 6)
  | _ => (⟨0, 0, 0, 0, 0⟩, data.length)

/-- Modelled from the spec: `MessageHeader.Encode` is not among the sources;
the envelope of §3 and §4.2, which is what `Message.encodeBase` writes. -/
def specEncodeMessageHeader (h : MessageHeader) : List Nat :=
  (Message.encodeBase ⟨h.sessionId, h.securityFlags, h.messageCounter, h.sourceNodeId,
    h.destinationNodeId, ⟨0, 0, 0, 0, 0⟩⟩ Buffer.empty).Bytes

/-- Modelled from the spec: `ackGen` is not among the sources; §4.4: protocol id
0, opcode `0x10`, exchange flags with the ack bit set, the exchange id of the
message acknowledged, and its counter as the acknowledged counter. -/
def specAckGen (p : ProtocolHeader) (counter : Nat) : List Nat :=
  [2, SEC_CHAN_OPCODE_ACK] ++ putLE 2 p.ExchangeId ++ putLE 2 0 ++ putLE 4 counter

/-- Modelled from the spec: `EncodeStatusReport` is not among the sources; §6:
a message of protocol id 0 and opcode `0x40` whose body is the general code
(u16), the protocol id (u32) and the protocol code (u16), little-endian. -/
def specEncodeStatusReport (sr : StatusReportElements) : List Nat :=
  [0, SEC_CHAN_OPCODE_STATUS_REP] ++ putLE 2 0 ++ putLE 2 0 ++
    putLE 2 sr.GeneralCode ++ putLE 4 sr.ProtocolId ++ putLE 2 sr.ProtocolCode

/-- An instance of `Deps` for the examples.  The headers follow the spec;
`NewCipher` and `NewCCM` make the size checks of `crypto/aes` (key of 16, 24 or
32 bytes) and of CCM (even tag size from 4 to 16, nonce size from 7 to 13);
`Open` rejects a ciphertext shorter than the tag, as CCM does.  The cipher
itself is not modelled: `Seal` appends a tag of zeros and `Open` accepts exactly
such a tag.  A TLV item is kept as its bytes, and socket writes succeed. -/
def exampleDeps : Deps where
  Block := List Nat
  CCM := List Nat × Nat × Nat
  TlvItem := List Nat
  TlvZero := []
  Encode := specEncodeMessageHeader
  DecodeMessageHeader := specDecodeMessageHeader
  DecodeProtocolHeader := specDecodeProtocolHeader
  ackGen := specAckGen
  EncodeStatusReport := specEncodeStatusReport
  NewCipher := fun key =>
    if key.length = 16 ∨ key.length = 24 ∨ key.length = 32 then Except.ok key
    else Except.error (Error.External "crypto/aes: invalid key size")
  NewCCM := fun blk tagsize noncesize =>
    if tagsize < 4 ∨ 16 < tagsize ∨ tagsize % 2 = 1 then
      Except.error (Error.External "ccm: invalid tag size")
    else if noncesize < 7 ∨ 13 < noncesize then
      Except.error (Error.External "ccm: invalid nonce size")
    else Except.ok (blk, tagsize, noncesize)
  Seal := fun ccm _ plaintext _ => plaintext ++ List.replicate ccm.2.1 0
  Open := fun ccm _ ciphertext _ =>
    if ciphertext.length < ccm.2.1 then Except.error (Error.External "ccm: ciphertext too short")
    else if ciphertext.drop (ciphertext.length - ccm.2.1) = List.replicate ccm.2.1 0 then
      Except.ok (ciphertext.take (ciphertext.length - ccm.2.1))
    else Except.error (Error.External "ccm: message authentication failed")
  Decode := fun payload => payload
  WriteTo := fun _ => none

/-- A channel in plaintext mode on a bound socket with the datagrams `inbound`
to come, as `Spake2pExchange` builds it, with counter `counter`. -/
def plainChannel (counter : Nat) (inbound : List (List Nat)) : SecureChannel :=
  { Udp := some ⟨some ⟨inbound, [], false⟩, ([192, 168, 1, 2], 5540)⟩,
    encrypt_key := [], decrypt_key := [], remote_node := [], local_node := [],
    Counter := counter, session := 0 }

/-- A channel with 16-byte keys and 8-byte node ids on a bound socket with the
datagrams `inbound` to come, as `Spake2pExchange` returns it, with counter
`counter`. -/
def keyedChannel (counter : Nat) (inbound : List (List Nat)) : SecureChannel :=
  { Udp := some ⟨some ⟨inbound, [], false⟩, ([192, 168, 1, 2], 5540)⟩,
    encrypt_key := List.replicate 16 1, decrypt_key := List.replicate 16 2,
    remote_node := [0, 0, 0, 0, 0, 0, 0, 0], local_node := [0, 0, 0, 0, 0, 0, 0, 0],
    Counter := counter, session := 7 }

/-- A status report message with codes (0, 0, 0) in the clear: envelope with
counter 9 and the source node id, protocol header with opcode `0x40`, body. -/
def exampleStatusReport : List Nat :=
  specEncodeMessageHeader ⟨0, 0, 9, [1, 2, 3, 4, 5, 6, 7, 8], []⟩ ++
    specEncodeStatusReport ⟨0, 0, 0⟩

/-- The record `Receive` decodes from `exampleStatusReport` on a plaintext
channel, before the status report body is read. -/
def exampleStatusOut : DecodedGeneric exampleDeps.TlvItem :=
  ⟨⟨0, 0, 9, [1, 2, 3, 4, 5, 6, 7, 8], []⟩, ⟨0, 0x40, 0, 0, 0⟩, [0, 0, 0, 0, 0, 0, 0, 0],
    ⟨0, 0, 0⟩, []⟩

/-- The socket of `plainChannel` and `keyedChannel`. -/
def exampleConn (inbound : List (List Nat)) : PacketConn := ⟨inbound, [], false⟩

/-- The `udpChannel` of `plainChannel` and `keyedChannel`. -/
def exampleUdp (inbound : List (List Nat)) : udpChannel :=
  ⟨some (exampleConn inbound), ([192, 168, 1, 2], 5540)⟩

/-- A datagram too short to hold a CCM tag: an envelope with session 7 and
counter 3, then three bytes. -/
def exampleShortDatagram : List Nat := [0, 7, 0, 0, 3, 0, 0, 0, 1, 2, 3]

/-- A message with an 8-byte source node id and an 8-byte destination node id. -/
def bothNodeIds_msg : Message :=
  { sessionId := 1, securityFlags := 0, messageCounter := 1,
    sourceNodeId := [1, 2, 3, 4, 5, 6, 7, 8], destinationNodeId := [8, 7, 6, 5, 4, 3, 2, 1],
    prot := { exchangeFlags := 5, opcode := 0x20, exchangeId := 0xba3e,
              protocolId := PROTOCOL_ID_SECURE_CHANNEL, ackCounter := 0 } }

/-- The value bytes of a TLV element of primitive type `ty` at the front of
`bs`, for the examples: 1, 2, 4 or 8 bytes for the unsigned types 4 to 7, none
for the booleans 8 and 9, a length byte and that many bytes for `0x10`. -/
def exampleValueLen (ty : Nat) (bs : List Nat) : Option Nat :=
  if ty = 4 then some 1
  else if ty = 5 then some 2
  else if ty = 6 then some 4
  else if ty = 7 then some 8
  else if ty = 8 ∨ ty = 9 then some 0
  else if ty = 0x10 then
    match bs with
    | n :: _ => some (n + 1)
    | [] => none
  else none

/-- Modelled from the spec: the path lookup of `mattertlv` is not among the
sources; §2: given a sequence of context tags, descend into nested structures
and return the leaf value.  This reader of the examples walks the elements of
a container (`0x15`, `0x16`, `0x17`, closed by `0x18`) in order, `skip` being
the number of containers it is passing over; an anonymous element counts as tag
0.  It gives the type and the value bytes of the leaf. -/
def exampleFind : Nat → List Int → Nat → List Nat → Option (Nat × List Nat)
  | 0, _, _, _ => none
  | fuel + 1, path, skip, bs =>
    match bs with
    | [] => none
    | ctrl :: rest =>
      let ty := ctrl &&& 0x1f
      let form := ctrl >>> 5
      if ty = 0x18 then
        if skip = 0 then none else exampleFind fuel path (skip - 1) rest
      else
        let tagged : Option (Int × List Nat) :=
          if form = 0 then some (0, rest)
          else if form = 1 then
            match rest with
            | t :: r => some ((t : Int), r)
            | [] => none
          else none
        match tagged with
        | none => none
        | some (tag, body) =>
          let container : Bool := ty = 0x15 || ty = 0x16 || ty = 0x17
          if skip > 0 then
            if container then exampleFind fuel path (skip + 1) body
            else
              match exampleValueLen ty body with
              | none => none
              | some n => exampleFind fuel path skip (body.drop n)
          else
            match path with
            | [] => none
            | p :: ps =>
              if tag = p then
                if container then
                  if ps = [] then none else exampleFind fuel ps 0 body
                else if ps = [] then
                  match exampleValueLen ty body with
                  | none => none
                  | some n => if body.length < n then none else some (ty, body.take n)
                else none
              else if container then exampleFind fuel path 1 body
              else
                match exampleValueLen ty body with
                | none => none
                | some n => exampleFind fuel path 0 (body.drop n)

/-- The leaf at `path` inside the anonymous structure that the bytes `item`
hold. -/
def exampleLeaf (item : List Nat) (path : List Int) : Option (Nat × List Nat) :=
  match item with
  | 0x15 :: rest => exampleFind rest.length path 0 rest
  | _ => none

/-- The octet string at `path`, empty when there is none. -/
def exampleGetOctetStringRec (item : List Nat) (path : List Int) : List Nat :=
  match exampleLeaf item path with
  | some (0x10, _ :: bs) => bs
  | _ => []

/-- The unsigned integer at `path`, or an error when there is none. -/
def exampleGetIntRec (item : List Nat) (path : List Int) : Nat × Option Error :=
  match exampleLeaf item path with
  | some (ty, bs) =>
    if 4 ≤ ty ∧ ty ≤ 7 then (getLE bs, none) else (0, some (Error.External "not found"))
  | none => (0, some (Error.External "not found"))

/-- The SPAKE2+ context of the examples: what `Gen_w` was given, the bytes of
`X` and of `Y`, the two confirmation tags and the two keys. -/
structure ExampleSpake where
  w : List Nat
  X : List Nat
  Y : List Nat
  cA : List Nat
  cB : List Nat
  encrypt_key : List Nat
  decrypt_key : List Nat
deriving DecidableEq, Repr

/-- A protocol header of the examples: exchange flags 5, the opcode, the
exchange id and the protocol id. -/
def exampleHeader (opcode exchange protocol : Nat) : List Nat :=
  [5, opcode] ++ putLE 2 exchange ++ putLE 2 protocol

/-- An instance of `FlowDeps` for the examples, over `exampleDeps`.  The TLV
lookups are `exampleGetOctetStringRec` and `exampleGetIntRec` and the TLV
writes are those of `tlv.go`; the messages are a protocol header and a TLV
body.  The cryptography is not modelled: the context keeps the bytes it is
given, `calc_hash` fails on an empty `Y` and otherwise sets fixed tags and keys,
and certificates are byte strings. -/
def exampleFlowDeps : FlowDeps where
  toDeps := exampleDeps
  Fabric := Unit
  SpakeCtx := ExampleSpake
  EcdhKey := Unit
  PrivateKey := Unit
  PublicKey := List Nat
  Certificate := List Nat
  CertificateRequest := List Nat
  SigmaState := Unit
  SigmaZero := ()
  GetOctetStringRec := exampleGetOctetStringRec
  GetIntRec := exampleGetIntRec
  WriteOctetString := fun buf tag data =>
    ((⟨⟨[], buf, false⟩⟩ : TLVBuffer).writeOctetString tag data).data.Bytes
  WriteUInt64 := fun buf tag val =>
    ((⟨⟨[], buf, false⟩⟩ : TLVBuffer).writeUInt tag TYPE_UINT_8 val).data.Bytes
  WriteUInt16 := fun buf tag val =>
    ((⟨⟨[], buf, false⟩⟩ : TLVBuffer).writeUInt tag TYPE_UINT_2 val).data.Bytes
  pBKDFParamRequest := fun exchange =>
    exampleHeader SEC_CHAN_OPCODE_PBKDF_REQ exchange 0 ++
      [0x15, 0x30, 1, 2, 0xaa, 0xbb, 0x25, 2, 1, 0, 0x24, 3, 0, 0x28, 4, 0x18]
  pake1ParamRequest := fun exchange X =>
    exampleHeader SEC_CHAN_OPCODE_PAKE1 exchange 0 ++ [0x15, 0x30, 1, X.length % 256] ++ X ++
      [0x18]
  pake3ParamRequest := fun exchange cA =>
    exampleHeader SEC_CHAN_OPCODE_PAKE3 exchange 0 ++ [0x15, 0x30, 1, cA.length % 256] ++ cA ++
      [0x18]
  NewSpaceCtx := ⟨[], [], [], [], [], [], []⟩
  Gen_w := fun ctx pin salt iterations =>
    { ctx with w := salt ++ [pin.toNat % 256, iterations.toNat % 256] }
  Gen_random_X := fun ctx => ctx
  Calc_X := fun ctx => { ctx with X := [4, 7, 7, 7] }
  X_As_bytes := fun ctx => ctx.X
  Y_from_bytes := fun ctx bs => { ctx with Y := bs }
  calc_ZV := fun ctx => ctx
  calc_hash := fun ctx _ =>
    if ctx.Y = [] then (ctx, some (Error.External "empty point"))
    else
      ({ ctx with cA := List.replicate 4 0xa, cB := List.replicate 4 0xb,
                  encrypt_key := List.replicate 16 1, decrypt_key := List.replicate 16 2 }, none)
  cA := fun ctx => ctx.cA
  cB := fun ctx => ctx.cB
  spake_encrypt_key := fun ctx => ctx.encrypt_key
  spake_decrypt_key := fun ctx => ctx.decrypt_key
  genSigma1 := fun ctx _ _ => { ctx with sigma1payload := [0x15, 0x18] }
  genSigma1Req2 := fun payload exchange => exampleHeader 0x30 exchange 0 ++ payload
  sigma3 := fun ctx _ =>
    ({ ctx with i2rkey := List.replicate 16 3, r2ikey := List.replicate 16 4, session := 9 },
      Except.ok (exampleHeader 0x32 ctx.exchange 0 ++ [0x15, 0x18]))
  GetPrivkey := fun _ _ => Except.ok ()
  GetCertificate := fun _ id => Except.ok [0xc0, id % 256]
  GetCaCertificate := fun _ => [0xca]
  SignCertificate := fun _ pub id => Except.ok (pub ++ [id % 256])
  SerializeCertificateIntoMatter := fun _ cert => cert
  ipk := fun _ => List.replicate 16 0
  IsOk := fun sr => sr.GeneralCode = 0 ∧ sr.ProtocolId = 0 ∧ sr.ProtocolCode = 0
  id_to_bytes := fun id => putLE 8 id
  EncodeIMInvokeRequest := fun endpoint cluster command payload _ exchange =>
    exampleHeader 8 exchange 1 ++ [0x15, 0x24, 0, endpoint % 256, 0x24, 1, cluster % 256,
      0x24, 2, command % 256, 0x35, 3] ++ payload ++ [0x18, 0x18]
  ParseImInvokeResponse := fun item =>
    match exampleGetIntRec item [1, 0, 1, 1, 0] with
    | (v, none) => (v : Int)
    | (_, some _) => -1
  ParseCertificateRequest := fun csr =>
    if csr = [] then Except.error (Error.External "x509: malformed certificate request")
    else Except.ok csr
  ecdsaPublicKey := fun csr => some csr

/-- A datagram in the clear: an envelope with session 0 and the counter, then
the protocol message. -/
def examplePlain (counter : Nat) (proto : List Nat) : List Nat :=
  specEncodeMessageHeader ⟨0, 0, counter, [], []⟩ ++ proto

/-- A datagram as `exampleDeps` seals it: the envelope, the protocol message
and a tag of 16 zeros. -/
def exampleSealed (session counter : Nat) (proto : List Nat) : List Nat :=
  specEncodeMessageHeader ⟨session, 0, counter, [], []⟩ ++ proto ++ List.replicate 16 0

/-- A PBKDFParamResponse: two randoms, session id 7, and the parameter
structure at tag 4 with 1000 iterations and a 2-byte salt. -/
def examplePbkdfResponse : List Nat :=
  exampleHeader SEC_CHAN_OPCODE_PBKDF_RESP 1 0 ++
    [0x15, 0x30, 1, 2, 0xaa, 0xbb, 0x30, 2, 2, 0xcc, 0xdd, 0x25, 3, 7, 0,
      0x35, 4, 0x25, 1, 0xe8, 0x03, 0x30, 2, 2, 0x53, 0x54, 0x18, 0x18]

/-- A Pake2 with the point `pB` at tag 1 and the confirmation tag `cB` at tag
2. -/
def examplePake2 (pB cB : List Nat) : List Nat :=
  exampleHeader SEC_CHAN_OPCODE_PAKE2 1 0 ++
    [0x15, 0x30, 1, pB.length] ++ pB ++ [0x30, 2, cB.length] ++ cB ++ [0x18]

/-- An invoke response whose element `field` sits at path `[1, 0, which, 1]`. -/
def exampleInvokeResponse (which : Nat) (field : List Nat) : List Nat :=
  exampleHeader 9 1 1 ++ [0x15, 0x36, 1, 0x15, 0x35, which, 0x35, 1] ++ field ++
    [0x18, 0x18, 0x18, 0x18, 0x18]

/-- The datagrams of a whole commissioning, in order: PBKDFParamResponse,
Pake2, status report, then (sealed, session 7) the responses to the CSR request,
to AddTrustedRootCertificate and to AddNOC, then (in the clear) Sigma2 and a
status report, then (sealed, session 9) the response to CommissioningComplete
with `result` at path `[1, 0, 0, 1, 0]`. -/
def exampleCommissioning (result : Nat) : List (List Nat) :=
  [examplePlain 1 examplePbkdfResponse,
   examplePlain 2 (examplePake2 [4, 9, 9] [0xb, 0xb, 0xb, 0xb]),
   examplePlain 3 (specEncodeStatusReport ⟨0, 0, 0⟩),
   exampleSealed 7 4 (exampleInvokeResponse 0
     [0x30, 0, 7, 0x15, 0x30, 1, 2, 0x63, 0x73, 0x18]),
   exampleSealed 7 5 (exampleInvokeResponse 1 [0x24, 0, 0]),
   exampleSealed 7 6 (exampleInvokeResponse 0 [0x24, 0, 0]),
   examplePlain 7 (exampleHeader 0x31 2 0 ++ [0x15, 0x18]),
   examplePlain 8 (specEncodeStatusReport ⟨0, 0, 0⟩),
   exampleSealed 9 9 (exampleInvokeResponse 0 [0x24, 0, result % 256])]

/-- The draws of the examples. -/
def exampleRandomness : Randomness exampleFlowDeps.EcdhKey :=
  { pase_exchange := 1, pase_counter := 100, csr_nonce := List.replicate 32 0x5a,
    csr_exchange := 2, root_exchange := 3, noc_exchange := 4, sigma_privkey := (),
    sigma_exchange := 5, complete_exchange := 6 }


/-- The datagrams of a PASE handshake, in order: PBKDFParamResponse, a Pake2
with the point `pB` and the confirmation tag `cB`, and a status report
`(0, 0, 0)`. -/
def examplePase (pB cB : List Nat) : List (List Nat) :=
  [examplePlain 1 examplePbkdfResponse, examplePlain 2 (examplePake2 pB cB),
   examplePlain 3 (specEncodeStatusReport ⟨0, 0, 0⟩)]

/-- The Pake3 datagram of the examples: envelope with counter 105, then the
Pake3 message with the tag `cA` that `exampleFlowDeps` computes. -/
def examplePake3Datagram : List Nat :=
  exampleDeps.Encode ⟨0, 0, 105, [1, 2, 3, 4, 5, 6, 7, 8], []⟩ ++
    exampleFlowDeps.pake3ParamRequest 1 [0xa, 0xa, 0xa, 0xa]

/-- A message with the ack-present bit set and ackCounter 5. -/
def ackCounter_msg : Message :=
  { sessionId := 1, securityFlags := 0, messageCounter := 7,
    sourceNodeId := [1, 2, 3, 4, 5, 6, 7, 8], destinationNodeId := [],
    prot := { exchangeFlags := 3, opcode := SEC_CHAN_OPCODE_ACK, exchangeId := 0xba3e,
              protocolId := PROTOCOL_ID_SECURE_CHANNEL, ackCounter := 5 } }

/-- The datagrams of a PASE handshake whose last message is the protocol message
`reply`: PBKDFParamResponse, a Pake2 with the point `[4, 9, 9]`, then `reply`
in the clear. -/
def examplePaseReply (reply : List Nat) : List (List Nat) :=
  [examplePlain 1 examplePbkdfResponse,
   examplePlain 2 (examplePake2 [4, 9, 9] [0xb, 0xb, 0xb, 0xb]), examplePlain 3 reply]

/-! ## Theorems -/

/-! ### Buffers and little-endian integers -/

theorem getLE_putLE (w v : Nat) : getLE (putLE w v) = v % 256 ^ w := by
  induction w generalizing v with
  | zero => simp [putLE, getLE, Nat.mod_one]
  | succ w ih =>
    simp only [putLE, getLE, ih]
    rw [pow_succ, mul_comm (256 ^ w) 256, Nat.mod_mul]

theorem putLE_length (w v : Nat) : (putLE w v).length = w := by
  induction w generalizing v with
  | zero => rfl
  | succ w ih => simp [putLE, ih]

theorem ReadByte_cons (d r : List Nat) (c : Nat) (l : Bool) :
    Buffer.ReadByte ⟨d, c :: r, l⟩ = (⟨c :: d, r, true⟩, c, none) := rfl

theorem Read_append (d bs rest : List Nat) (l : Bool) (h : 0 < bs.length) :
    Buffer.Read ⟨d, bs ++ rest, l⟩ bs.length = (⟨bs.reverse ++ d, rest, true⟩, bs, none) := by
  cases bs with
  | nil => simp at h
  | cons c cs =>
    simp [Buffer.Read]

theorem ReadFull_append (d bs rest : List Nat) (l : Bool) (h : 0 < bs.length) :
    ReadFull ⟨d, bs ++ rest, l⟩ bs.length = (⟨bs.reverse ++ d, rest, true⟩, Except.ok bs) := by
  simp [ReadFull, Read_append d bs rest l h]

theorem binaryRead_putLE (d rest : List Nat) (l : Bool) (w v cur : Nat) (h : 0 < w) :
    binaryRead ⟨d, putLE w v ++ rest, l⟩ w cur
      = (⟨(putLE w v).reverse ++ d, rest, true⟩, v % 256 ^ w, none) := by
  have h1 := ReadFull_append d (putLE w v) rest l (by rw [putLE_length]; exact h)
  rw [putLE_length] at h1
  simp [binaryRead, h1, getLE_putLE]

/-! ### TLV round trips -/

theorem writeUInt_bytes (t : Nat) (typ : Int) (v : Nat) :
    (TLVBuffer.empty.writeUInt t typ v).data.Bytes =
      [32 ||| (typ % 256).toNat, t] ++
        (if typ = TYPE_UINT_1 then putLE 1 v
         else if typ = TYPE_UINT_2 then putLE 2 (v % 2 ^ 16)
         else if typ = TYPE_UINT_4 then putLE 4 (v % 2 ^ 32)
         else if typ = TYPE_UINT_8 then putLE 8 (v % 2 ^ 64) else []) := by
  simp only [TLVBuffer.writeUInt, TLVBuffer.empty, Buffer.empty, Buffer.WriteByte, Buffer.Write,
    binaryWrite, Buffer.Bytes, List.nil_append]
  split_ifs <;> simp [putLE]

theorem readUInt_wide (d rest : List Nat) (l : Bool) (ctrl t w v : Nat) (hw : 0 < w)
    (h5 : ctrl >>> 5 = 1)
    (hc : (ctrl &&& 0x1f = 5 ∧ w = 2) ∨ (ctrl &&& 0x1f = 6 ∧ w = 4) ∨ (ctrl &&& 0x1f = 7 ∧ w = 8)) :
    TLVBufferDec.readUInt ⟨⟨d, ctrl :: t :: (putLE w v ++ rest), l⟩⟩ t
      = (⟨⟨(putLE w v).reverse ++ (t :: ctrl :: d), rest, true⟩⟩, v % 256 ^ w, none) := by
  rcases hc with ⟨hc, rfl⟩ | ⟨hc, rfl⟩ | ⟨hc, rfl⟩ <;>
  simp [TLVBufferDec.readUInt, ReadByte_cons, h5, hc, binaryRead_putLE, TYPE_UINT_1, TYPE_UINT_2,
    TYPE_UINT_4, TYPE_UINT_8]

theorem readUInt_one (d rest : List Nat) (l : Bool) (ctrl t o : Nat)
    (h5 : ctrl >>> 5 = 1) (hc : ctrl &&& 0x1f = 4) :
    TLVBufferDec.readUInt ⟨⟨d, ctrl :: t :: o :: rest, l⟩⟩ t
      = (⟨⟨o :: t :: ctrl :: d, rest, true⟩⟩, o, none) := by
  simp [TLVBufferDec.readUInt, ReadByte_cons, h5, hc, TYPE_UINT_1]

/-- C1: for every tag `t`, every width type among `TYPE_UINT_1`, `TYPE_UINT_2`,
`TYPE_UINT_4`, `TYPE_UINT_8`, every value `v` that fits the width and every
suffix `rest`, `readUInt(t)` on the bytes written by `writeUInt(t, typ, v)`
followed by `rest` returns `v` with no error and leaves exactly `rest`
unread. -/
theorem tlv_uint_round_trip (t : Nat) (typ : Int) (v : Nat) (rest : List Nat)
    (h : (typ = TYPE_UINT_1 ∧ v < 2 ^ 8) ∨ (typ = TYPE_UINT_2 ∧ v < 2 ^ 16) ∨
      (typ = TYPE_UINT_4 ∧ v < 2 ^ 32) ∨ (typ = TYPE_UINT_8 ∧ v < 2 ^ 64)) :
    (TLVBufferDec.readUInt
        ⟨NewBuffer ((TLVBuffer.empty.writeUInt t typ v).data.Bytes ++ rest)⟩ t).2 = (v, none) ∧
    (TLVBufferDec.readUInt
        ⟨NewBuffer ((TLVBuffer.empty.writeUInt t typ v).data.Bytes ++ rest)⟩ t).1.data.Bytes
      = rest := by
  rw [writeUInt_bytes]
  rcases h with ⟨rfl, hv⟩ | ⟨rfl, hv⟩ | ⟨rfl, hv⟩ | ⟨rfl, hv⟩
  · have e : (32 ||| ((TYPE_UINT_1 % 256).toNat) : Nat) = 36 := by decide
    simp only [e, NewBuffer, if_pos, putLE, List.cons_append, List.nil_append]
    rw [readUInt_one _ _ _ _ _ _ (by decide) (by decide)]
    simp [Buffer.Bytes]; omega
  · have e : (32 ||| ((TYPE_UINT_2 % 256).toNat) : Nat) = 37 := by decide
    have e2 : ¬ (TYPE_UINT_2 = TYPE_UINT_1) := by decide
    simp only [e, e2, NewBuffer, if_pos, if_false, List.cons_append, List.nil_append]
    rw [readUInt_wide _ _ _ _ _ _ _ (by decide) (by decide) (by decide)]
    simp [Buffer.Bytes]; omega
  · have e : (32 ||| ((TYPE_UINT_4 % 256).toNat) : Nat) = 38 := by decide
    have e2 : ¬ (TYPE_UINT_4 = TYPE_UINT_1) := by decide
    have e3 : ¬ (TYPE_UINT_4 = TYPE_UINT_2) := by decide
    simp only [e, e2, e3, NewBuffer, if_pos, if_false, List.cons_append, List.nil_append]
    rw [readUInt_wide _ _ _ _ _ _ _ (by decide) (by decide) (by decide)]
    simp [Buffer.Bytes]; omega
  · have e : (32 ||| ((TYPE_UINT_8 % 256).toNat) : Nat) = 39 := by decide
    have e2 : ¬ (TYPE_UINT_8 = TYPE_UINT_1) := by decide
    have e3 : ¬ (TYPE_UINT_8 = TYPE_UINT_2) := by decide
    have e4 : ¬ (TYPE_UINT_8 = TYPE_UINT_4) := by decide
    simp only [e, e2, e3, e4, NewBuffer, if_pos, if_false, List.cons_append, List.nil_append]
    rw [readUInt_wide _ _ _ _ _ _ _ (by decide) (by decide) (by decide)]
    simp [Buffer.Bytes]; omega

/-- C1 at tag 2, width 2, value `0xfdb8` (the write of `test2`), suffix `18`. -/
theorem tlv_uint_round_trip_witness :
    (TLVBufferDec.readUInt
        ⟨NewBuffer ((TLVBuffer.empty.writeUInt 2 TYPE_UINT_2 0xfdb8).data.Bytes ++ [0x18])⟩ 2).2
      = (0xfdb8, none) ∧
    (TLVBufferDec.readUInt
        ⟨NewBuffer ((TLVBuffer.empty.writeUInt 2 TYPE_UINT_2 0xfdb8).data.Bytes ++ [0x18])⟩
        2).1.data.Bytes = [0x18] :=
  tlv_uint_round_trip 2 TYPE_UINT_2 0xfdb8 [0x18] (Or.inr (Or.inl ⟨rfl, by decide⟩))

theorem writeOctetString_bytes (t : Nat) (d : List Nat) :
    (TLVBuffer.empty.writeOctetString t d).data.Bytes = 48 :: t :: (d.length % 256) :: d := by
  simp [TLVBuffer.writeOctetString, TLVBuffer.empty, Buffer.empty, Buffer.WriteByte, Buffer.Write,
    Buffer.Bytes]

theorem readOctetString_ok (dn d rest : List Nat) (l : Bool) (t : Nat) :
    TLVBufferDec.readOctetString ⟨⟨dn, 48 :: t :: d.length :: (d ++ rest), l⟩⟩ t
      = (⟨(Buffer.Read ⟨d.length :: t :: 48 :: dn, d ++ rest, true⟩ d.length).1⟩, d, none) := by
  cases d with
  | nil =>
    have e : (48 &&& 31 : Nat) = 16 := by decide
    cases rest <;>
    simp [TLVBufferDec.readOctetString, ReadByte_cons, Buffer.Read, e]
  | cons c cs =>
    have h := Read_append (List.length (c :: cs) :: t :: 48 :: dn) (c :: cs) rest true (by simp)
    have e : (48 &&& 31 : Nat) = 16 := by decide
    simp only [TLVBufferDec.readOctetString, ReadByte_cons, h]
    simp [e]

theorem Read_append_unread (dn d rest : List Nat) (l : Bool) :
    (Buffer.Read ⟨dn, d ++ rest, l⟩ d.length).1.Bytes = rest := by
  cases d with
  | nil => cases rest <;> simp [Buffer.Read, Buffer.Bytes, Buffer.Reset]
  | cons c cs => rw [Read_append _ _ _ _ (by simp)]; rfl


theorem readOctetString_wrapped (t : Nat) (d : List Nat) (h : d.length % 256 = 0) :
    (TLVBufferDec.readOctetString
        ⟨NewBuffer ((TLVBuffer.empty.writeOctetString t d).data.Bytes ++ [])⟩ t).2 = ([], none) := by
  rw [writeOctetString_bytes, h]
  have h2 := readOctetString_ok [] [] d false t
  simp only [List.length_nil, List.nil_append] at h2
  simp only [NewBuffer, List.append_nil, h2]

/-- C2, as amended: for every tag `t`, every byte string `d` of fewer than 256
bytes and every suffix `rest`, `readOctetString(t)` on the bytes written by
`writeOctetString(t, d)` followed by `rest` returns exactly `d` with no error
and leaves exactly `rest` unread. -/
theorem tlv_octet_string_round_trip (t : Nat) (d rest : List Nat) (hd : d.length < 256) :
    (TLVBufferDec.readOctetString
        ⟨NewBuffer ((TLVBuffer.empty.writeOctetString t d).data.Bytes ++ rest)⟩ t).2 = (d, none) ∧
    (TLVBufferDec.readOctetString
        ⟨NewBuffer ((TLVBuffer.empty.writeOctetString t d).data.Bytes ++ rest)⟩ t).1.data.Bytes
      = rest := by
  rw [writeOctetString_bytes, Nat.mod_eq_of_lt hd]
  simp only [NewBuffer, List.cons_append]
  rw [readOctetString_ok]
  exact ⟨rfl, Read_append_unread _ _ _ _⟩

/-- C2 as amended, at tag 1, the string `01 02 03` and the suffix `18`. -/
theorem tlv_octet_string_round_trip_witness :
    (TLVBufferDec.readOctetString
        ⟨NewBuffer ((TLVBuffer.empty.writeOctetString 1 [1, 2, 3]).data.Bytes ++ [0x18])⟩ 1).2
      = ([1, 2, 3], none) ∧
    (TLVBufferDec.readOctetString
        ⟨NewBuffer ((TLVBuffer.empty.writeOctetString 1 [1, 2, 3]).data.Bytes ++ [0x18])⟩
        1).1.data.Bytes = [0x18] :=
  tlv_octet_string_round_trip 1 [1, 2, 3] [0x18] (by decide)

/-- C2 as stated fails: a string of 256 zero bytes written with tag 1 is not
read back (the length byte written is 0, so the reader returns the empty string
and leaves the 256 bytes unread). -/
theorem tlv_octet_string_round_trip_fails_at_256 :
    ¬ ((TLVBufferDec.readOctetString
          ⟨NewBuffer ((TLVBuffer.empty.writeOctetString 1 (List.replicate 256 0)).data.Bytes ++ [])⟩
          1).2 = (List.replicate 256 0, none) ∧
       (TLVBufferDec.readOctetString
          ⟨NewBuffer ((TLVBuffer.empty.writeOctetString 1 (List.replicate 256 0)).data.Bytes ++ [])⟩
          1).1.data.Bytes = []) := by
  rw [readOctetString_wrapped 1 (List.replicate 256 0) (by rw [List.length_replicate])]
  intro hc
  have h := congrArg (fun p => p.1.length) hc.1
  rw [show (fun p : List Nat × Option Error => p.1.length) ([], none) = 0 from rfl,
    show (fun p : List Nat × Option Error => p.1.length) (List.replicate 256 0, none)
      = (List.replicate 256 0).length from rfl, List.length_replicate] at h
  exact absurd h (by decide)

/-! ### Envelope round trip -/

theorem binaryRead_putLE2 (d rest : List Nat) (l : Bool) (v cur : Nat) :
    binaryRead ⟨d, putLE 2 v ++ rest, l⟩ 2 cur
      = (⟨(putLE 2 v).reverse ++ d, rest, true⟩, v % 256 ^ 2, none) :=
  binaryRead_putLE d rest l 2 v cur (by decide)

theorem binaryRead_putLE4 (d rest : List Nat) (l : Bool) (v cur : Nat) :
    binaryRead ⟨d, putLE 4 v ++ rest, l⟩ 4 cur
      = (⟨(putLE 4 v).reverse ++ d, rest, true⟩, v % 256 ^ 4, none) :=
  binaryRead_putLE d rest l 4 v cur (by decide)

theorem readSlice_append (d bs rest : List Nat) (l : Bool) (n : Nat) (hn : bs.length = n)
    (h : 0 < n) :
    readSlice ⟨d, bs ++ rest, l⟩ n = (⟨bs.reverse ++ d, rest, true⟩, bs, none) := by
  subst hn
  simp [readSlice, Read_append d bs rest l h]

theorem encode_bytes (m : Message) :
    (m.encode Buffer.empty).Bytes =
      m.calcMessageFlags :: (putLE 2 (m.sessionId % 2 ^ 16) ++ (m.securityFlags ::
        (putLE 4 (m.messageCounter % 2 ^ 32) ++
          ((if m.sourceNodeId.length = 8 then m.sourceNodeId else []) ++
            ((if m.destinationNodeId.length > 0 then m.destinationNodeId else []) ++
              (m.prot.exchangeFlags :: m.prot.opcode ::
                (putLE 2 (m.prot.exchangeId % 2 ^ 16) ++
                  putLE 2 (m.prot.protocolId % 2 ^ 16)))))))) := by
  simp only [Message.encode, Buffer.empty, Buffer.WriteByte, Buffer.Write, binaryWrite,
    Buffer.Bytes]
  split_ifs <;> simp

theorem calcMessageFlags_src (m : Message) :
    (m.calcMessageFlags &&& 4 ≠ 0) ↔ m.sourceNodeId.length = 8 := by
  unfold Message.calcMessageFlags
  split_ifs <;> simp_all
  all_goals decide

theorem calcMessageFlags_dst (m : Message) :
    m.calcMessageFlags &&& 3 =
      if m.destinationNodeId.length = 2 then 2
      else if m.destinationNodeId.length = 8 then 1 else 0 := by
  unfold Message.calcMessageFlags
  split_ifs <;> decide

theorem decodeProt_envelope (m : Message) (d rest : List Nat) (l : Bool) (xf op : Nat) :
    (m.decodeProt ⟨d, xf :: op :: rest, l⟩).2.2 = none ∧
    (m.decodeProt ⟨d, xf :: op :: rest, l⟩).1.sameEnvelope m := by
  simp only [Message.decodeProt, ReadByte_cons, Message.sameEnvelope]
  split_ifs <;> simp

theorem decodeDest_envelope (m : Message) (flags : Nat) (d dst rest : List Nat) (l : Bool)
    (xf op : Nat)
    (h : (dst.length = 0 ∧ flags &&& 3 = 0) ∨ (dst.length = 8 ∧ flags &&& 3 = 1) ∨
      (dst.length = 2 ∧ flags &&& 3 = 2)) :
    (m.decodeDest flags ⟨d, dst ++ xf :: op :: rest, l⟩).2.2 = none ∧
    (m.decodeDest flags ⟨d, dst ++ xf :: op :: rest, l⟩).1.sameEnvelope
      { m with destinationNodeId := if dst.length = 0 then m.destinationNodeId else dst } := by
  rcases h with ⟨hl, hf⟩ | ⟨hl, hf⟩ | ⟨hl, hf⟩
  · have h0 := List.length_eq_zero.mp hl
    subst h0
    simp only [Message.decodeDest, hf, List.nil_append]
    exact decodeProt_envelope m d rest l xf op
  · have hr := readSlice_append d dst (xf :: op :: rest) l 8 hl (by decide)
    have hp := decodeProt_envelope { m with destinationNodeId := dst } (dst.reverse ++ d) rest true
      xf op
    simp only [Message.sameEnvelope] at hp ⊢
    simpa [Message.decodeDest, hf, hr, hl] using hp
  · have hr := readSlice_append d dst (xf :: op :: rest) l 2 hl (by decide)
    have hp := decodeProt_envelope { m with destinationNodeId := dst } (dst.reverse ++ d) rest true
      xf op
    simp only [Message.sameEnvelope] at hp ⊢
    simpa [Message.decodeDest, hf, hr, hl] using hp

theorem decode_envelope (m0 : Message) (flags sid sf ctr : Nat) (src dst rest : List Nat)
    (xf op : Nat) (hsid : sid < 2 ^ 16) (hctr : ctr < 2 ^ 32)
    (hs : (src.length = 0 ∧ flags &&& 4 = 0) ∨ (src.length = 8 ∧ flags &&& 4 ≠ 0))
    (hd : (dst.length = 0 ∧ flags &&& 3 = 0) ∨ (dst.length = 8 ∧ flags &&& 3 = 1) ∨
      (dst.length = 2 ∧ flags &&& 3 = 2)) :
    (m0.decode (NewBuffer (flags :: (putLE 2 sid ++ (sf :: (putLE 4 ctr ++
        (src ++ (dst ++ xf :: op :: rest)))))))).2.2 = none ∧
    (m0.decode (NewBuffer (flags :: (putLE 2 sid ++ (sf :: (putLE 4 ctr ++
        (src ++ (dst ++ xf :: op :: rest)))))))).1.sameEnvelope
      { m0 with sessionId := sid, securityFlags := sf, messageCounter := ctr,
                sourceNodeId := if src.length = 0 then m0.sourceNodeId else src,
                destinationNodeId := if dst.length = 0 then m0.destinationNodeId else dst } := by
  have e16 : sid % 256 ^ 2 = sid := by omega
  have e32 : ctr % 256 ^ 4 = ctr := by omega
  simp only [Message.decode, NewBuffer, ReadByte_cons, binaryRead_putLE2, binaryRead_putLE4, e16,
    e32]
  rcases hs with ⟨hl, hf⟩ | ⟨hl, hf⟩
  · have h0 := List.length_eq_zero.mp hl
    subst h0
    simp only [hf, List.nil_append, ne_eq, not_true_eq_false, if_false]
    simpa [Message.sameEnvelope] using decodeDest_envelope
      { m0 with sessionId := sid, securityFlags := sf, messageCounter := ctr } flags
      ((putLE 4 ctr).reverse ++ sf :: ((putLE 2 sid).reverse ++ [flags])) dst rest true xf op hd
  · have hr := fun d r l => readSlice_append d src r l 8 hl (by decide)
    simp only [hf, ne_eq, not_false_eq_true, if_true, hr]
    have hne : src ≠ [] := by intro h; simp [h] at hl
    simpa [Message.sameEnvelope, hl, hne] using decodeDest_envelope
      { m0 with sessionId := sid, securityFlags := sf, messageCounter := ctr, sourceNodeId := src }
      flags (src.reverse ++ ((putLE 4 ctr).reverse ++ sf :: ((putLE 2 sid).reverse ++ [flags])))
      dst rest true xf op hd


/-- C3: for every `Message` `m` whose `sourceNodeId` is empty or 8 bytes long
and whose `destinationNodeId` is empty, 2 or 8 bytes long, `decode` (into a zero
`Message`) of the bytes written by `m.encode` returns no error and yields the
same `sessionId`, `securityFlags` and `messageCounter`, and the same
`sourceNodeId` and `destinationNodeId` (absent, that is empty, exactly when
`m`'s is). -/
theorem envelope_round_trip (m : Message)
    (hsrc : m.sourceNodeId.length = 0 ∨ m.sourceNodeId.length = 8)
    (hdst : m.destinationNodeId.length = 0 ∨ m.destinationNodeId.length = 2 ∨
      m.destinationNodeId.length = 8)
    (hsid : m.sessionId < 2 ^ 16) (hctr : m.messageCounter < 2 ^ 32) :
    (Message.zero.decode (NewBuffer (m.encode Buffer.empty).Bytes)).2.2 = none ∧
    (Message.zero.decode (NewBuffer (m.encode Buffer.empty).Bytes)).1.sessionId = m.sessionId ∧
    (Message.zero.decode (NewBuffer (m.encode Buffer.empty).Bytes)).1.securityFlags
      = m.securityFlags ∧
    (Message.zero.decode (NewBuffer (m.encode Buffer.empty).Bytes)).1.messageCounter
      = m.messageCounter ∧
    (Message.zero.decode (NewBuffer (m.encode Buffer.empty).Bytes)).1.sourceNodeId
      = m.sourceNodeId ∧
    (Message.zero.decode (NewBuffer (m.encode Buffer.empty).Bytes)).1.destinationNodeId
      = m.destinationNodeId := by
  rw [encode_bytes, Nat.mod_eq_of_lt hsid, Nat.mod_eq_of_lt hctr]
  have hfs := calcMessageFlags_src m
  have hfd := calcMessageFlags_dst m
  have key := decode_envelope Message.zero m.calcMessageFlags m.sessionId m.securityFlags
    m.messageCounter (if m.sourceNodeId.length = 8 then m.sourceNodeId else [])
    (if m.destinationNodeId.length > 0 then m.destinationNodeId else [])
    (putLE 2 (m.prot.exchangeId % 2 ^ 16) ++ putLE 2 (m.prot.protocolId % 2 ^ 16))
    m.prot.exchangeFlags m.prot.opcode hsid hctr
    (by
      rcases hsrc with h | h
      · left; simp [h]; simpa [h] using hfs
      · right; simp [h]; simpa [h] using hfs)
    (by
      rcases hdst with h | h | h
      · left; simp [h]; simpa [h] using hfd
      · right; right; simp [h]; simpa [h] using hfd
      · right; left; simp [h]; simpa [h] using hfd)
  refine ⟨key.1, ?_⟩
  have k2 := key.2
  simp only [Message.sameEnvelope] at k2
  obtain ⟨a1, a2, a3, a4, a5⟩ := k2
  refine ⟨a1, a2, a3, ?_, ?_⟩
  · rw [a4]
    rcases hsrc with h | h
    · simp [h, Message.zero, (List.length_eq_zero.mp h)]
    · simp [h]
  · rw [a5]
    rcases hdst with h | h | h
    · simp [h, Message.zero, (List.length_eq_zero.mp h)]
    · simp [h]
    · simp [h]

/-- C3 at the message of `test1`. -/
theorem envelope_round_trip_witness :
    (Message.zero.decode (NewBuffer (test1_msg.encode Buffer.empty).Bytes)).2.2 = none ∧
    (Message.zero.decode (NewBuffer (test1_msg.encode Buffer.empty).Bytes)).1.sessionId
      = test1_msg.sessionId ∧
    (Message.zero.decode (NewBuffer (test1_msg.encode Buffer.empty).Bytes)).1.securityFlags
      = test1_msg.securityFlags ∧
    (Message.zero.decode (NewBuffer (test1_msg.encode Buffer.empty).Bytes)).1.messageCounter
      = test1_msg.messageCounter ∧
    (Message.zero.decode (NewBuffer (test1_msg.encode Buffer.empty).Bytes)).1.sourceNodeId
      = test1_msg.sourceNodeId ∧
    (Message.zero.decode (NewBuffer (test1_msg.encode Buffer.empty).Bytes)).1.destinationNodeId
      = test1_msg.destinationNodeId :=
  envelope_round_trip test1_msg (Or.inr rfl) (Or.inl rfl) (by decide) (by decide)

/-! ### Nonce layout -/

/-- C4: for every 32-bit counter `c` and every node byte string `n`,
`make_nonce3(c, n)` is the byte 0, the four bytes of `c` in little-endian
order, then `n`; its length is `5 + len(n)`, 13 for an 8-byte node id; counter
`0x01020304` with node `08 07 06 05 04 03 02 01` gives
`00 04 03 02 01 08 07 06 05 04 03 02 01`. -/
theorem nonce_layout (c : Nat) (n : List Nat) (hc : c < 2 ^ 32) :
    make_nonce3 c n
      = 0 :: c % 256 :: c / 2 ^ 8 % 256 :: c / 2 ^ 16 % 256 :: c / 2 ^ 24 % 256 :: n ∧
    (make_nonce3 c n).length = 5 + n.length ∧
    (n.length = 8 → (make_nonce3 c n).length = 13) ∧
    make_nonce3 0x01020304 [0x08, 0x07, 0x06, 0x05, 0x04, 0x03, 0x02, 0x01]
      = [0x00, 0x04, 0x03, 0x02, 0x01, 0x08, 0x07, 0x06, 0x05, 0x04, 0x03, 0x02, 0x01] := by
  have e : make_nonce3 c n
      = 0 :: c % 256 :: c / 2 ^ 8 % 256 :: c / 2 ^ 16 % 256 :: c / 2 ^ 24 % 256 :: n := by
    simp only [make_nonce3, Buffer.empty, Buffer.WriteByte, Buffer.Write, binaryWrite,
      Buffer.Bytes, putLE, Nat.mod_eq_of_lt hc, Nat.div_div_eq_div_mul]
    simp
  refine ⟨e, ?_, ?_, by decide⟩
  · rw [e]; simp; omega
  · intro h; rw [e]; simp [h]

/-- C4 at counter `0x01020304` and node `08 07 06 05 04 03 02 01`. -/
theorem nonce_layout_witness :
    make_nonce3 0x01020304 [8, 7, 6, 5, 4, 3, 2, 1]
      = 0 :: 0x01020304 % 256 :: 0x01020304 / 2 ^ 8 % 256 :: 0x01020304 / 2 ^ 16 % 256 ::
          0x01020304 / 2 ^ 24 % 256 :: [8, 7, 6, 5, 4, 3, 2, 1] ∧
    (make_nonce3 0x01020304 [8, 7, 6, 5, 4, 3, 2, 1]).length = 5 + [8, 7, 6, 5, 4, 3, 2, 1].length ∧
    ([8, 7, 6, 5, 4, 3, 2, 1].length = 8 →
      (make_nonce3 0x01020304 [8, 7, 6, 5, 4, 3, 2, 1]).length = 13) ∧
    make_nonce3 0x01020304 [0x08, 0x07, 0x06, 0x05, 0x04, 0x03, 0x02, 0x01]
      = [0x00, 0x04, 0x03, 0x02, 0x01, 0x08, 0x07, 0x06, 0x05, 0x04, 0x03, 0x02, 0x01] :=
  nonce_layout 0x01020304 [8, 7, 6, 5, 4, 3, 2, 1] (by decide)

/-! ### QR payload -/

theorem shiftRight_and_one (b j : Nat) : (b >>> j) &&& 1 = b / 2 ^ j % 2 := by
  rw [Nat.shiftRight_eq_div_pow, Nat.and_one_is_mod]

theorem streamField_lt (bytes : List Nat) (lo n : Nat) : streamField bytes lo n < 2 ^ n := by
  induction n generalizing lo with
  | zero => simp [streamField]
  | succ n ih =>
    have h1 : streamBit bytes lo < 2 := Nat.mod_lt _ (by decide)
    have h2 := ih (lo + 1)
    simp only [streamField, pow_succ]
    omega

theorem get_at (bytes : List Nat) (tb cb bit : Nat) (hbit : bit < 8) (hcb : cb < bytes.length) :
    BitBuffer.get ⟨bytes, cb, bit, tb⟩
      = some (streamBit bytes (8 * cb + bit),
          ⟨bytes, (8 * cb + bit + 1) / 8, (8 * cb + bit + 1) % 8, tb⟩) := by
  have e1 : (8 * cb + bit) / 8 = cb := by omega
  have e2 : (8 * cb + bit) % 8 = bit := by omega
  have hget : bytes[cb]? = some (bytes.getD cb 0) := by
    rw [List.getD_eq_getElem?_getD, List.getElem?_eq_getElem hcb]; rfl
  simp only [BitBuffer.get, hget, streamBit, e1, e2, shiftRight_and_one]
  by_cases h8 : bit + 1 = 8
  · have e3 : (8 * cb + bit + 1) / 8 = cb + 1 := by omega
    have e4 : (8 * cb + bit + 1) % 8 = 0 := by omega
    simp [h8, e3, e4]
  · have e3 : (8 * cb + bit + 1) / 8 = cb := by omega
    have e4 : (8 * cb + bit + 1) % 8 = bit + 1 := by omega
    simp [h8, e3, e4]

theorem get_numberLoop_at (bytes : List Nat) (tb : Nat) (k : Nat) :
    ∀ (out mult cb bit : Nat), out < 2 ^ 64 → bit < 8 → 8 * cb + bit + k ≤ 8 * bytes.length →
      get_numberLoop k out mult ⟨bytes, cb, bit, tb⟩
        = some ((out + mult * streamField bytes (8 * cb + bit) k) % 2 ^ 64,
            ⟨bytes, (8 * cb + bit + k) / 8, (8 * cb + bit + k) % 8, tb⟩) := by
  induction k with
  | zero =>
    intro out mult cb bit hout hbit _
    have e1 : (8 * cb + bit) / 8 = cb := by omega
    have e2 : (8 * cb + bit) % 8 = bit := by omega
    simp only [get_numberLoop, streamField, e1, e2, Nat.mul_zero, Nat.add_zero,
      Nat.mod_eq_of_lt hout]
  | succ k ih =>
    intro out mult cb bit _ hbit hlen
    have hcb : cb < bytes.length := by omega
    rw [get_numberLoop, get_at bytes tb cb bit hbit hcb]
    simp only
    have hb' : (8 * cb + bit + 1) % 8 < 8 := Nat.mod_lt _ (by decide)
    have hpos : 8 * ((8 * cb + bit + 1) / 8) + (8 * cb + bit + 1) % 8 = 8 * cb + bit + 1 := by
      omega
    rw [ih _ _ _ _ (Nat.mod_lt _ (by positivity)) hb' (by omega), hpos]
    have e : 8 * cb + bit + 1 + k = 8 * cb + bit + (k + 1) := by omega
    rw [e]
    congr 2
    simp only [streamField]
    have h1 : (out + streamBit bytes (8 * cb + bit) * mult % 2 ^ 64) % 2 ^ 64 +
        mult * 2 % 2 ^ 64 * streamField bytes (8 * cb + bit + 1) k
        ≡ out + streamBit bytes (8 * cb + bit) * mult +
          mult * 2 * streamField bytes (8 * cb + bit + 1) k [MOD 2 ^ 64] :=
      Nat.ModEq.add
        ((Nat.mod_modEq _ _).trans (Nat.ModEq.add_left out (Nat.mod_modEq _ _)))
        (Nat.ModEq.mul_right _ (Nat.mod_modEq _ _))
    have h2 : out + streamBit bytes (8 * cb + bit) * mult +
          mult * 2 * streamField bytes (8 * cb + bit + 1) k
        = out + mult * (streamBit bytes (8 * cb + bit) +
            2 * streamField bytes (8 * cb + bit + 1) k) := by ring
    rw [← h2]
    exact h1

theorem get_number_at (bytes : List Nat) (tb cb bit n : Nat) (hn : n ≤ 64) (hbit : bit < 8)
    (hlen : 8 * cb + bit + n ≤ 8 * bytes.length) :
    BitBuffer.get_number ⟨bytes, cb, bit, tb⟩ n
      = some (streamField bytes (8 * cb + bit) n,
          ⟨bytes, (8 * cb + bit + n) / 8, (8 * cb + bit + n) % 8, tb⟩) := by
  rw [BitBuffer.get_number, get_numberLoop_at bytes tb n 0 1 cb bit (by positivity) hbit hlen]
  have h := streamField_lt bytes (8 * cb + bit) n
  have h2 : 2 ^ n ≤ 2 ^ 64 := Nat.pow_le_pow_right (by decide) hn
  rw [Nat.zero_add, Nat.one_mul, Nat.mod_eq_of_lt (by omega)]

theorem qr_fields (bb : BitBuffer) (h11 : 11 ≤ bb.bytes.length) (s : List Nat)
    (hbb : b38_decode s = some bb) :
    decode_qr_text (ascii "MT:" ++ s)
      = some ⟨streamField bb.bytes 0 3, streamField bb.bytes 3 16, streamField bb.bytes 19 16,
          streamField bb.bytes 45 12, streamField bb.bytes 57 27⟩ := by
  have hmt : ascii "MT:" = [77, 84, 58] := by decide
  have g1 := get_number_at bb.bytes bb.total_bytes 0 0 3 (by decide) (by decide) (by omega)
  have g2 := get_number_at bb.bytes bb.total_bytes 0 3 16 (by decide) (by decide) (by omega)
  have g3 := get_number_at bb.bytes bb.total_bytes 2 3 16 (by decide) (by decide) (by omega)
  have g4 := get_number_at bb.bytes bb.total_bytes 4 3 2 (by decide) (by decide) (by omega)
  have g5 := get_number_at bb.bytes bb.total_bytes 4 5 8 (by decide) (by decide) (by omega)
  have g6 := get_number_at bb.bytes bb.total_bytes 5 5 12 (by decide) (by decide) (by omega)
  have g7 := get_number_at bb.bytes bb.total_bytes 7 1 27 (by decide) (by decide) (by omega)
  simp only [Nat.reduceMul, Nat.reduceAdd, Nat.reduceDiv, Nat.reduceMod] at g1 g2 g3 g4 g5 g6 g7
  have b1 : streamField bb.bytes 0 3 % 2 ^ 8 = streamField bb.bytes 0 3 :=
    Nat.mod_eq_of_lt (lt_of_lt_of_le (streamField_lt bb.bytes 0 3) (by decide))
  have b2 : streamField bb.bytes 3 16 % 2 ^ 16 = streamField bb.bytes 3 16 :=
    Nat.mod_eq_of_lt (streamField_lt bb.bytes 3 16)
  have b3 : streamField bb.bytes 19 16 % 2 ^ 16 = streamField bb.bytes 19 16 :=
    Nat.mod_eq_of_lt (streamField_lt bb.bytes 19 16)
  have b4 : streamField bb.bytes 45 12 % 2 ^ 16 = streamField bb.bytes 45 12 :=
    Nat.mod_eq_of_lt (lt_of_lt_of_le (streamField_lt bb.bytes 45 12) (by decide))
  have b5 : streamField bb.bytes 57 27 % 2 ^ 32 = streamField bb.bytes 57 27 :=
    Nat.mod_eq_of_lt (lt_of_lt_of_le (streamField_lt bb.bytes 57 27) (by decide))
  simp only [decode_qr_text, hmt, List.cons_append, List.nil_append, List.take_succ_cons,
    List.take_zero, List.drop_succ_cons, List.drop_zero, ne_eq, not_true_eq_false, if_false, hbb,
    BitBuffer.reset_ptr, g1, g2, g3, g4, g5, g6, g7, b1, b2, b3, b4, b5]

theorem alphabet_lt : ∀ c ∈ alphabet, c < 128 := by decide

theorem a2nLoop_some (a : Nat) (l : List Nat) : ∀ i, a ∈ l → ∃ v, a2nLoop a i l = some v := by
  induction l with
  | nil => intro i h; simp at h
  | cons c cs ih =>
    intro i h
    by_cases hc : c = a
    · exact ⟨i, by simp [a2nLoop, hc]⟩
    · have h2 : a ∈ cs := by
        rcases List.mem_cons.mp h with h | h
        · exact absurd h.symm hc
        · exact h
      obtain ⟨v, hv⟩ := ih (i + 1) h2
      exact ⟨v, by simp [a2nLoop, hc, hv]⟩

theorem decodeRune_ascii (c : Nat) (cs : List Nat) (h : c < 128) :
    decodeRune (c :: cs) = (c, 1) := by
  simp [decodeRune, h]

theorem runesAux_ascii : ∀ (fuel : Nat) (a : List Nat), a.length ≤ fuel →
    (∀ c ∈ a, c < 128) → runesAux fuel a = a := by
  intro fuel
  induction fuel with
  | zero =>
    intro a hl _
    have : a = [] := List.length_eq_zero.mp (Nat.le_zero.mp hl)
    subst this; rfl
  | succ fuel ih =>
    intro a hl ha
    cases a with
    | nil => rfl
    | cons c cs =>
      have hc : c < 128 := ha c (List.mem_cons_self _ _)
      rw [runesAux, decodeRune_ascii c cs hc]
      simp only [List.drop_succ_cons, List.drop_zero]
      rw [ih cs (by simpa using hl) (fun x hx => ha x (List.mem_cons_of_mem _ hx))]

theorem runes_ascii (a : List Nat) (ha : ∀ c ∈ a, c < 128) : runes a = a :=
  runesAux_ascii a.length a (le_refl _) ha

theorem b24Loop_some : ∀ (ns : List Nat) (b24 mult : Nat), (∀ c ∈ ns, c ∈ alphabet) →
    ∃ v, b24Loop ns b24 mult = some v := by
  intro ns
  induction ns with
  | nil => intro b24 _ _; exact ⟨b24, rfl⟩
  | cons n ns ih =>
    intro b24 mult h
    have hn : n ∈ alphabet := h n (List.mem_cons_self _ _)
    have hlt : n < 128 := alphabet_lt n hn
    have hmod : n % 256 = n := Nat.mod_eq_of_lt (by omega)
    obtain ⟨v, hv⟩ := a2nLoop_some n alphabet 0 hn
    have hv2 : a2n (n % 256) = some v := by rw [hmod]; exact hv
    simp only [b24Loop, hv2]
    exact ih _ _ (fun c hc => h c (List.mem_cons_of_mem _ hc))

theorem in_array_mem : ∀ (n : Nat) (s : List Nat), s.length ≤ n →
    ∀ g ∈ in_array s, ∀ c ∈ g, c ∈ s := by
  intro n
  induction n using Nat.strong_induction_on with
  | _ n ih =>
    intro s hl g hg c hc
    match s, hl, hg with
    | a :: b :: c1 :: d :: e :: rest, hl, hg =>
      rw [in_array] at hg
      rcases List.mem_cons.mp hg with hg | hg
      · subst hg
        simp only [List.mem_cons] at hc ⊢
        simp only [List.mem_nil_iff, or_false] at hc
        tauto
      · have := ih rest.length (by simp at hl; omega) rest (le_refl _) g hg c hc
        simp [this]
    | [], _, hg => simp [in_array] at hg
    | [a], _, hg => simp [in_array] at hg; subst hg; exact hc
    | [a, b], _, hg => simp [in_array] at hg; subst hg; exact hc
    | [a, b, c1], _, hg => simp [in_array] at hg; subst hg; exact hc
    | [a, b, c1, d], _, hg => simp [in_array] at hg; subst hg; exact hc

theorem b38_decodeLoop_some : ∀ (groups : List (List Nat)) (bb : BitBuffer),
    (∀ g ∈ groups, ∀ c ∈ g, c ∈ alphabet) → ∃ bb1, b38_decodeLoop groups bb = some bb1 := by
  intro groups
  induction groups with
  | nil => intro bb _; exact ⟨bb, rfl⟩
  | cons a more ih =>
    intro bb h
    have ha : ∀ c ∈ a, c ∈ alphabet := h a (List.mem_cons_self _ _)
    have hr : runes a = a := runes_ascii a (fun c hc => alphabet_lt c (ha c hc))
    obtain ⟨v, hv⟩ := b24Loop_some a 0 1 ha
    simp only [b38_decodeLoop, hr, hv]
    exact ih _ (fun g hg => h g (List.mem_cons_of_mem _ hg))

theorem b38_decode_some (s : List Nat) (hs : ∀ c ∈ s, c ∈ alphabet) :
    ∃ bb, b38_decode s = some bb :=
  b38_decodeLoop_some (in_array s) _
    (fun g hg c hc => hs c (in_array_mem s.length s (le_refl _) g hg c hc))

/-- C5: for every payload `s` over the base-38 alphabet, `b38_decode(s)`
returns a bit buffer, and when it holds at least 11 bytes
`decode_qr_text("MT:" + s)` returns version = bits 0..2, vendor = bits 3..18,
product = bits 19..34, discriminator = bits 45..56 and passcode = bits 57..83
of the bit stream of those bytes, least significant bit first within each byte
and within each field; `"MT:Y.K9042C00KA0648G00"` gives version 0, vendor
65521, product 32768, discriminator 3840 and passcode 20202021. -/
theorem qr_field_layout (s : List Nat) (hs : ∀ c ∈ s, c ∈ alphabet) :
    (∃ bb, b38_decode s = some bb ∧
      (11 ≤ bb.bytes.length →
        decode_qr_text (ascii "MT:" ++ s)
          = some ⟨streamField bb.bytes 0 3, streamField bb.bytes 3 16,
              streamField bb.bytes 19 16, streamField bb.bytes 45 12,
              streamField bb.bytes 57 27⟩)) ∧
    decode_qr_text (ascii "MT:Y.K9042C00KA0648G00") = some ⟨0, 65521, 32768, 3840, 20202021⟩ := by
  obtain ⟨bb, hbb⟩ := b38_decode_some s hs
  exact ⟨⟨bb, hbb, fun h11 => qr_fields bb h11 s hbb⟩, by decide⟩

/-- C5 at the payload `Y.K9042C00KA0648G00`, which decodes to 12 bytes. -/
theorem qr_field_layout_witness :
    (∃ bb, b38_decode (ascii "Y.K9042C00KA0648G00") = some bb ∧
      (11 ≤ bb.bytes.length →
        decode_qr_text (ascii "MT:" ++ ascii "Y.K9042C00KA0648G00")
          = some ⟨streamField bb.bytes 0 3, streamField bb.bytes 3 16,
              streamField bb.bytes 19 16, streamField bb.bytes 45 12,
              streamField bb.bytes 57 27⟩)) ∧
    decode_qr_text (ascii "MT:Y.K9042C00KA0648G00") = some ⟨0, 65521, 32768, 3840, 20202021⟩ :=
  qr_field_layout (ascii "Y.K9042C00KA0648G00") (by decide)

/-! ### Send -/

theorem udp_send_conn (D : Deps) (ch : udpChannel) (c : PacketConn) (data : List Nat)
    (hconn : ch.Udp = some c) :
    ∃ c1 err, ch.send D data = some ({ ch with Udp := some c1 }, err) ∧
      c1.inbound = c.inbound ∧ c1.closed = c.closed ∧
      (c1.outbound = c.outbound ∨ c1.outbound = c.outbound ++ [data]) ∧
      (c.closed = false → D.WriteTo data = none →
        c1.outbound = c.outbound ++ [data] ∧ err = none) := by
  cases ch with
  | mk u ra =>
    simp only at hconn
    subst hconn
    unfold udpChannel.send
    simp only
    by_cases hcl : c.closed = true
    · refine ⟨c, some (Error.External "use of closed network connection"), by simp [hcl], rfl,
        rfl, Or.inl rfl, ?_⟩
      intro h; rw [hcl] at h; exact absurd h (by decide)
    · cases hw : D.WriteTo data with
      | some e =>
        refine ⟨c, some e, by simp [hcl], rfl, rfl, Or.inl rfl, ?_⟩
        intro _ h; exact absurd h (by simp)
      | none =>
        exact ⟨{ c with outbound := c.outbound ++ [data] }, none, by simp [hcl], rfl, rfl,
          Or.inr rfl, fun _ _ => ⟨rfl, rfl⟩⟩

theorem Send_started (D : Deps) (sc : SecureChannel) (data : List Nat) (ch : udpChannel)
    (c : PacketConn) (hudp : sc.Udp = some ch) (hconn : ch.Udp = some c) :
    ∃ c1 r, sc.Send D data
        = some ({ sc with Counter := (sc.Counter + 1) % 2 ^ 32,
                          Udp := some { ch with Udp := some c1 } }, r) ∧
      r.msg = sendHeader sc ∧
      c1.inbound = c.inbound ∧ c1.closed = c.closed ∧
      (sc.encrypt_key = [] → r.datagram = some (D.Encode (sendHeader sc) ++ data)) ∧
      (sc.encrypt_key ≠ [] → ∀ blk ccm, D.NewCipher sc.encrypt_key = Except.ok blk →
        D.NewCCM blk 16 (make_nonce3 ((sc.Counter + 1) % 2 ^ 32) sc.local_node).length
          = Except.ok ccm →
        r.datagram = some (D.Encode (sendHeader sc) ++
          D.Seal ccm (make_nonce3 ((sc.Counter + 1) % 2 ^ 32) sc.local_node) data
            (D.Encode (sendHeader sc)))) ∧
      (r.datagram = none → c1 = c) ∧
      (∀ dg, r.datagram = some dg →
        (c1.outbound = c.outbound ∨ c1.outbound = c.outbound ++ [dg]) ∧
        (c.closed = false → D.WriteTo dg = none →
          c1.outbound = c.outbound ++ [dg] ∧ r.err = none)) := by
  have hch : ch = { ch with Udp := some c } := by cases ch; simp_all
  have hb : ∀ x y : List Nat, ((Buffer.empty.Write x).Write y).Bytes = x ++ y := by
    intro x y; simp [Buffer.empty, Buffer.Write, Buffer.Bytes]
  have hb1 : ∀ x : List Nat, (Buffer.empty.Write x).Bytes = x := by
    intro x; simp [Buffer.empty, Buffer.Write, Buffer.Bytes]
  unfold SecureChannel.Send
  simp only [hudp, hb, hb1]
  by_cases hk : sc.encrypt_key.length = 0
  · have hk0 : sc.encrypt_key = [] := List.length_eq_zero.mp hk
    simp only [hk, if_true]
    obtain ⟨c1, err, hs, h1, h2, h3, h4⟩ := udp_send_conn D ch c
      (D.Encode (sendHeader sc) ++ data) hconn
    refine ⟨c1, ⟨sendHeader sc, some (D.Encode (sendHeader sc) ++ data), err⟩,
      by simp only [sendHeader] at hs; rw [hs]; rfl, rfl, h1, h2, fun _ => rfl,
      fun hne => absurd hk0 hne, fun h => by simp at h, ?_⟩
    intro dg hdg
    simp only [Option.some.injEq] at hdg
    subst hdg
    exact ⟨h3, h4⟩
  · have hk0 : sc.encrypt_key ≠ [] := fun h => hk (by simp [h])
    simp only [hk, if_false]
    cases hc : D.NewCipher sc.encrypt_key with
    | error e =>
      refine ⟨c, ⟨sendHeader sc, none, some e⟩, ?_, rfl, rfl, rfl, fun h => absurd h hk0,
        ?_, fun _ => rfl, fun dg h => by simp at h⟩
      · simp only [sendHeader]
        rw [← hch, ← hudp]
      · intro _ blk ccm h; simp at h
    | ok blk =>
      simp only
      cases hm : D.NewCCM blk 16
          (make_nonce3 ((sc.Counter + 1) % 2 ^ 32) sc.local_node).length with
      | error e =>
        refine ⟨c, ⟨sendHeader sc, none, some e⟩, ?_, rfl, rfl, rfl, fun h => absurd h hk0,
          ?_, fun _ => rfl, fun dg h => by simp at h⟩
        · simp only [sendHeader]
          rw [← hch, ← hudp]
        · intro _ blk2 ccm h h2
          simp only [Except.ok.injEq] at h
          subst h
          rw [hm] at h2
          simp at h2
      | ok ccm =>
        simp only
        obtain ⟨c1, err, hs, h1, h2, h3, h4⟩ := udp_send_conn D ch c
          (D.Encode (sendHeader sc) ++
            D.Seal ccm (make_nonce3 ((sc.Counter + 1) % 2 ^ 32) sc.local_node) data
              (D.Encode (sendHeader sc))) hconn
        refine ⟨c1, ⟨sendHeader sc, some (D.Encode (sendHeader sc) ++
            D.Seal ccm (make_nonce3 ((sc.Counter + 1) % 2 ^ 32) sc.local_node) data
              (D.Encode (sendHeader sc))), err⟩,
          by simp only [sendHeader] at hs; rw [hs]; rfl, rfl, h1, h2, fun h => absurd h hk0,
          ?_, fun h => by simp at h, ?_⟩
        · intro _ blk2 ccm2 hb2 hc2
          simp only [Except.ok.injEq] at hb2
          subst hb2
          rw [hm] at hc2
          simp only [Except.ok.injEq] at hc2
          subst hc2
          rfl
        · intro dg hdg
          simp only [Option.some.injEq] at hdg
          subst hdg
          exact ⟨h3, h4⟩

/-- C9: on a channel whose socket is bound, for every `data`, `Send` returns
with `Counter` set to the old value plus one (in `uint32` arithmetic); the
envelope it builds carries `sessionId = uint16(sc.session)`, `messageCounter` =
the new `Counter` and `sourceNodeId = 01 02 03 04 05 06 07 08`; the keys, the
node ids and the session are unchanged, and `Udp` still refers to the same
channel and socket. -/
theorem send_pre_increments (D : Deps) (sc : SecureChannel) (data : List Nat)
    (ch : udpChannel) (c : PacketConn) (hudp : sc.Udp = some ch) (hconn : ch.Udp = some c) :
    ∃ sc1 r, sc.Send D data = some (sc1, r) ∧
      sc1.Counter = (sc.Counter + 1) % 2 ^ 32 ∧
      (sc.Counter + 1 < 2 ^ 32 → sc1.Counter = sc.Counter + 1) ∧
      r.msg.sessionId = (sc.session % 2 ^ 16).toNat ∧
      r.msg.messageCounter = sc1.Counter ∧
      r.msg.sourceNodeId = [1, 2, 3, 4, 5, 6, 7, 8] ∧
      sc1.encrypt_key = sc.encrypt_key ∧ sc1.decrypt_key = sc.decrypt_key ∧
      sc1.remote_node = sc.remote_node ∧ sc1.local_node = sc.local_node ∧
      sc1.session = sc.session ∧
      ∃ c1, sc1.Udp = some { ch with Udp := some c1 } ∧ c1.inbound = c.inbound ∧
        c1.closed = c.closed := by
  obtain ⟨c1, r, hs, hmsg, h1, h2, _⟩ := Send_started D sc data ch c hudp hconn
  refine ⟨_, r, hs, rfl, fun h => Nat.mod_eq_of_lt h, ?_, ?_, ?_, rfl, rfl, rfl, rfl, rfl,
    c1, rfl, h1, h2⟩ <;> rw [hmsg] <;> rfl

/-- C10: on a channel whose socket is bound, for every `data`: when
`encrypt_key` is empty the datagram handed to the transport is the envelope
bytes followed by `data`; when `encrypt_key` is non-empty and `aes.NewCipher`
and `ccm.NewCCM` (tag size 16, nonce size `len(nonce)`) build the AEAD, it is the
envelope bytes followed by `Seal(nonce = make_nonce3(new Counter, local_node),
plaintext = data, associated data = the envelope bytes)`, the counter of the
nonce being the one in the envelope; and on an open socket whose write does not
fail the datagram handed over is appended to the datagrams sent. -/
theorem send_datagram (D : Deps) (sc : SecureChannel) (data : List Nat)
    (ch : udpChannel) (c : PacketConn) (hudp : sc.Udp = some ch) (hconn : ch.Udp = some c) :
    ∃ sc1 r, sc.Send D data = some (sc1, r) ∧
      (sc.encrypt_key = [] → r.datagram = some (D.Encode r.msg ++ data)) ∧
      (sc.encrypt_key ≠ [] → ∀ blk ccm, D.NewCipher sc.encrypt_key = Except.ok blk →
        D.NewCCM blk 16 (make_nonce3 ((sc.Counter + 1) % 2 ^ 32) sc.local_node).length
          = Except.ok ccm →
        r.msg.messageCounter = (sc.Counter + 1) % 2 ^ 32 ∧
        r.datagram = some (D.Encode r.msg ++
          D.Seal ccm (make_nonce3 r.msg.messageCounter sc.local_node) data (D.Encode r.msg))) ∧
      (∀ dg, r.datagram = some dg → c.closed = false → D.WriteTo dg = none →
        ∃ c1, sc1.Udp = some { ch with Udp := some c1 } ∧ c1.outbound = c.outbound ++ [dg]) := by
  obtain ⟨c1, r, hs, hmsg, _, _, hp, he, _, hd⟩ := Send_started D sc data ch c hudp hconn
  refine ⟨_, r, hs, ?_, ?_, ?_⟩
  · intro h; rw [hmsg]; exact hp h
  · intro h blk ccm hb hc
    rw [hmsg]
    exact ⟨rfl, he h blk ccm hb hc⟩
  · intro dg hdg hcl hw
    exact ⟨c1, rfl, ((hd dg hdg).2 hcl hw).1⟩

/-- C9 on a plaintext channel with counter 41 and the data `01 02`. -/
theorem send_pre_increments_witness :
    ∃ sc1 r, (plainChannel 41 []).Send exampleDeps [1, 2] = some (sc1, r) ∧
      sc1.Counter = ((plainChannel 41 []).Counter + 1) % 2 ^ 32 ∧
      ((plainChannel 41 []).Counter + 1 < 2 ^ 32 → sc1.Counter = (plainChannel 41 []).Counter + 1) ∧
      r.msg.sessionId = ((plainChannel 41 []).session % 2 ^ 16).toNat ∧
      r.msg.messageCounter = sc1.Counter ∧
      r.msg.sourceNodeId = [1, 2, 3, 4, 5, 6, 7, 8] ∧
      sc1.encrypt_key = (plainChannel 41 []).encrypt_key ∧
      sc1.decrypt_key = (plainChannel 41 []).decrypt_key ∧
      sc1.remote_node = (plainChannel 41 []).remote_node ∧
      sc1.local_node = (plainChannel 41 []).local_node ∧
      sc1.session = (plainChannel 41 []).session ∧
      ∃ c1, sc1.Udp = some { (⟨some ⟨[], [], false⟩, ([192, 168, 1, 2], 5540)⟩ : udpChannel) with
                               Udp := some c1 } ∧
        c1.inbound = (⟨[], [], false⟩ : PacketConn).inbound ∧
        c1.closed = (⟨[], [], false⟩ : PacketConn).closed :=
  send_pre_increments exampleDeps (plainChannel 41 []) [1, 2]
    ⟨some ⟨[], [], false⟩, ([192, 168, 1, 2], 5540)⟩ ⟨[], [], false⟩ rfl rfl

/-- C10 on a channel with 16-byte keys and 8-byte node ids, counter 41, and the
data `01 02`; there the AEAD is built, and the datagram is the 16 envelope bytes,
the data and the 16-byte tag (of zeros, in `exampleDeps`). -/
theorem send_datagram_witness :
    (exampleDeps.NewCipher (keyedChannel 41 []).encrypt_key = Except.ok (List.replicate 16 1) ∧
     exampleDeps.NewCCM (List.replicate 16 1) 16
        (make_nonce3 (((keyedChannel 41 []).Counter + 1) % 2 ^ 32)
          (keyedChannel 41 []).local_node).length = Except.ok (List.replicate 16 1, 16, 13) ∧
     ((keyedChannel 41 []).Send exampleDeps [1, 2]).map (fun p => p.2.datagram)
        = some (some ([4, 7, 0, 0, 42, 0, 0, 0, 1, 2, 3, 4, 5, 6, 7, 8] ++ [1, 2] ++
            List.replicate 16 0))) ∧
    ∃ sc1 r, (keyedChannel 41 []).Send exampleDeps [1, 2] = some (sc1, r) ∧
      ((keyedChannel 41 []).encrypt_key = [] →
        r.datagram = some (exampleDeps.Encode r.msg ++ [1, 2])) ∧
      ((keyedChannel 41 []).encrypt_key ≠ [] → ∀ blk ccm,
        exampleDeps.NewCipher (keyedChannel 41 []).encrypt_key = Except.ok blk →
        exampleDeps.NewCCM blk 16
            (make_nonce3 (((keyedChannel 41 []).Counter + 1) % 2 ^ 32)
              (keyedChannel 41 []).local_node).length = Except.ok ccm →
        r.msg.messageCounter = ((keyedChannel 41 []).Counter + 1) % 2 ^ 32 ∧
        r.datagram = some (exampleDeps.Encode r.msg ++
          exampleDeps.Seal ccm (make_nonce3 r.msg.messageCounter (keyedChannel 41 []).local_node)
            [1, 2] (exampleDeps.Encode r.msg))) ∧
      (∀ dg, r.datagram = some dg → (⟨[], [], false⟩ : PacketConn).closed = false →
        exampleDeps.WriteTo dg = none →
        ∃ c1, sc1.Udp = some { (⟨some ⟨[], [], false⟩, ([192, 168, 1, 2], 5540)⟩ : udpChannel) with
                                 Udp := some c1 } ∧
          c1.outbound = (⟨[], [], false⟩ : PacketConn).outbound ++ [dg]) :=
  ⟨⟨rfl, rfl, rfl⟩, send_datagram exampleDeps (keyedChannel 41 []) [1, 2]
    ⟨some ⟨[], [], false⟩, ([192, 168, 1, 2], 5540)⟩ ⟨[], [], false⟩ rfl rfl⟩

/-! ### Receive -/

theorem decodeDatagram_withInbound (D : Deps) (sc : SecureChannel) (ch : udpChannel)
    (c : PacketConn) (q : List (List Nat)) (data : List Nat) :
    (sc.withInbound ch c q).decodeDatagram D data = sc.decodeDatagram D data := rfl

theorem ReceiveFrom_acks (D : Deps) (sc : SecureChannel) (ch : udpChannel) (c : PacketConn)
    (q : List (List Nat)) :
    ∀ acks : List (List Nat), (∀ a ∈ acks, sc.isStandaloneAck D a) →
      SecureChannel.ReceiveFrom D sc ch c (acks ++ q) = SecureChannel.ReceiveFrom D sc ch c q := by
  intro acks
  induction acks with
  | nil => intro _; rfl
  | cons a acks ih =>
    intro h
    obtain ⟨out, hout, h1, h2⟩ := h a (List.mem_cons_self _ _)
    rw [List.cons_append, SecureChannel.ReceiveFrom]
    simp only [decodeDatagram_withInbound, hout, h1, h2, and_self, if_true]
    exact ih (fun b hb => h b (List.mem_cons_of_mem _ hb))

theorem ReceiveFrom_substantive (D : Deps) (sc : SecureChannel) (ch : udpChannel)
    (c : PacketConn) (m : List Nat) (more : List (List Nat)) (out : DecodedGeneric D.TlvItem)
    (hm : sc.decodeDatagram D (m.take (1024 * 10)) = Except.ok out)
    (hsub : ¬ (out.ProtocolHeader.ProtocolId = 0 ∧ out.ProtocolHeader.Opcode = SEC_CHAN_OPCODE_ACK)) :
    ∃ c1 rec, (sc.withInbound ch c more).Send D
          (D.ackGen out.ProtocolHeader out.MessageHeader.messageCounter)
        = some ({ sc with Counter := (sc.Counter + 1) % 2 ^ 32,
                          Udp := some { ch with Udp := some c1 } }, rec) ∧
      rec.msg = sendHeader sc ∧
      c1.inbound = more ∧ c1.closed = c.closed ∧
      (c1.outbound = c.outbound ∨ ∃ dg, rec.datagram = some dg ∧ c1.outbound = c.outbound ++ [dg]) ∧
      ∃ r, SecureChannel.ReceiveFrom D sc ch c (m :: more) = some r ∧
        r.sc = { sc with Counter := (sc.Counter + 1) % 2 ^ 32,
                         Udp := some { ch with Udp := some c1 } } ∧
        r.err = none ∧ r.sends = [rec] ∧
        r.out.MessageHeader = out.MessageHeader ∧ r.out.ProtocolHeader = out.ProtocolHeader ∧
        r.out.Payload = out.Payload := by
  obtain ⟨c1, rec, hs, hmsg, h1, h2, _, _, hnone, hd⟩ :=
    Send_started D (sc.withInbound ch c more)
      (D.ackGen out.ProtocolHeader out.MessageHeader.messageCounter)
      { ch with Udp := some { c with inbound := more } } { c with inbound := more } rfl rfl
  have hs2 : (sc.withInbound ch c more).Send D
        (D.ackGen out.ProtocolHeader out.MessageHeader.messageCounter)
      = some ({ sc with Counter := (sc.Counter + 1) % 2 ^ 32,
                        Udp := some { ch with Udp := some c1 } }, rec) := hs
  refine ⟨c1, rec, hs2, hmsg, h1, h2, ?_, ?_⟩
  · cases hdg : rec.datagram with
    | none => left; rw [hnone hdg]
    | some dg =>
      rcases (hd dg hdg).1 with h | h
      · exact Or.inl h
      · exact Or.inr ⟨dg, rfl, h⟩
  · rw [SecureChannel.ReceiveFrom]
    simp only [decodeDatagram_withInbound, hm, hsub, if_false, hs2]
    split_ifs <;> exact ⟨_, rfl, rfl, rfl, rfl, rfl, rfl, rfl⟩

/-- C7: on a channel with an open, bound socket whose datagrams to come are
`k >= 0` standalone ACKs, then a message `m` that decodes to a record `out`
which is no standalone ACK, then `more`: one call of `Receive` returns (it is a
total function), with no error; it consumes exactly the `k+1` datagrams (`more`
is what is left); the record returned has the headers and payload of `out`, so
it is not one of protocol id 0 and opcode `0x10`; it makes exactly one call of
`Send`, the one with the ACK for `m`, so that `Counter` advances by one (in
`uint32` arithmetic) and at most one datagram is written. -/
theorem receive_skips_standalone_acks (D : Deps) (sc : SecureChannel) (ch : udpChannel)
    (c : PacketConn) (acks : List (List Nat)) (m : List Nat) (more : List (List Nat))
    (out : DecodedGeneric D.TlvItem)
    (hudp : sc.Udp = some ch) (hconn : ch.Udp = some c) (hopen : c.closed = false)
    (hin : c.inbound = acks ++ m :: more)
    (hacks : ∀ a ∈ acks, sc.isStandaloneAck D a)
    (hm : sc.decodeDatagram D (m.take (1024 * 10)) = Except.ok out)
    (hsub : ¬ (out.ProtocolHeader.ProtocolId = 0 ∧
      out.ProtocolHeader.Opcode = SEC_CHAN_OPCODE_ACK)) :
    ∃ r rec c1, sc.Receive D = some r ∧ r.err = none ∧
      r.out.MessageHeader = out.MessageHeader ∧ r.out.ProtocolHeader = out.ProtocolHeader ∧
      r.out.Payload = out.Payload ∧
      ¬ (r.out.ProtocolHeader.ProtocolId = 0 ∧
        r.out.ProtocolHeader.Opcode = SEC_CHAN_OPCODE_ACK) ∧
      r.sends = [rec] ∧
      (sc.withInbound ch c more).Send D
          (D.ackGen out.ProtocolHeader out.MessageHeader.messageCounter) = some (r.sc, rec) ∧
      r.sc.Counter = (sc.Counter + 1) % 2 ^ 32 ∧
      r.sc.Udp = some { ch with Udp := some c1 } ∧ c1.inbound = more ∧
      (c1.outbound = c.outbound ∨
        ∃ dg, rec.datagram = some dg ∧ c1.outbound = c.outbound ++ [dg]) := by
  obtain ⟨c1, rec, hs, _, h1, _, h3, r, hr, hsc, herr, hsends, e1, e2, e3⟩ :=
    ReceiveFrom_substantive D sc ch c m more out hm hsub
  have hrecv : sc.Receive D = some r := by
    unfold SecureChannel.Receive
    simp only [hudp, hconn, hopen, hin]
    rw [ReceiveFrom_acks D sc ch c (m :: more) acks hacks]
    exact hr
  refine ⟨r, rec, c1, hrecv, herr, e1, e2, e3, ?_, hsends, ?_, ?_, ?_, h1, h3⟩
  · rw [e2]; exact hsub
  · rw [hsc]; exact hs
  · rw [hsc]
  · rw [hsc]

/-- C8: on a channel with an open, bound socket and a non-empty `decrypt_key`
for which the AEAD is built, when `Open` (nonce = `make_nonce3(envelope
counter, remote_node)`, associated data = the envelope bytes) reports an error
`e` on the datagram received, `Receive` returns `e` with the zero record, makes
no call of `Send`, and leaves every field of the channel as it was, `Counter`
included; of the socket only the datagram read is gone. -/
theorem receive_fails_closed (D : Deps) (sc : SecureChannel) (ch : udpChannel)
    (c : PacketConn) (dgram : List Nat) (rest : List (List Nat)) (blk : D.Block) (ccm : D.CCM)
    (e : Error)
    (hudp : sc.Udp = some ch) (hconn : ch.Udp = some c) (hopen : c.closed = false)
    (hin : c.inbound = dgram :: rest)
    (hkey : sc.decrypt_key ≠ [])
    (hblk : D.NewCipher sc.decrypt_key = Except.ok blk)
    (hccm : D.NewCCM blk 16
      (make_nonce3 (D.DecodeMessageHeader (dgram.take (1024 * 10))).1.messageCounter
        sc.remote_node).length = Except.ok ccm)
    (hopenErr : D.Open ccm
      (make_nonce3 (D.DecodeMessageHeader (dgram.take (1024 * 10))).1.messageCounter
        sc.remote_node)
      ((dgram.take (1024 * 10)).drop (D.DecodeMessageHeader (dgram.take (1024 * 10))).2)
      ((dgram.take (1024 * 10)).take ((dgram.take (1024 * 10)).length -
        ((dgram.take (1024 * 10)).drop
          (D.DecodeMessageHeader (dgram.take (1024 * 10))).2).length)) = Except.error e) :
    ∃ r, sc.Receive D = some r ∧ r.err = some e ∧
      r.out = DecodedGeneric.zero D ∧ r.sends = [] ∧
      r.sc = { sc with Udp := some { ch with Udp := some { c with inbound := rest } } } ∧
      r.sc.Counter = sc.Counter ∧ r.sc.encrypt_key = sc.encrypt_key ∧
      r.sc.decrypt_key = sc.decrypt_key ∧ r.sc.remote_node = sc.remote_node ∧
      r.sc.local_node = sc.local_node ∧ r.sc.session = sc.session := by
  have hlen : sc.decrypt_key.length > 0 := List.length_pos.mpr hkey
  have hdec : sc.decodeDatagram D (dgram.take (1024 * 10)) = Except.error e := by
    unfold SecureChannel.decodeDatagram
    simp only [hlen, if_true, DecodedGeneric.zero, hblk, hccm, hopenErr]
  refine ⟨⟨sc.withInbound ch c rest, DecodedGeneric.zero D, some e, []⟩, ?_, rfl, rfl, rfl, rfl,
    rfl, rfl, rfl, rfl, rfl, rfl⟩
  unfold SecureChannel.Receive
  simp only [hudp, hconn, hopen, hin]
  rw [SecureChannel.ReceiveFrom]
  simp only [decodeDatagram_withInbound, hdec]
  simp

/-- C7 on a plaintext channel with counter 5 whose datagrams to come are the
standalone ACK `Ack(5, 7)` of `tlv.go` and then a status report. -/
theorem receive_skips_standalone_acks_witness :
    ∃ r rec c1, (plainChannel 5 [Ack 5 7, exampleStatusReport]).Receive exampleDeps = some r ∧
      r.err = none ∧
      r.out.MessageHeader = exampleStatusOut.MessageHeader ∧
      r.out.ProtocolHeader = exampleStatusOut.ProtocolHeader ∧
      r.out.Payload = exampleStatusOut.Payload ∧
      ¬ (r.out.ProtocolHeader.ProtocolId = 0 ∧
        r.out.ProtocolHeader.Opcode = SEC_CHAN_OPCODE_ACK) ∧
      r.sends = [rec] ∧
      ((plainChannel 5 [Ack 5 7, exampleStatusReport]).withInbound
          (exampleUdp [Ack 5 7, exampleStatusReport])
          (exampleConn [Ack 5 7, exampleStatusReport]) []).Send exampleDeps
          (exampleDeps.ackGen exampleStatusOut.ProtocolHeader
            exampleStatusOut.MessageHeader.messageCounter) = some (r.sc, rec) ∧
      r.sc.Counter = ((plainChannel 5 [Ack 5 7, exampleStatusReport]).Counter + 1) % 2 ^ 32 ∧
      r.sc.Udp = some { exampleUdp [Ack 5 7, exampleStatusReport] with Udp := some c1 } ∧
      c1.inbound = [] ∧
      (c1.outbound = (exampleConn [Ack 5 7, exampleStatusReport]).outbound ∨
        ∃ dg, rec.datagram = some dg ∧
          c1.outbound = (exampleConn [Ack 5 7, exampleStatusReport]).outbound ++ [dg]) :=
  receive_skips_standalone_acks exampleDeps (plainChannel 5 [Ack 5 7, exampleStatusReport])
    (exampleUdp [Ack 5 7, exampleStatusReport]) (exampleConn [Ack 5 7, exampleStatusReport])
    [Ack 5 7] exampleStatusReport [] exampleStatusOut rfl rfl rfl rfl
    (fun a ha => by
      rw [List.mem_singleton] at ha
      subst ha
      exact ⟨⟨⟨0, 0, 5, [1, 2, 3, 4, 5, 6, 7, 8], []⟩, ⟨3, 0x10, 0xba3e, 0, 7⟩, [], ⟨0, 0, 0⟩, []⟩,
        rfl, rfl, rfl⟩)
    rfl (by decide)

/-- C8 on a channel with 16-byte keys whose datagram to come is too short to
hold the 16-byte tag, so that `Open` fails. -/
theorem receive_fails_closed_witness :
    ∃ r, (keyedChannel 5 [exampleShortDatagram]).Receive exampleDeps = some r ∧
      r.err = some (Error.External "ccm: ciphertext too short") ∧
      r.out = DecodedGeneric.zero exampleDeps ∧ r.sends = [] ∧
      r.sc = { keyedChannel 5 [exampleShortDatagram] with
                 Udp := some { exampleUdp [exampleShortDatagram] with
                   Udp := some { exampleConn [exampleShortDatagram] with inbound := [] } } } ∧
      r.sc.Counter = (keyedChannel 5 [exampleShortDatagram]).Counter ∧
      r.sc.encrypt_key = (keyedChannel 5 [exampleShortDatagram]).encrypt_key ∧
      r.sc.decrypt_key = (keyedChannel 5 [exampleShortDatagram]).decrypt_key ∧
      r.sc.remote_node = (keyedChannel 5 [exampleShortDatagram]).remote_node ∧
      r.sc.local_node = (keyedChannel 5 [exampleShortDatagram]).local_node ∧
      r.sc.session = (keyedChannel 5 [exampleShortDatagram]).session :=
  receive_fails_closed exampleDeps (keyedChannel 5 [exampleShortDatagram])
    (exampleUdp [exampleShortDatagram]) (exampleConn [exampleShortDatagram])
    exampleShortDatagram [] (List.replicate 16 2) (List.replicate 16 2, 16, 13)
    (Error.External "ccm: ciphertext too short") rfl rfl rfl rfl (by decide) rfl rfl rfl

/-! ### Counters of a sequence of calls -/

theorem ReceiveFrom_counts (D : Deps) (sc : SecureChannel) (ch : udpChannel) (c : PacketConn) :
    ∀ q : List (List Nat), ∃ r, SecureChannel.ReceiveFrom D sc ch c q = some r ∧
      r.sc.started ∧ r.sc.local_node = sc.local_node ∧
      ((r.sends = [] ∧ r.sc.Counter = sc.Counter) ∨
        ∃ rec, r.sends = [rec] ∧ rec.msg.messageCounter = (sc.Counter + 1) % 2 ^ 32 ∧
          r.sc.Counter = (sc.Counter + 1) % 2 ^ 32) := by
  intro q
  induction q with
  | nil =>
    exact ⟨_, rfl, ⟨_, _, rfl, rfl⟩, rfl, Or.inl ⟨rfl, rfl⟩⟩
  | cons m more ih =>
    cases hm : sc.decodeDatagram D (m.take (1024 * 10)) with
    | error e =>
      refine ⟨⟨sc.withInbound ch c more, DecodedGeneric.zero D, some e, []⟩, ?_,
        ⟨_, _, rfl, rfl⟩, rfl, Or.inl ⟨rfl, rfl⟩⟩
      rw [SecureChannel.ReceiveFrom]
      simp only [decodeDatagram_withInbound, hm]
    | ok out =>
      by_cases hack : out.ProtocolHeader.ProtocolId = 0 ∧
          out.ProtocolHeader.Opcode = SEC_CHAN_OPCODE_ACK
      · obtain ⟨r, hr, h⟩ := ih
        refine ⟨r, ?_, h⟩
        rw [SecureChannel.ReceiveFrom]
        simp only [decodeDatagram_withInbound, hm, hack, and_self, if_true]
        exact hr
      · obtain ⟨c1, rec, _, hmsg, _, _, _, r, hr, hsc, _, hsends, _⟩ :=
          ReceiveFrom_substantive D sc ch c m more out hm hack
        refine ⟨r, hr, ?_, ?_, Or.inr ⟨rec, hsends, ?_, ?_⟩⟩
        · rw [hsc]; exact ⟨_, _, rfl, rfl⟩
        · rw [hsc]
        · rw [hmsg]; rfl
        · rw [hsc]

theorem Receive_counts (D : Deps) (sc : SecureChannel) (hst : sc.started) :
    ∃ r, sc.Receive D = some r ∧
      r.sc.started ∧ r.sc.local_node = sc.local_node ∧
      ((r.sends = [] ∧ r.sc.Counter = sc.Counter) ∨
        ∃ rec, r.sends = [rec] ∧ rec.msg.messageCounter = (sc.Counter + 1) % 2 ^ 32 ∧
          r.sc.Counter = (sc.Counter + 1) % 2 ^ 32) := by
  obtain ⟨ch, c, hudp, hconn⟩ := hst
  unfold SecureChannel.Receive
  simp only [hudp, hconn]
  by_cases hcl : c.closed = true
  · simp only [hcl, if_true]
    exact ⟨_, rfl, ⟨ch, c, hudp, hconn⟩, rfl, Or.inl ⟨rfl, rfl⟩⟩
  · simp only [hcl, if_false]
    exact ReceiveFrom_counts D sc ch c c.inbound

theorem Send_counts (D : Deps) (sc : SecureChannel) (data : List Nat) (hst : sc.started) :
    ∃ sc1 rec, sc.Send D data = some (sc1, rec) ∧
      sc1.started ∧ sc1.local_node = sc.local_node ∧
      rec.msg.messageCounter = (sc.Counter + 1) % 2 ^ 32 ∧
      sc1.Counter = (sc.Counter + 1) % 2 ^ 32 := by
  obtain ⟨ch, c, hudp, hconn⟩ := hst
  obtain ⟨c1, r, hs, hmsg, _⟩ := Send_started D sc data ch c hudp hconn
  exact ⟨_, r, hs, ⟨_, _, rfl, rfl⟩, rfl, by rw [hmsg]; rfl, rfl⟩

theorem counters_cons (c n : Nat) :
    ((c + 1) % 2 ^ 32) :: (List.range n).map (fun i => ((c + 1) % 2 ^ 32 + 1 + i) % 2 ^ 32)
      = (List.range (n + 1)).map (fun i => (c + 1 + i) % 2 ^ 32) := by
  rw [List.range_succ_eq_map, List.map_cons, List.map_map]
  congr 1
  apply List.map_congr_left
  intro i _
  simp only [Function.comp, Nat.succ_eq_add_one]
  omega

theorem run_counters (D : Deps) : ∀ (calls : List Call) (sc : SecureChannel), sc.started →
    sc.Counter < 2 ^ 32 →
    ∃ sc1 recs, sc.run D calls = some (sc1, recs) ∧ sc1.started ∧
      sc1.local_node = sc.local_node ∧
      sc1.Counter = (sc.Counter + recs.length) % 2 ^ 32 ∧
      recs.map (fun r => r.msg.messageCounter)
        = (List.range recs.length).map (fun i => (sc.Counter + 1 + i) % 2 ^ 32) := by
  intro calls
  induction calls with
  | nil =>
    intro sc hst hC
    refine ⟨sc, [], rfl, hst, rfl, ?_, rfl⟩
    simp only [List.length_nil, Nat.add_zero]
    exact (Nat.mod_eq_of_lt hC).symm
  | cons call calls ih =>
    intro sc hst hC
    have hM : (sc.Counter + 1) % 2 ^ 32 < 2 ^ 32 := Nat.mod_lt _ (by positivity)
    cases call with
    | send data =>
      obtain ⟨sc1, rec, hs, hst1, hl1, hc1, hC1⟩ := Send_counts D sc data hst
      obtain ⟨sc2, recs, hr, hst2, hl2, hC2, hcs⟩ := ih sc1 hst1 (by rw [hC1]; exact hM)
      refine ⟨sc2, rec :: recs, ?_, hst2, by rw [hl2, hl1], ?_, ?_⟩
      · simp only [SecureChannel.run, hs, hr]
      · rw [hC2, hC1, List.length_cons]; omega
      · rw [List.map_cons, hcs, hc1, hC1, List.length_cons]
        exact counters_cons sc.Counter recs.length
    | receive =>
      obtain ⟨r, hrv, hst1, hl1, hcase⟩ := Receive_counts D sc hst
      rcases hcase with ⟨hnil, hC1⟩ | ⟨rec, hone, hc1, hC1⟩
      · obtain ⟨sc2, recs, hr, hst2, hl2, hC2, hcs⟩ := ih r.sc hst1 (by rw [hC1]; exact hC)
        refine ⟨sc2, recs, ?_, hst2, by rw [hl2, hl1], ?_, ?_⟩
        · simp only [SecureChannel.run, hrv, hr, hnil, List.nil_append]
        · rw [hC2, hC1]
        · rw [hcs, hC1]
      · obtain ⟨sc2, recs, hr, hst2, hl2, hC2, hcs⟩ := ih r.sc hst1 (by rw [hC1]; exact hM)
        refine ⟨sc2, rec :: recs, ?_, hst2, by rw [hl2, hl1], ?_, ?_⟩
        · simp only [SecureChannel.run, hrv, hr, hone, List.singleton_append]
        · rw [hC2, hC1, List.length_cons]; omega
        · rw [List.map_cons, hcs, hc1, hC1, List.length_cons]
          exact counters_cons sc.Counter recs.length

theorem make_nonce3_inj (a b : Nat) (node : List Nat) (ha : a < 2 ^ 32) (hb : b < 2 ^ 32)
    (h : make_nonce3 a node = make_nonce3 b node) : a = b := by
  have e : ∀ c, c < 2 ^ 32 → make_nonce3 c node
      = 0 :: c % 256 :: c / 2 ^ 8 % 256 :: c / 2 ^ 16 % 256 :: c / 2 ^ 24 % 256 :: node := by
    intro c hc
    simp only [make_nonce3, Buffer.empty, Buffer.WriteByte, Buffer.Write, binaryWrite,
      Buffer.Bytes, putLE, Nat.mod_eq_of_lt hc, Nat.div_div_eq_div_mul]
    simp
  rw [e a ha, e b hb] at h
  simp only [List.cons.injEq, true_and] at h
  obtain ⟨h0, h1, h2, h3, _⟩ := h
  omega

theorem range_counters_increasing (c n : Nat) (h : c + n < 2 ^ 32) :
    ((List.range n).map (fun i => (c + 1 + i) % 2 ^ 32)).Pairwise (· < ·) := by
  rw [List.pairwise_map]
  refine List.Pairwise.imp_of_mem ?_ (List.pairwise_lt_range n)
  intro a b ha hb hab
  have ha' := List.mem_range.mp ha
  have hb' := List.mem_range.mp hb
  omega

theorem range_nonces_nodup (c n : Nat) (node : List Nat) (h : n ≤ 2 ^ 32) :
    ((List.range n).map (fun i => make_nonce3 ((c + 1 + i) % 2 ^ 32) node)).Nodup := by
  refine List.Nodup.map_on ?_ (List.nodup_range n)
  intro a ha b hb hab
  have ha' := List.mem_range.mp ha
  have hb' := List.mem_range.mp hb
  have := make_nonce3_inj _ _ node (Nat.mod_lt _ (by positivity)) (Nat.mod_lt _ (by positivity)) hab
  omega

/-- C6, as amended: on a channel with a bound socket, for every sequence of
calls of `Send` and `Receive`, the calls of `Send` made (those for ACKs inside
`Receive` included) place `Counter + 1`, `Counter + 2`, ... modulo `2^32` in
their envelopes, in this order; so the counters are strictly increasing as long
as `Counter` plus the number of calls of `Send` stays below `2^32`, and no two
of at most `2^32` calls of `Send` have the same nonce
`make_nonce3(counter, local_node)`. -/
theorem send_counters_increase (D : Deps) (calls : List Call) (sc : SecureChannel)
    (hst : sc.started) (hC : sc.Counter < 2 ^ 32) :
    ∃ sc1 recs, sc.run D calls = some (sc1, recs) ∧
      recs.map (fun r => r.msg.messageCounter)
        = (List.range recs.length).map (fun i => (sc.Counter + 1 + i) % 2 ^ 32) ∧
      (sc.Counter + recs.length < 2 ^ 32 →
        (recs.map (fun r => r.msg.messageCounter)).Pairwise (· < ·)) ∧
      (recs.length ≤ 2 ^ 32 →
        (recs.map (fun r => make_nonce3 r.msg.messageCounter sc.local_node)).Nodup) := by
  obtain ⟨sc1, recs, hr, _, _, _, hcs⟩ := run_counters D calls sc hst hC
  refine ⟨sc1, recs, hr, hcs, ?_, ?_⟩
  · intro h
    rw [hcs]
    exact range_counters_increasing sc.Counter recs.length h
  · intro h
    have e : recs.map (fun r => make_nonce3 r.msg.messageCounter sc.local_node)
        = (recs.map (fun r => r.msg.messageCounter)).map
            (fun k => make_nonce3 k sc.local_node) := by
      rw [List.map_map]; rfl
    rw [e, hcs, List.map_map]
    exact range_nonces_nodup sc.Counter recs.length sc.local_node h

/-- C6 as amended, on a plaintext channel with counter 5: a `Send`, a `Receive`
that skips an ACK and acknowledges a status report, and another `Send`. -/
theorem send_counters_increase_witness :
    ∃ sc1 recs,
      (plainChannel 5 [Ack 5 7, exampleStatusReport]).run exampleDeps
        [Call.send [1], Call.receive, Call.send [2]] = some (sc1, recs) ∧
      recs.map (fun r => r.msg.messageCounter)
        = (List.range recs.length).map (fun i =>
            ((plainChannel 5 [Ack 5 7, exampleStatusReport]).Counter + 1 + i) % 2 ^ 32) ∧
      ((plainChannel 5 [Ack 5 7, exampleStatusReport]).Counter + recs.length < 2 ^ 32 →
        (recs.map (fun r => r.msg.messageCounter)).Pairwise (· < ·)) ∧
      (recs.length ≤ 2 ^ 32 →
        (recs.map (fun r => make_nonce3 r.msg.messageCounter
          (plainChannel 5 [Ack 5 7, exampleStatusReport]).local_node)).Nodup) :=
  send_counters_increase exampleDeps [Call.send [1], Call.receive, Call.send [2]]
    (plainChannel 5 [Ack 5 7, exampleStatusReport]) ⟨_, _, rfl, rfl⟩ (by decide)

/-- C6 as stated fails: on a plaintext channel with `Counter = 0xFFFFFFFE` two
calls of `Send` place the counters `0xFFFFFFFF` and then `0` in their
envelopes, which is not strictly increasing. -/
theorem send_counters_wrap :
    ∃ sc1 recs,
      (plainChannel 0xFFFFFFFE []).run exampleDeps [Call.send [], Call.send []]
        = some (sc1, recs) ∧
      recs.map (fun r => r.msg.messageCounter) = [0xFFFFFFFF, 0] ∧
      ¬ (recs.map (fun r => r.msg.messageCounter)).Pairwise (· < ·) := by
  refine ⟨_, _, rfl, rfl, ?_⟩
  decide

/-! ### Envelope flag byte and sizes -/

theorem calcMessageFlags_high (m : Message) :
    m.calcMessageFlags &&& 0xF8 = 0 ∧ m.calcMessageFlags < 256 := by
  unfold Message.calcMessageFlags
  split_ifs <;> decide

/-- C11: for every `Message`, `calcMessageFlags` returns a byte whose bit 2
(value 4) is set iff `len(sourceNodeId) = 8`, whose low two bits are 1 when
`len(destinationNodeId) = 8`, 2 when it is 2 and 0 for every other length, and
whose other bits (the version bits included) are all zero. -/
theorem envelope_flag_byte (m : Message) :
    (m.calcMessageFlags &&& 4 ≠ 0 ↔ m.sourceNodeId.length = 8) ∧
    (m.calcMessageFlags &&& 3 =
      if m.destinationNodeId.length = 8 then 1
      else if m.destinationNodeId.length = 2 then 2 else 0) ∧
    m.calcMessageFlags &&& 0xF8 = 0 ∧ m.calcMessageFlags < 256 := by
  refine ⟨calcMessageFlags_src m, ?_, calcMessageFlags_high m⟩
  rw [calcMessageFlags_dst]
  split_ifs <;> first | rfl | omega

theorem encodeBase_bytes (m : Message) :
    (m.encodeBase Buffer.empty).Bytes =
      m.calcMessageFlags :: (putLE 2 (m.sessionId % 2 ^ 16) ++ (m.securityFlags ::
        (putLE 4 (m.messageCounter % 2 ^ 32) ++
          ((if m.sourceNodeId.length = 8 then m.sourceNodeId else []) ++
            (if m.destinationNodeId.length > 0 then m.destinationNodeId else []))))) := by
  simp only [Message.encodeBase, Buffer.empty, Buffer.WriteByte, Buffer.Write, binaryWrite,
    Buffer.Bytes]
  split_ifs <;> simp

/-- C16, as amended: for every `Message` whose `sourceNodeId` is empty or 8
bytes and whose `destinationNodeId` is empty, 2 or 8 bytes, the envelope written
by `encodeBase` is between 8 and 24 bytes long, and `encode` writes that
envelope followed by a protocol header of exactly 6 bytes (so between 6 and
10). -/
theorem envelope_size_bound (m : Message)
    (hsrc : m.sourceNodeId.length = 0 ∨ m.sourceNodeId.length = 8)
    (hdst : m.destinationNodeId.length = 0 ∨ m.destinationNodeId.length = 2 ∨
      m.destinationNodeId.length = 8) :
    8 ≤ (m.encodeBase Buffer.empty).Bytes.length ∧
    (m.encodeBase Buffer.empty).Bytes.length ≤ 24 ∧
    ∃ hdr, (m.encode Buffer.empty).Bytes = (m.encodeBase Buffer.empty).Bytes ++ hdr ∧
      hdr.length = 6 ∧ 6 ≤ hdr.length ∧ hdr.length ≤ 10 := by
  have hl : (m.encodeBase Buffer.empty).Bytes.length
      = 8 + (if m.sourceNodeId.length = 8 then 8 else 0) + m.destinationNodeId.length := by
    rw [encodeBase_bytes]
    rcases hsrc with h | h <;> rcases hdst with h2 | h2 | h2 <;>
      simp [h, h2, putLE_length]
  refine ⟨by rw [hl]; omega, ?_, ?_⟩
  · rw [hl]; split_ifs <;> omega
  · refine ⟨m.prot.exchangeFlags :: m.prot.opcode ::
        (putLE 2 (m.prot.exchangeId % 2 ^ 16) ++ putLE 2 (m.prot.protocolId % 2 ^ 16)), ?_, ?_⟩
    · rw [encode_bytes, encodeBase_bytes]
      simp
    · simp [putLE_length]

/-- C16 as amended, at the message of `test1`. -/
theorem envelope_size_bound_witness :
    8 ≤ (test1_msg.encodeBase Buffer.empty).Bytes.length ∧
    (test1_msg.encodeBase Buffer.empty).Bytes.length ≤ 24 ∧
    ∃ hdr, (test1_msg.encode Buffer.empty).Bytes
        = (test1_msg.encodeBase Buffer.empty).Bytes ++ hdr ∧
      hdr.length = 6 ∧ 6 ≤ hdr.length ∧ hdr.length ≤ 10 :=
  envelope_size_bound test1_msg (Or.inr rfl) (Or.inl rfl)

/-- C16 as stated fails: with an 8-byte source and an 8-byte destination node
id the envelope written by `encodeBase` is 24 bytes long, more than 18. -/
theorem envelope_size_exceeds_18 :
    (bothNodeIds_msg.encodeBase Buffer.empty).Bytes.length = 24 ∧
    ¬ (bothNodeIds_msg.encodeBase Buffer.empty).Bytes.length ≤ 18 := by
  decide

/-! ### TLV readers: rejected and truncated elements -/

/-- C13: for every expected tag `t`: on every buffer that starts with a control
octet `ctrl` whose tag form `ctrl >> 5` is not 1, `readOctetString(t)` and
`readUInt(t)` return an error; and on every buffer that starts with a control
octet `ctrl` and a tag byte `tag`, `readOctetString(t)` returns an error
whenever the tag form is not 1, or `tag` differs from `t`, or the element type
`ctrl & 0x1f` is not `0x10`, and `readUInt(t)` returns an error whenever the tag
form is not 1, or `tag` differs from `t`, or the element type is none of 4, 5,
6, 7. -/
theorem tlv_readers_reject (d rest : List Nat) (l : Bool) (ctrl tag t : Nat) :
    (ctrl >>> 5 ≠ 1 →
      (TLVBufferDec.readOctetString ⟨⟨d, ctrl :: rest, l⟩⟩ t).2.2 ≠ none ∧
      (TLVBufferDec.readUInt ⟨⟨d, ctrl :: rest, l⟩⟩ t).2.2 ≠ none) ∧
    ((ctrl >>> 5 ≠ 1 ∨ tag ≠ t ∨ ctrl &&& 0x1f ≠ 0x10) →
      (TLVBufferDec.readOctetString ⟨⟨d, ctrl :: tag :: rest, l⟩⟩ t).2.2 ≠ none) ∧
    ((ctrl >>> 5 ≠ 1 ∨ tag ≠ t ∨
        ¬ (ctrl &&& 0x1f = 4 ∨ ctrl &&& 0x1f = 5 ∨ ctrl &&& 0x1f = 6 ∨ ctrl &&& 0x1f = 7)) →
      (TLVBufferDec.readUInt ⟨⟨d, ctrl :: tag :: rest, l⟩⟩ t).2.2 ≠ none) := by
  refine ⟨?_, ?_, ?_⟩
  · intro h
    constructor
    · simp [TLVBufferDec.readOctetString, ReadByte_cons, h]
    · simp [TLVBufferDec.readUInt, ReadByte_cons, h]
  · intro h
    simp only [TLVBufferDec.readOctetString, ReadByte_cons]
    by_cases h1 : ctrl >>> 5 = 1
    · by_cases h2 : tag = t
      · by_cases h3 : ctrl &&& 0x1f = 0x10
        · rcases h with h | h | h
          · exact absurd h1 h
          · exact absurd h2 h
          · exact absurd h3 h
        · simp [h1, h2, h3]
      · simp [h1, h2]
    · simp [h1]
  · intro h
    simp only [TLVBufferDec.readUInt, ReadByte_cons]
    by_cases h1 : ctrl >>> 5 = 1
    · by_cases h2 : tag = t
      · have h3 : ¬ (ctrl &&& 0x1f = 4 ∨ ctrl &&& 0x1f = 5 ∨ ctrl &&& 0x1f = 6 ∨
            ctrl &&& 0x1f = 7) := by
          rcases h with h | h | h
          · exact absurd h1 h
          · exact absurd h2 h
          · exact h
        have e4 : ¬ (((ctrl &&& 0x1f : Nat) : Int) = TYPE_UINT_1) := by
          intro e; apply h3; left; simp only [TYPE_UINT_1] at e; exact_mod_cast e
        have e5 : ¬ (((ctrl &&& 0x1f : Nat) : Int) = TYPE_UINT_2) := by
          intro e; apply h3; right; left; simp only [TYPE_UINT_2] at e; exact_mod_cast e
        have e6 : ¬ (((ctrl &&& 0x1f : Nat) : Int) = TYPE_UINT_4) := by
          intro e; apply h3; right; right; left; simp only [TYPE_UINT_4] at e; exact_mod_cast e
        have e7 : ¬ (((ctrl &&& 0x1f : Nat) : Int) = TYPE_UINT_8) := by
          intro e; apply h3; right; right; right; simp only [TYPE_UINT_8] at e; exact_mod_cast e
        simp [h1, h2, e4, e5, e6, e7]
      · simp [h1, h2]
    · simp [h1]

/-- On a buffer that holds a control octet of form 1 and width 2, 4 or 8, the
expected tag, and fewer value bytes than the width, `readUInt` returns the
value 0 and no error. -/
theorem readUInt_short_value (d vs : List Nat) (l : Bool) (ctrl t w : Nat)
    (h5 : ctrl >>> 5 = 1)
    (hc : (ctrl &&& 0x1f = 5 ∧ w = 2) ∨ (ctrl &&& 0x1f = 6 ∧ w = 4) ∨ (ctrl &&& 0x1f = 7 ∧ w = 8))
    (hshort : vs.length < w) :
    (TLVBufferDec.readUInt ⟨⟨d, ctrl :: t :: vs, l⟩⟩ t).2 = (0, none) := by
  have hr : ∀ b : Buffer, b.unread = vs → (binaryRead b w 0).2.1 = 0 := by
    intro b hb
    unfold binaryRead ReadFull
    cases hv : vs with
    | nil =>
      have hw : ¬ w = 0 := by omega
      have hw2 : ¬ w ≤ 0 := by omega
      simp [Buffer.Read, hb, hv, hw, hw2]
    | cons c cs =>
      have hlt : ¬ w ≤ ((c :: cs).take w).length := by
        rw [List.length_take, ← hv]; omega
      simp only [Buffer.Read, hb, hv]
      simp only [hlt, if_false]
  rcases hc with ⟨hc, rfl⟩ | ⟨hc, rfl⟩ | ⟨hc, rfl⟩ <;>
  simp [TLVBufferDec.readUInt, ReadByte_cons, h5, hc, TYPE_UINT_1, TYPE_UINT_2,
    TYPE_UINT_4, TYPE_UINT_8, hr]

/-- C14 fails on the code: the buffer `25 07 01` announces a 2-byte unsigned
integer with tag 7 and ends after one value byte, and `readUInt(7)` returns the
value 0 with no error. -/
theorem readUInt_short_read_unreported :
    (TLVBufferDec.readUInt ⟨NewBuffer [0x25, 0x07, 0x01]⟩ 7).2 = (0, none) :=
  readUInt_short_value [] [0x01] false 0x25 7 2 (by decide) (Or.inl ⟨by decide, rfl⟩)
    (by decide)

/-- C15 fails on the code: the 10 bytes `00 00 00 00 01 00 00 00 05 20` have
flags 0, so they announce an envelope of 8 bytes and a protocol header of 6; the
frame ends after the opcode, and `decode` returns no error. -/
theorem decode_truncated_frame_accepted :
    (Message.zero.decode (NewBuffer [0, 0, 0, 0, 1, 0, 0, 0, 0x05, 0x20])).2.2 = none ∧
    [0, 0, 0, 0, 1, 0, 0, 0, 0x05, 0x20].length < 8 + 6 := by
  decide

/-! ### Base-38 groups -/

theorem a2nLoop_indexOf (a : Nat) (l : List Nat) :
    ∀ i, a ∈ l → a2nLoop a i l = some (i + l.indexOf a) := by
  induction l with
  | nil => intro i h; simp at h
  | cons c cs ih =>
    intro i h
    by_cases hc : c = a
    · subst hc; simp [a2nLoop, List.indexOf_cons]
    · have h2 : a ∈ cs := by
        rcases List.mem_cons.mp h with h | h
        · exact absurd h.symm hc
        · exact h
      simp only [a2nLoop, hc, if_false, ih (i + 1) h2, List.indexOf_cons]
      have : (c == a) = false := by simpa using hc
      simp only [this, cond_false]
      congr 1; omega

theorem a2nLoop_lt (a : Nat) (l : List Nat) :
    ∀ i v, a2nLoop a i l = some v → v < i + l.length := by
  induction l with
  | nil => intro i v h; simp [a2nLoop] at h
  | cons c cs ih =>
    intro i v h
    by_cases hc : c = a
    · simp only [a2nLoop, hc, if_true, Option.some.injEq] at h
      subst h; simp
    · simp only [a2nLoop, hc, if_false] at h
      have := ih (i + 1) v h
      simp only [List.length_cons]; omega

theorem a2n_getD_lt (c : Nat) : (a2n c).getD 0 < 38 := by
  cases h : a2n c with
  | none => simp
  | some v =>
    have := a2nLoop_lt c alphabet 0 v h
    have hl : alphabet.length = 38 := by decide
    simp only [Option.getD_some]
    omega

theorem groupValue_cons (c : Nat) (cs : List Nat) :
    groupValue (c :: cs) = (a2n c).getD 0 + 38 * groupValue cs := by
  unfold groupValue
  rw [List.length_cons, List.range_succ_eq_map, List.map_cons, List.sum_cons, List.map_map]
  simp only [List.getD_cons_zero, pow_zero, Nat.mul_one]
  congr 1
  rw [← List.sum_map_mul_left]
  congr 1
  apply List.map_congr_left
  intro i _
  simp only [Function.comp, Nat.succ_eq_add_one, List.getD_cons_succ, pow_succ]
  ring

theorem groupValue_lt (g : List Nat) : groupValue g < 38 ^ g.length := by
  induction g with
  | nil => simp [groupValue]
  | cons c cs ih =>
    have h1 := a2n_getD_lt c
    rw [groupValue_cons, List.length_cons, pow_succ]
    omega

theorem b24Loop_value : ∀ (ns : List Nat) (b24 mult : Nat), (∀ c ∈ ns, c ∈ alphabet) →
    b24 < 2 ^ 32 →
    b24Loop ns b24 mult = some ((b24 + mult * groupValue ns) % 2 ^ 32) := by
  intro ns
  induction ns with
  | nil =>
    intro b24 mult _ hb
    simp only [b24Loop, groupValue, List.length_nil, List.range_zero, List.map_nil, List.sum_nil,
      Nat.mul_zero, Nat.add_zero, Nat.mod_eq_of_lt hb]
  | cons n ns ih =>
    intro b24 mult h _
    have hn : n ∈ alphabet := h n (List.mem_cons_self _ _)
    have hlt : n < 128 := alphabet_lt n hn
    have hmod : n % 256 = n := Nat.mod_eq_of_lt (by omega)
    have hv : a2n n = some ((a2n n).getD 0) := by
      obtain ⟨v, hv⟩ := a2nLoop_some n alphabet 0 hn
      have : a2n n = some v := hv
      rw [this]; rfl
    rw [b24Loop, hmod, hv]
    simp only
    rw [ih _ _ (fun c hc => h c (List.mem_cons_of_mem _ hc)) (Nat.mod_lt _ (by positivity)),
      groupValue_cons]
    congr 1
    have h1 : (b24 + (a2n n).getD 0 * (mult % 2 ^ 32) % 2 ^ 32) % 2 ^ 32 +
        mult * 38 * groupValue ns
        ≡ b24 + (a2n n).getD 0 * mult + mult * 38 * groupValue ns [MOD 2 ^ 32] :=
      Nat.ModEq.add_right _
        ((Nat.mod_modEq _ _).trans (Nat.ModEq.add_left b24
          ((Nat.mod_modEq _ _).trans (Nat.ModEq.mul_left _ (Nat.mod_modEq _ _)))))
    have h2 : b24 + (a2n n).getD 0 * mult + mult * 38 * groupValue ns
        = b24 + mult * ((a2n n).getD 0 + 38 * groupValue ns) := by ring
    rw [← h2]
    exact h1

theorem in_array_eq_groupsOf5 : ∀ (n : Nat) (s : List Nat), s.length ≤ n →
    in_array s = groupsOf5 s := by
  intro n
  induction n using Nat.strong_induction_on with
  | _ n ih =>
    intro s hl
    match s, hl with
    | a :: b :: c :: d :: e :: rest, hl =>
      rw [in_array, ih rest.length (by simp at hl; omega) rest (le_refl _)]
      unfold groupsOf5
      have e1 : ((a :: b :: c :: d :: e :: rest).length + 4) / 5 = (rest.length + 4) / 5 + 1 := by
        simp only [List.length_cons]; omega
      rw [e1, List.range_succ_eq_map, List.map_cons, List.map_map]
      congr 1
    | [], _ => rfl
    | [a], _ => simp [in_array, groupsOf5, List.range_succ]
    | [a, b], _ => simp [in_array, groupsOf5, List.range_succ]
    | [a, b, c], _ => simp [in_array, groupsOf5, List.range_succ]
    | [a, b, c, d], _ => simp [in_array, groupsOf5, List.range_succ]

theorem add3_bytes (bb : BitBuffer) (v : Nat) :
    add3 bb v = ⟨bb.bytes ++ [v % 256, v / 2 ^ 8 % 256, v / 2 ^ 16 % 256], bb.current_byte,
      bb.current_bit, bb.total_bytes + 3⟩ := by
  have e : ∀ x : Nat, (x &&& 0xff) % 256 = x % 256 := by
    intro x
    have := Nat.and_pow_two_sub_one_eq_mod x 8
    simp only [Nat.reducePow, Nat.reduceSub] at this
    rw [this]
    exact Nat.mod_mod _ _
  simp only [add3, BitBuffer.add_byte, e, Nat.shiftRight_eq_div_pow, Nat.div_div_eq_div_mul,
    List.append_assoc, List.singleton_append, BitBuffer.mk.injEq, true_and]
  refine ⟨?_, trivial⟩
  have e8 : (2 : Nat) ^ 8 * 2 ^ 8 = 2 ^ 16 := by decide
  rw [e8]
  rfl

theorem b38_decodeLoop_value : ∀ (groups : List (List Nat)) (bb : BitBuffer),
    (∀ g ∈ groups, (∀ c ∈ g, c ∈ alphabet) ∧ g.length ≤ 5) →
    b38_decodeLoop groups bb
      = some ⟨bb.bytes ++ groups.flatMap groupBytes, bb.current_byte, bb.current_bit,
          bb.total_bytes + 3 * groups.length⟩ := by
  intro groups
  induction groups with
  | nil => intro bb _; simp [b38_decodeLoop]
  | cons a more ih =>
    intro bb h
    obtain ⟨ha, hlen⟩ := h a (List.mem_cons_self _ _)
    have hr : runes a = a := runes_ascii a (fun c hc => alphabet_lt c (ha c hc))
    have hlt : groupValue a < 2 ^ 32 := by
      have h1 := groupValue_lt a
      have h2 : 38 ^ a.length ≤ 38 ^ 5 := Nat.pow_le_pow_right (by decide) hlen
      have h3 : 38 ^ 5 < 2 ^ 32 := by decide
      omega
    have hv := b24Loop_value a 0 1 ha (by positivity)
    rw [Nat.zero_add, Nat.one_mul, Nat.mod_eq_of_lt hlt] at hv
    rw [b38_decodeLoop, hr, hv]
    simp only
    rw [ih _ (fun g hg => h g (List.mem_cons_of_mem _ hg)), add3_bytes]
    simp only [List.flatMap_cons, groupBytes, List.length_cons, List.append_assoc,
      BitBuffer.mk.injEq, Option.some.injEq, true_and]
    omega

theorem groupsOf5_flatMap_length (s : List Nat) :
    ((groupsOf5 s).flatMap groupBytes).length = 3 * ((s.length + 4) / 5) := by
  have h : ∀ L : List (List Nat), (L.flatMap groupBytes).length = 3 * L.length := by
    intro L
    induction L with
    | nil => rfl
    | cons g L ih => simp only [List.flatMap_cons, List.length_append, ih, groupBytes,
        List.length_cons, List.length_nil]; omega
  rw [h, groupsOf5, List.length_map, List.length_range]

/-- C12: for every string `s` over the alphabet, `b38_decode(s)` returns a bit
buffer whose bytes are, for the consecutive groups of 5 characters of `s` (the
last of 1 to 4), the three bytes `v mod 256`, `(v / 2^8) mod 256`,
`(v / 2^16) mod 256` of the group's value `v = sum of a2n(g[i]) * 38^i`; the
output has `3 * ceil(len(s)/5)` bytes and `total_bytes` is that length. -/
theorem b38_group_decoding (s : List Nat) (hs : ∀ c ∈ s, c ∈ alphabet) :
    ∃ bb, b38_decode s = some bb ∧
      bb.bytes = (groupsOf5 s).flatMap groupBytes ∧
      bb.bytes.length = 3 * ((s.length + 4) / 5) ∧
      bb.total_bytes = bb.bytes.length := by
  have hg : ∀ g ∈ in_array s, (∀ c ∈ g, c ∈ alphabet) ∧ g.length ≤ 5 := by
    intro g hg
    refine ⟨fun c hc => hs c (in_array_mem s.length s (le_refl _) g hg c hc), ?_⟩
    rw [in_array_eq_groupsOf5 s.length s (le_refl _), groupsOf5, List.mem_map] at hg
    obtain ⟨k, _, rfl⟩ := hg
    rw [List.length_take]
    omega
  refine ⟨_, b38_decodeLoop_value (in_array s) ⟨[], 0, 0, 0⟩ hg, ?_, ?_, ?_⟩
  · simp only [List.nil_append, in_array_eq_groupsOf5 s.length s (le_refl _)]
  · simp only [List.nil_append, in_array_eq_groupsOf5 s.length s (le_refl _),
      groupsOf5_flatMap_length]
  · simp only [List.nil_append, in_array_eq_groupsOf5 s.length s (le_refl _),
      groupsOf5_flatMap_length, Nat.zero_add]
    rw [groupsOf5, List.length_map, List.length_range]

/-- C12 at the payload `Y.K9042C00KA0648G00` (19 characters, 4 groups, 12
bytes). -/
theorem b38_group_decoding_witness :
    ∃ bb, b38_decode (ascii "Y.K9042C00KA0648G00") = some bb ∧
      bb.bytes = (groupsOf5 (ascii "Y.K9042C00KA0648G00")).flatMap groupBytes ∧
      bb.bytes.length = 3 * (((ascii "Y.K9042C00KA0648G00").length + 4) / 5) ∧
      bb.total_bytes = bb.bytes.length :=
  b38_group_decoding (ascii "Y.K9042C00KA0648G00") (by decide)

/-! ### Handshakes: the channel a failed handshake returns, and the socket -/

theorem confirm_err_zero (D : FlowDeps) (exchange : Nat) (sc : SecureChannel)
    (sctx : D.SpakeCtx) (req : List Nat) (resp pake2s : DecodedGeneric D.TlvItem)
    (session : Nat) (sends : List SendRecord) (res : FlowResult)
    (h : Spake2pExchange.confirm D exchange sc sctx req resp pake2s session sends = some res)
    (he : res.err ≠ none) : res.sc = SecureChannel.zero := by
  unfold Spake2pExchange.confirm at h
  simp only at h
  repeat' split at h
  all_goals (cases h <;> first | rfl | exact absurd rfl he)

theorem pake_err_zero (D : FlowDeps) (pin : Int) (exchange : Nat) (sc : SecureChannel)
    (req : List Nat) (resp : DecodedGeneric D.TlvItem) (salt : List Nat)
    (iterations session : Nat) (sends : List SendRecord) (res : FlowResult)
    (h : Spake2pExchange.pake D pin exchange sc req resp salt iterations session sends = some res)
    (he : res.err ≠ none) : res.sc = SecureChannel.zero := by
  unfold Spake2pExchange.pake at h
  simp only at h
  repeat' split at h
  all_goals first
    | exact confirm_err_zero _ _ _ _ _ _ _ _ _ _ h he
    | (cases h <;> rfl)

theorem Spake2pExchange_err_zero (D : FlowDeps) (pin : Int) (udp : Option udpChannel)
    (exchange counter : Nat) (res : FlowResult)
    (h : Spake2pExchange D pin udp exchange counter = some res)
    (he : res.err ≠ none) : res.sc = SecureChannel.zero := by
  unfold Spake2pExchange at h
  simp only at h
  repeat' split at h
  all_goals first
    | exact pake_err_zero _ _ _ _ _ _ _ _ _ _ _ h he
    | (cases h <;> rfl)

theorem sigma3_err_zero (D : FlowDeps) (fabric : D.Fabric) (controller_id device_id : Nat)
    (sc : SecureChannel) (ctx : D.Sigma) (sends : List SendRecord) (res : FlowResult)
    (h : SigmaExchange.sigma3 D fabric controller_id device_id sc ctx sends = some res)
    (he : res.err ≠ none) : res.sc = SecureChannel.zero := by
  unfold SigmaExchange.sigma3 at h
  simp only at h
  repeat' split at h
  all_goals (cases h <;> first | rfl | exact absurd rfl he)

theorem SigmaExchange_err_zero (D : FlowDeps) (fabric : D.Fabric) (controller_id device_id : Nat)
    (sc : SecureChannel) (key : D.EcdhKey) (exchange : Nat) (res : FlowResult)
    (h : SigmaExchange D fabric controller_id device_id sc key exchange = some res)
    (he : res.err ≠ none) : res.sc = SecureChannel.zero := by
  unfold SigmaExchange at h
  simp only at h
  repeat' split at h
  all_goals first
    | exact sigma3_err_zero _ _ _ _ _ _ _ _ h he
    | (cases h <;> rfl)

theorem Send_open (D : Deps) (sc sc1 : SecureChannel) (data : List Nat) (rec : SendRecord)
    (ho : udpOpen sc.Udp) (h : sc.Send D data = some (sc1, rec)) : udpOpen sc1.Udp := by
  obtain ⟨ch, c, hudp, hconn, hcl⟩ := ho
  obtain ⟨c1, r, hs, _, _, hc1, _⟩ := Send_started D sc data ch c hudp hconn
  rw [hs] at h
  cases h
  exact ⟨_, c1, rfl, rfl, by rw [hc1, hcl]⟩

theorem ReceiveFrom_open (D : Deps) (sc : SecureChannel) (ch : udpChannel) (c : PacketConn)
    (hcl : c.closed = false) :
    ∀ (q : List (List Nat)) (r : ReceiveResult D),
      SecureChannel.ReceiveFrom D sc ch c q = some r → udpOpen r.sc.Udp := by
  intro q
  induction q with
  | nil =>
    intro r h
    cases h
    exact ⟨_, _, rfl, rfl, hcl⟩
  | cons m more ih =>
    intro r h
    have hw : udpOpen (sc.withInbound ch c more).Udp := ⟨_, _, rfl, rfl, hcl⟩
    unfold SecureChannel.ReceiveFrom at h
    simp only at h
    repeat' split at h
    all_goals first
      | exact ih r h
      | (cases h <;> first | exact hw | exact Send_open D _ _ _ _ hw ‹_›)

theorem Receive_open (D : Deps) (sc : SecureChannel) (r : ReceiveResult D)
    (ho : udpOpen sc.Udp) (h : sc.Receive D = some r) : udpOpen r.sc.Udp := by
  obtain ⟨ch, c, hudp, hconn, hcl⟩ := ho
  unfold SecureChannel.Receive at h
  simp only [hudp, hconn, hcl] at h
  exact ReceiveFrom_open D sc ch c hcl _ r (by simpa using h)

theorem Send_Receive_open (D : Deps) (sc sc1 : SecureChannel) (data : List Nat)
    (rec : SendRecord) (r : ReceiveResult D) (ho : udpOpen sc.Udp)
    (hs : sc.Send D data = some (sc1, rec)) (hr : sc1.Receive D = some r) :
    udpOpen r.sc.Udp :=
  Receive_open D sc1 r (Send_open D sc sc1 data rec ho hs) hr

theorem confirm_open (D : FlowDeps) (exchange : Nat) (sc : SecureChannel)
    (sctx : D.SpakeCtx) (req : List Nat) (resp pake2s : DecodedGeneric D.TlvItem)
    (session : Nat) (sends : List SendRecord) (res : FlowResult) (ho : udpOpen sc.Udp)
    (h : Spake2pExchange.confirm D exchange sc sctx req resp pake2s session sends = some res) :
    udpOpen res.udp := by
  unfold Spake2pExchange.confirm at h
  simp only at h
  repeat' split at h
  all_goals
    (cases h <;> first | exact ho | exact Send_Receive_open D.toDeps _ _ _ _ _ ho ‹_› ‹_›)

theorem pake_open (D : FlowDeps) (pin : Int) (exchange : Nat) (sc : SecureChannel)
    (req : List Nat) (resp : DecodedGeneric D.TlvItem) (salt : List Nat)
    (iterations session : Nat) (sends : List SendRecord) (res : FlowResult)
    (ho : udpOpen sc.Udp)
    (h : Spake2pExchange.pake D pin exchange sc req resp salt iterations session sends = some res) :
    udpOpen res.udp := by
  unfold Spake2pExchange.pake at h
  simp only at h
  repeat' split at h
  all_goals first
    | exact confirm_open _ _ _ _ _ _ _ _ _ _
        (Send_Receive_open D.toDeps _ _ _ _ _ ho ‹_› ‹_›) h
    | (cases h <;> exact Send_Receive_open D.toDeps _ _ _ _ _ ho ‹_› ‹_›)

theorem Spake2pExchange_open (D : FlowDeps) (pin : Int) (udp : Option udpChannel)
    (exchange counter : Nat) (res : FlowResult) (ho : udpOpen udp)
    (h : Spake2pExchange D pin udp exchange counter = some res) : udpOpen res.udp := by
  unfold Spake2pExchange at h
  simp only at h
  repeat' split at h
  all_goals first
    | exact pake_open _ _ _ _ _ _ _ _ _ _ _
        (Send_Receive_open D.toDeps _ _ _ _ _ ho ‹_› ‹_›) h
    | (cases h <;> exact Send_Receive_open D.toDeps _ _ _ _ _ ho ‹_› ‹_›)

/-! ### SigmaExchange -/

/-- C20: in every run of `SigmaExchange` in which the message received in reply
to Sigma1 has protocol id 0 and opcode `0x40`, `SigmaExchange` returns the error
built from the general code and the protocol code of the status report together
with the zero `SecureChannel` (empty `encrypt_key` and `decrypt_key`), and the
only calls of `Send` made are the one that sent Sigma1 and those inside the
`Receive` that got the status report: no Sigma3 is built or sent. -/
theorem sigma_status_report_abort (D : FlowDeps) (fabric : D.Fabric)
    (controller_id device_id : Nat) (sc : SecureChannel) (key : D.EcdhKey) (exchange : Nat)
    (sc1 : SecureChannel) (rec : SendRecord) (r : ReceiveResult D.toDeps)
    (hsend : sc.Send D.toDeps (SigmaExchange.sigma1 D fabric device_id key exchange).2 =
      some (sc1, rec))
    (hrecv : sc1.Receive D.toDeps = some r) (herr : r.err = none)
    (hid : r.out.ProtocolHeader.ProtocolId = 0)
    (hop : r.out.ProtocolHeader.Opcode = 0x40) :
    ∃ res, SigmaExchange D fabric controller_id device_id sc key exchange = some res ∧
      res.err = some (Error.Errorf "sigma2 not received. status: %x %x"
        [r.out.StatusReport.GeneralCode, r.out.StatusReport.ProtocolCode]) ∧
      res.sends = rec :: r.sends ∧
      res.sc = SecureChannel.zero ∧ res.sc.encrypt_key = [] ∧ res.sc.decrypt_key = [] := by
  refine ⟨⟨SecureChannel.zero, _, r.sc.Udp, rec :: r.sends⟩, ?_, rfl, rfl, rfl, rfl, rfl⟩
  unfold SigmaExchange
  simp only [hsend, hrecv, herr, hid, hop, ProtocolIdSecureChannel, SEC_CHAN_OPCODE_STATUS_REP,
    and_self, if_true]

/-- The run of C20 on a status report with general code 1 and protocol code 2,
received in the clear in reply to Sigma1. -/
theorem sigma_status_report_abort_witness :
    ∃ res, SigmaExchange exampleFlowDeps () 1 2
        (plainChannel 0 [examplePlain 1 (specEncodeStatusReport ⟨1, 0, 2⟩)]) () 5 = some res ∧
      res.err = some (Error.Errorf "sigma2 not received. status: %x %x" [1, 2]) ∧
      res.sends.length = 2 ∧
      res.sc = SecureChannel.zero ∧ res.sc.encrypt_key = [] ∧ res.sc.decrypt_key = [] := by
  obtain ⟨res, h, he, hs, hz, hk, hd⟩ := sigma_status_report_abort exampleFlowDeps () 1 2
    (plainChannel 0 [examplePlain 1 (specEncodeStatusReport ⟨1, 0, 2⟩)]) () 5 _ _ _ rfl rfl rfl
    rfl rfl
  exact ⟨res, h, he, by rw [hs]; rfl, hz, hk, hd⟩

/-! ### Commission -/

/-- The block `//commissioning complete` returns no error whatever integer the
response carries at path `[1, 0, 0, 1, 0]`. -/
theorem complete_ignores_result (D : FlowDeps) (sc sc1 : SecureChannel) (exchange : Nat)
    (rec : SendRecord) (r : ReceiveResult D.toDeps) (v : Nat)
    (hsend : sc.Send D.toDeps (D.EncodeIMInvokeRequest 0 0x30 4 [] false (exchange % 2 ^ 16)) =
      some (sc1, rec))
    (hrecv : sc1.Receive D.toDeps = some r) (herr : r.err = none)
    (hget : D.GetIntRec r.out.Tlv [1, 0, 0, 1, 0] = (v, none)) :
    Commission.complete D sc exchange = some ⟨r.sc, none, rec :: r.sends⟩ := by
  unfold Commission.complete
  simp only [hsend, hrecv, herr, hget, ite_self]

/-- C17 fails on the code: in a run of `Commission` in which the socket is
bound, `Spake2pExchange`, the CSR request, AddTrustedRootCertificate, AddNOC and
`SigmaExchange` all succeed, and the response to CommissioningComplete carries
the integer `v` at path `[1, 0, 0, 1, 0]` with `v` not 0, `Commission` returns
no error. -/
theorem commission_returns_nil_on_failed_complete (D : FlowDeps) (fabric : D.Fabric)
    (device_ip : List Nat) (pin : Int) (controller_id device_id : Nat) (conn : PacketConn)
    (rnd : Randomness D.EcdhKey) (pase sig : FlowResult) (s1 s2 s3 : StepResult)
    (csrp : D.CertificateRequest) (sc1 closed : SecureChannel) (rec : SendRecord)
    (r : ReceiveResult D.toDeps) (v : Nat) (last : List SendRecord)
    (hpase : Spake2pExchange D pin (some ⟨some conn, (device_ip, 5540)⟩) rnd.pase_exchange
      rnd.pase_counter = some pase) (epase : pase.err = none)
    (hcsr : Commission.csr D pase.sc rnd.csr_nonce rnd.csr_exchange = some (s1, some csrp))
    (ecsr : s1.err = none)
    (hroot : Commission.root D fabric s1.sc rnd.root_exchange = some s2) (eroot : s2.err = none)
    (hnoc : Commission.noc D fabric controller_id device_id s2.sc csrp rnd.noc_exchange = some s3)
    (enoc : s3.err = none)
    (hsig : SigmaExchange D fabric controller_id device_id s3.sc rnd.sigma_privkey
      rnd.sigma_exchange = some sig) (esig : sig.err = none)
    (hsend : sig.sc.Send D.toDeps
      (D.EncodeIMInvokeRequest 0 0x30 4 [] false (rnd.complete_exchange % 2 ^ 16)) =
      some (sc1, rec))
    (hrecv : sc1.Receive D.toDeps = some r) (herr : r.err = none)
    (hget : D.GetIntRec r.out.Tlv [1, 0, 0, 1, 0] = (v, none)) (_hv : v ≠ 0)
    (hclose : r.sc.Close D.toDeps = some (closed, last)) :
    ∃ res, Commission D fabric device_ip pin controller_id device_id (Except.ok conn) rnd =
        some res ∧ res.err = none := by
  have hc := complete_ignores_result D sig.sc sc1 rnd.complete_exchange rec r v hsend hrecv herr
    hget
  unfold Commission Commission.body startUdpChannel
  simp only [hpase, epase, hcsr, ecsr, hroot, eroot, hnoc, enoc, hsig, esig, hc, hclose]
  exact ⟨_, rfl, rfl⟩

/-- The run of C17 on the datagrams of `exampleCommissioning 1`: every step
succeeds, the response to CommissioningComplete carries 1, and `Commission`
returns no error. -/
theorem commission_returns_nil_on_failed_complete_witness :
    exampleFlowDeps.GetIntRec
        ((exampleInvokeResponse 0 [0x24, 0, 1]).drop 6)
        [1, 0, 0, 1, 0] = (1, none) ∧
      ∃ res, Commission exampleFlowDeps () [192, 168, 1, 2] 20202021 1 2
        (Except.ok ⟨exampleCommissioning 1, [], false⟩) exampleRandomness = some res ∧
        res.err = none :=
  ⟨by decide, commission_returns_nil_on_failed_complete exampleFlowDeps () [192, 168, 1, 2]
    20202021 1 2 ⟨exampleCommissioning 1, [], false⟩ exampleRandomness _ _ _ _ _ _ _ _ _ _ 1 _
    rfl rfl rfl rfl rfl rfl rfl rfl rfl rfl rfl rfl rfl rfl (by decide) rfl⟩

/-- C18 fails on the code: in a run of `Commission` in which the socket is
bound and open and `Spake2pExchange` returns the error `e`, `Commission` returns
`e` with the socket still open, and makes no call of `Send` after
`Spake2pExchange` returned: the deferred `Close` finds the zero `SecureChannel`
in the variable `secure_channel` and returns at once. -/
theorem commission_skips_close_after_failed_pase (D : FlowDeps) (fabric : D.Fabric)
    (device_ip : List Nat) (pin : Int) (controller_id device_id : Nat) (conn : PacketConn)
    (rnd : Randomness D.EcdhKey) (pase : FlowResult) (e : Error)
    (hopen : conn.closed = false)
    (hpase : Spake2pExchange D pin (some ⟨some conn, (device_ip, 5540)⟩) rnd.pase_exchange
      rnd.pase_counter = some pase) (he : pase.err = some e) :
    ∃ res ch c, Commission D fabric device_ip pin controller_id device_id (Except.ok conn) rnd =
        some res ∧ res.err = some e ∧ res.sends = pase.sends ∧
      res.udp = some ch ∧ ch.Udp = some c ∧ c.closed = false := by
  have hz : pase.sc = SecureChannel.zero :=
    Spake2pExchange_err_zero D pin _ _ _ pase hpase (by rw [he]; exact Option.some_ne_none e)
  obtain ⟨ch, c, hudp, hconn, hcl⟩ :=
    Spake2pExchange_open D pin _ _ _ pase ⟨_, conn, rfl, rfl, hopen⟩ hpase
  refine ⟨⟨some e, pase.udp, pase.sends⟩, ch, c, ?_, rfl, rfl, hudp, hconn, hcl⟩
  unfold Commission Commission.body startUdpChannel
  simp only [hpase, he, hz, SecureChannel.Close, SecureChannel.zero, List.append_nil]

/-- The run of C18 on a socket on which nothing arrives: the PBKDFParamResponse
times out, `Commission` returns the error of `Spake2pExchange`, the only
datagram sent is the PBKDFParamRequest and the socket is not closed. -/
theorem commission_skips_close_after_failed_pase_witness :
    ∃ res ch c, Commission exampleFlowDeps () [192, 168, 1, 2] 20202021 1 2
        (Except.ok ⟨[], [], false⟩) exampleRandomness = some res ∧
      res.err = some (Error.Errorw "pbkdf response not received: %s"
        (Error.External "i/o timeout")) ∧
      res.sends.length = 1 ∧
      res.udp = some ch ∧ ch.Udp = some c ∧ c.closed = false := by
  obtain ⟨res, ch, c, h, he, hs, hu, hc, hcl⟩ :=
    commission_skips_close_after_failed_pase exampleFlowDeps () [192, 168, 1, 2] 20202021 1 2
      ⟨[], [], false⟩ exampleRandomness _ _ rfl rfl rfl
  exact ⟨res, ch, c, h, he, by rw [hs]; rfl, hu, hc, hcl⟩

/-- In a run of `Commission` in which every step up to AddNOC succeeds and
`SigmaExchange` returns the error `e`, `Commission` returns `e` and makes no call
of `Send` after `SigmaExchange` returned. -/
theorem commission_skips_close_after_failed_sigma (D : FlowDeps) (fabric : D.Fabric)
    (device_ip : List Nat) (pin : Int) (controller_id device_id : Nat) (conn : PacketConn)
    (rnd : Randomness D.EcdhKey) (pase sig : FlowResult) (s1 s2 s3 : StepResult)
    (csrp : D.CertificateRequest) (e : Error)
    (hpase : Spake2pExchange D pin (some ⟨some conn, (device_ip, 5540)⟩) rnd.pase_exchange
      rnd.pase_counter = some pase) (epase : pase.err = none)
    (hcsr : Commission.csr D pase.sc rnd.csr_nonce rnd.csr_exchange = some (s1, some csrp))
    (ecsr : s1.err = none)
    (hroot : Commission.root D fabric s1.sc rnd.root_exchange = some s2) (eroot : s2.err = none)
    (hnoc : Commission.noc D fabric controller_id device_id s2.sc csrp rnd.noc_exchange = some s3)
    (enoc : s3.err = none)
    (hsig : SigmaExchange D fabric controller_id device_id s3.sc rnd.sigma_privkey
      rnd.sigma_exchange = some sig) (esig : sig.err = some e) :
    Commission D fabric device_ip pin controller_id device_id (Except.ok conn) rnd =
      some ⟨some e, sig.udp, pase.sends ++ s1.sends ++ s2.sends ++ s3.sends ++ sig.sends⟩ := by
  have hz : sig.sc = SecureChannel.zero :=
    SigmaExchange_err_zero D fabric _ _ _ _ _ sig hsig (by rw [esig]; exact Option.some_ne_none e)
  unfold Commission Commission.body startUdpChannel
  simp only [hpase, epase, hcsr, ecsr, hroot, eroot, hnoc, enoc, hsig, esig, hz,
    SecureChannel.Close, SecureChannel.zero, List.append_nil]

/-! ### Spake2pExchange -/

theorem Spake2pExchange_reaches_confirm (D : FlowDeps) (pin : Int) (udp : Option udpChannel)
    (exchange counter : Nat) (sc1 sc2 : SecureChannel) (rec1 rec2 : SendRecord)
    (r1 r2 : ReceiveResult D.toDeps) (iterations session : Nat)
    (hs1 : SecureChannel.Send D.toDeps ⟨udp, [], [], [], [], counter % 2 ^ 32, 0⟩
      (D.pBKDFParamRequest (exchange % 2 ^ 16)) = some (sc1, rec1))
    (hr1 : sc1.Receive D.toDeps = some r1) (e1 : r1.err = none)
    (o1 : r1.out.ProtocolHeader.Opcode = 0x21)
    (hit : D.GetIntRec r1.out.Tlv [4, 1] = (iterations, none))
    (hse : D.GetIntRec r1.out.Tlv [3] = (session, none))
    (hs2 : r1.sc.Send D.toDeps (D.pake1ParamRequest (exchange % 2 ^ 16)
      (D.X_As_bytes (D.Calc_X (D.Gen_random_X (D.Gen_w D.NewSpaceCtx pin
        (D.GetOctetStringRec r1.out.Tlv [4, 2]) (intOfUint64 iterations)))))) = some (sc2, rec2))
    (hr2 : sc2.Receive D.toDeps = some r2) (e2 : r2.err = none)
    (o2 : r2.out.ProtocolHeader.Opcode = 0x23) :
    Spake2pExchange D pin udp exchange counter =
      Spake2pExchange.confirm D (exchange % 2 ^ 16) r2.sc
        (D.Calc_X (D.Gen_random_X (D.Gen_w D.NewSpaceCtx pin
          (D.GetOctetStringRec r1.out.Tlv [4, 2]) (intOfUint64 iterations))))
        (D.pBKDFParamRequest (exchange % 2 ^ 16)) r1.out r2.out session
        (rec1 :: r1.sends ++ rec2 :: r2.sends) := by
  unfold Spake2pExchange Spake2pExchange.pake
  simp only [hs1, hr1, e1, o1, hit, hse, hs2, hr2, e2, o2, SEC_CHAN_OPCODE_PBKDF_RESP,
    SEC_CHAN_OPCODE_PAKE2, ne_eq, not_true_eq_false, if_false]

/-- C19 fails on the code: in a run of `Spake2pExchange` that receives the
PBKDFParamResponse and then a Pake2 (opcode `0x23`) whose confirmation tag, the
octet string at path `[2]`, differs from the `cB` of the context after
`calc_hash`, the tag is never looked at: Pake3 is sent all the same (`rec3`, the
record of that call of `Send`, is among the calls made), and when the reply to
Pake3 is received without error and has protocol code 0, `Spake2pExchange`
returns no error and a channel with the keys of the context installed. -/
theorem pase_sends_pake3_despite_cB_mismatch (D : FlowDeps) (pin : Int)
    (udp : Option udpChannel) (exchange counter : Nat) (sc1 sc2 sc3 : SecureChannel)
    (rec1 rec2 rec3 : SendRecord) (r1 r2 r3 : ReceiveResult D.toDeps)
    (iterations session : Nat) (sctx : D.SpakeCtx)
    (hs1 : SecureChannel.Send D.toDeps ⟨udp, [], [], [], [], counter % 2 ^ 32, 0⟩
      (D.pBKDFParamRequest (exchange % 2 ^ 16)) = some (sc1, rec1))
    (hr1 : sc1.Receive D.toDeps = some r1) (e1 : r1.err = none)
    (o1 : r1.out.ProtocolHeader.Opcode = 0x21)
    (hit : D.GetIntRec r1.out.Tlv [4, 1] = (iterations, none))
    (hse : D.GetIntRec r1.out.Tlv [3] = (session, none))
    (hs2 : r1.sc.Send D.toDeps (D.pake1ParamRequest (exchange % 2 ^ 16)
      (D.X_As_bytes (D.Calc_X (D.Gen_random_X (D.Gen_w D.NewSpaceCtx pin
        (D.GetOctetStringRec r1.out.Tlv [4, 2]) (intOfUint64 iterations)))))) = some (sc2, rec2))
    (hr2 : sc2.Receive D.toDeps = some r2) (e2 : r2.err = none)
    (o2 : r2.out.ProtocolHeader.Opcode = 0x23)
    (hlen : 6 ≤ (D.pBKDFParamRequest (exchange % 2 ^ 16)).length)
    (hch : D.calc_hash
        (D.calc_ZV (D.Y_from_bytes
          (D.Calc_X (D.Gen_random_X (D.Gen_w D.NewSpaceCtx pin
            (D.GetOctetStringRec r1.out.Tlv [4, 2]) (intOfUint64 iterations))))
          (D.GetOctetStringRec r2.out.Tlv [1])))
        (ascii "CHIP PAKE V1 Commissioning" ++
          (D.pBKDFParamRequest (exchange % 2 ^ 16)).drop 6 ++ r1.out.Payload) = (sctx, none))
    (_hcb : D.GetOctetStringRec r2.out.Tlv [2] ≠ D.cB sctx)
    (hs3 : r2.sc.Send D.toDeps (D.pake3ParamRequest (exchange % 2 ^ 16) (D.cA sctx)) =
      some (sc3, rec3))
    (hr3 : sc3.Receive D.toDeps = some r3) :
    ∃ res, Spake2pExchange D pin udp exchange counter = some res ∧ rec3 ∈ res.sends ∧
      (r3.err = none → r3.out.StatusReport.ProtocolCode = 0 →
        res.err = none ∧ res.sc.encrypt_key = D.spake_encrypt_key sctx ∧
        res.sc.decrypt_key = D.spake_decrypt_key sctx) := by
  rw [Spake2pExchange_reaches_confirm D pin udp exchange counter sc1 sc2 rec1 rec2 r1 r2
    iterations session hs1 hr1 e1 o1 hit hse hs2 hr2 e2 o2]
  unfold Spake2pExchange.confirm
  have hl : ¬ (D.pBKDFParamRequest (exchange % 2 ^ 16)).length < 6 := by omega
  have hmem : rec3 ∈ (rec1 :: r1.sends ++ rec2 :: r2.sends) ++ rec3 :: r3.sends :=
    List.mem_append_right _ (List.mem_cons_self _ _)
  simp only [hl, if_false, hch, hs3, hr3]
  cases he : r3.err with
  | some e => exact ⟨_, rfl, hmem, fun h => absurd h (by simp)⟩
  | none =>
    by_cases hpc : r3.out.StatusReport.ProtocolCode = 0
    · simp only [hpc, ne_eq, not_true_eq_false, if_false]
      exact ⟨_, rfl, hmem, fun _ _ => ⟨rfl, rfl, rfl⟩⟩
    · simp only [hpc, ne_eq, not_false_eq_true, if_true]
      exact ⟨_, rfl, hmem, fun _ h => h.elim⟩

/-- The run of C19 on a Pake2 that carries the tag `0c 0c 0c 0c` where the
context of `exampleFlowDeps` computes `0b 0b 0b 0b`: the Pake3 datagram is sent,
and with the status report `(0, 0, 0)` in reply the run returns no error and
installs the keys. -/
theorem pase_sends_pake3_despite_cB_mismatch_witness :
    exampleFlowDeps.GetOctetStringRec ((examplePake2 [4, 9, 9] [0xc, 0xc, 0xc, 0xc]).drop 6) [2]
      = [0xc, 0xc, 0xc, 0xc] ∧
    ∃ res, Spake2pExchange exampleFlowDeps 20202021
        (some (exampleUdp (examplePase [4, 9, 9] [0xc, 0xc, 0xc, 0xc]))) 1 100 = some res ∧
      (∃ rec3, rec3 ∈ res.sends ∧ rec3.datagram = some examplePake3Datagram) ∧
      res.err = none ∧ res.sc.encrypt_key = List.replicate 16 1 ∧
      res.sc.decrypt_key = List.replicate 16 2 := by
  refine ⟨by decide, ?_⟩
  obtain ⟨res, h, hmem, hok⟩ := pase_sends_pake3_despite_cB_mismatch exampleFlowDeps 20202021
    (some (exampleUdp (examplePase [4, 9, 9] [0xc, 0xc, 0xc, 0xc]))) 1 100
    _ _ _ _ _ _ _ _ _ 1000 7 _
    rfl rfl rfl rfl rfl rfl rfl rfl rfl rfl (by decide) rfl (by decide) rfl rfl
  exact ⟨res, h, ⟨_, hmem, rfl⟩, hok rfl rfl⟩

/-- Two runs of `Spake2pExchange` on the same datagrams except for the `cB` bytes
of Pake2 (`0b 0b 0b 0b` in one, `0c 0c 0c 0c` in the other, both found at path
`[2]`) both return no error and both send the Pake3 datagram. -/
theorem pase_sends_pake3_for_two_cB :
    ∃ r1 r2,
      Spake2pExchange exampleFlowDeps 20202021
        (some (exampleUdp (examplePase [4, 9, 9] [0xb, 0xb, 0xb, 0xb]))) 1 100 = some r1 ∧
      Spake2pExchange exampleFlowDeps 20202021
        (some (exampleUdp (examplePase [4, 9, 9] [0xc, 0xc, 0xc, 0xc]))) 1 100 = some r2 ∧
      exampleFlowDeps.GetOctetStringRec ((examplePake2 [4, 9, 9] [0xb, 0xb, 0xb, 0xb]).drop 6) [2]
        = [0xb, 0xb, 0xb, 0xb] ∧
      exampleFlowDeps.GetOctetStringRec ((examplePake2 [4, 9, 9] [0xc, 0xc, 0xc, 0xc]).drop 6) [2]
        = [0xc, 0xc, 0xc, 0xc] ∧
      r1.err = none ∧ r2.err = none ∧
      some examplePake3Datagram ∈ r1.sends.map SendRecord.datagram ∧
      some examplePake3Datagram ∈ r2.sends.map SendRecord.datagram :=
  ⟨_, _, rfl, rfl, by decide, by decide, rfl, rfl, by decide, by decide⟩

/-! ### Spake2pExchange: the reply to Pake3 -/

/-- C21 fails on the code: in a run of `Spake2pExchange` that gets as far as
sending Pake3 (PBKDFParamResponse and Pake2 received as expected, `calc_hash`
without error) and then receives, without error, any message whose record has
`StatusReport.ProtocolCode` 0, `Spake2pExchange` returns no error and a channel
with the keys of the context installed.  Nothing is asked of the opcode, of the
protocol id of the message, or of the general code and the protocol id of the
status report. -/
theorem pase_completes_on_zero_protocol_code (D : FlowDeps) (pin : Int)
    (udp : Option udpChannel) (exchange counter : Nat) (sc1 sc2 sc3 : SecureChannel)
    (rec1 rec2 rec3 : SendRecord) (r1 r2 r3 : ReceiveResult D.toDeps)
    (iterations session : Nat) (sctx : D.SpakeCtx)
    (hs1 : SecureChannel.Send D.toDeps ⟨udp, [], [], [], [], counter % 2 ^ 32, 0⟩
      (D.pBKDFParamRequest (exchange % 2 ^ 16)) = some (sc1, rec1))
    (hr1 : sc1.Receive D.toDeps = some r1) (e1 : r1.err = none)
    (o1 : r1.out.ProtocolHeader.Opcode = 0x21)
    (hit : D.GetIntRec r1.out.Tlv [4, 1] = (iterations, none))
    (hse : D.GetIntRec r1.out.Tlv [3] = (session, none))
    (hs2 : r1.sc.Send D.toDeps (D.pake1ParamRequest (exchange % 2 ^ 16)
      (D.X_As_bytes (D.Calc_X (D.Gen_random_X (D.Gen_w D.NewSpaceCtx pin
        (D.GetOctetStringRec r1.out.Tlv [4, 2]) (intOfUint64 iterations)))))) = some (sc2, rec2))
    (hr2 : sc2.Receive D.toDeps = some r2) (e2 : r2.err = none)
    (o2 : r2.out.ProtocolHeader.Opcode = 0x23)
    (hlen : 6 ≤ (D.pBKDFParamRequest (exchange % 2 ^ 16)).length)
    (hch : D.calc_hash
        (D.calc_ZV (D.Y_from_bytes
          (D.Calc_X (D.Gen_random_X (D.Gen_w D.NewSpaceCtx pin
            (D.GetOctetStringRec r1.out.Tlv [4, 2]) (intOfUint64 iterations))))
          (D.GetOctetStringRec r2.out.Tlv [1])))
        (ascii "CHIP PAKE V1 Commissioning" ++
          (D.pBKDFParamRequest (exchange % 2 ^ 16)).drop 6 ++ r1.out.Payload) = (sctx, none))
    (hs3 : r2.sc.Send D.toDeps (D.pake3ParamRequest (exchange % 2 ^ 16) (D.cA sctx)) =
      some (sc3, rec3))
    (hr3 : sc3.Receive D.toDeps = some r3) (e3 : r3.err = none)
    (hpc : r3.out.StatusReport.ProtocolCode = 0) :
    ∃ res, Spake2pExchange D pin udp exchange counter = some res ∧ res.err = none ∧
      res.sc.encrypt_key = D.spake_encrypt_key sctx ∧
      res.sc.decrypt_key = D.spake_decrypt_key sctx := by
  rw [Spake2pExchange_reaches_confirm D pin udp exchange counter sc1 sc2 rec1 rec2 r1 r2
    iterations session hs1 hr1 e1 o1 hit hse hs2 hr2 e2 o2]
  unfold Spake2pExchange.confirm
  have hl : ¬ (D.pBKDFParamRequest (exchange % 2 ^ 16)).length < 6 := by omega
  simp only [hl, if_false, hch, hs3, hr3, e3, hpc, ne_eq, not_true_eq_false]
  exact ⟨_, rfl, rfl, rfl, rfl⟩

/-- The runs of C21 on two replies to Pake3: a status report with general code 1
(failure) and protocol code 0, and a second Pake2 (opcode `0x23`, no status
report at all).  Both runs return no error and install the keys. -/
theorem pase_completes_on_zero_protocol_code_witness :
    (∃ res, Spake2pExchange exampleFlowDeps 20202021
        (some (exampleUdp (examplePaseReply (specEncodeStatusReport ⟨1, 0, 0⟩)))) 1 100
        = some res ∧ res.err = none ∧
      res.sc.encrypt_key = List.replicate 16 1 ∧ res.sc.decrypt_key = List.replicate 16 2) ∧
    (∃ res, Spake2pExchange exampleFlowDeps 20202021
        (some (exampleUdp (examplePaseReply (examplePake2 [4, 9, 9] [0xb, 0xb, 0xb, 0xb])))) 1 100
        = some res ∧ res.err = none ∧
      res.sc.encrypt_key = List.replicate 16 1 ∧ res.sc.decrypt_key = List.replicate 16 2) :=
  ⟨pase_completes_on_zero_protocol_code exampleFlowDeps 20202021
      (some (exampleUdp (examplePaseReply (specEncodeStatusReport ⟨1, 0, 0⟩)))) 1 100
      _ _ _ _ _ _ _ _ _ 1000 7 _ rfl rfl rfl rfl rfl rfl rfl rfl rfl rfl (by decide) rfl rfl rfl
      rfl rfl,
    pase_completes_on_zero_protocol_code exampleFlowDeps 20202021
      (some (exampleUdp (examplePaseReply (examplePake2 [4, 9, 9] [0xb, 0xb, 0xb, 0xb])))) 1 100
      _ _ _ _ _ _ _ _ _ 1000 7 _ rfl rfl rfl rfl rfl rfl rfl rfl rfl rfl (by decide) rfl rfl rfl
      rfl rfl⟩

/-! ### Status reports -/

theorem Receive_status_report (D : Deps) (sc : SecureChannel) (ch : udpChannel)
    (c : PacketConn) (m : List Nat) (more : List (List Nat)) (out : DecodedGeneric D.TlvItem)
    (hudp : sc.Udp = some ch) (hconn : ch.Udp = some c) (hopen : c.closed = false)
    (hin : c.inbound = m :: more)
    (hm : sc.decodeDatagram D (m.take (1024 * 10)) = Except.ok out)
    (hid : out.ProtocolHeader.ProtocolId = 0)
    (hop : out.ProtocolHeader.Opcode = SEC_CHAN_OPCODE_STATUS_REP) :
    ∃ r, sc.Receive D = some r ∧ r.err = none ∧
      r.out.StatusReport = readStatusReport out.Payload ∧
      r.out.ProtocolHeader = out.ProtocolHeader ∧ r.out.Payload = out.Payload := by
  obtain ⟨c1, rec, hs, _⟩ :=
    Send_started D (sc.withInbound ch c more)
      (D.ackGen out.ProtocolHeader out.MessageHeader.messageCounter)
      { ch with Udp := some { c with inbound := more } } { c with inbound := more } rfl rfl
  unfold SecureChannel.Receive
  simp only [hudp, hconn, hopen, hin, Bool.false_eq_true, if_false]
  rw [SecureChannel.ReceiveFrom]
  have hne : ¬ (out.ProtocolHeader.ProtocolId = 0 ∧
      out.ProtocolHeader.Opcode = SEC_CHAN_OPCODE_ACK) := by
    rw [hop]; intro h; exact absurd h.2 (by decide)
  simp only [decodeDatagram_withInbound, hm, hne, if_false, hs, hid, hop, and_self, if_true]
  exact ⟨_, rfl, rfl, rfl, rfl, rfl⟩

theorem decodeStatusReport_eq_readStatusReport (body : List Nat) :
    (decodeStatusReport (NewBuffer body)).1.generalCode = (readStatusReport body).GeneralCode ∧
    (decodeStatusReport (NewBuffer body)).1.protocolId = (readStatusReport body).ProtocolId ∧
    (decodeStatusReport (NewBuffer body)).1.protocolCode = (readStatusReport body).ProtocolCode :=
  ⟨rfl, rfl, rfl⟩

theorem readStatusReport_fields (body : List Nat) :
    readStatusReport body =
      ⟨if 2 ≤ body.length then getLE (body.take 2) else 0,
       if 6 ≤ body.length then getLE ((body.drop 2).take 4) else 0,
       if 8 ≤ body.length then getLE ((body.drop 6).take 2) else 0⟩ := by
  match body with
  | [] => rfl
  | [_] => rfl
  | [_, _] => rfl
  | [_, _, _] => rfl
  | [_, _, _, _] => rfl
  | [_, _, _, _, _] => rfl
  | [_, _, _, _, _, _] => rfl
  | [_, _, _, _, _, _, _] => rfl
  | _ :: _ :: _ :: _ :: _ :: _ :: _ :: _ :: rest =>
    simp [readStatusReport, NewBuffer, binaryRead, ReadFull, Buffer.Read, getLE]

/-- C22: for every body `b0 .. b7` followed by any further bytes `rest`,
`decodeStatusReport` returns generalCode `b0 + 256*b1`, protocolId
`b2 + 256*b3 + 65536*b4 + 16777216*b5` and protocolCode `b6 + 256*b7` and leaves
`rest` unread; and `Receive`, on an open socket whose next datagram decodes to a
message with protocol id 0, opcode `0x40` and that body as payload, returns no
error and a record whose `StatusReport` holds the same three values. -/
theorem status_report_body_parsing (b0 b1 b2 b3 b4 b5 b6 b7 : Nat) (rest : List Nat) :
    (decodeStatusReport (NewBuffer (b0 :: b1 :: b2 :: b3 :: b4 :: b5 :: b6 :: b7 :: rest))).1
      = ⟨b0 + 256 * b1, b2 + 256 * b3 + 65536 * b4 + 16777216 * b5, b6 + 256 * b7⟩ ∧
    (decodeStatusReport
      (NewBuffer (b0 :: b1 :: b2 :: b3 :: b4 :: b5 :: b6 :: b7 :: rest))).2.Bytes = rest ∧
    ∀ (D : Deps) (sc : SecureChannel) (ch : udpChannel) (c : PacketConn) (m : List Nat)
      (more : List (List Nat)) (out : DecodedGeneric D.TlvItem),
      sc.Udp = some ch → ch.Udp = some c → c.closed = false → c.inbound = m :: more →
      sc.decodeDatagram D (m.take (1024 * 10)) = Except.ok out →
      out.ProtocolHeader.ProtocolId = 0 → out.ProtocolHeader.Opcode = 0x40 →
      out.Payload = b0 :: b1 :: b2 :: b3 :: b4 :: b5 :: b6 :: b7 :: rest →
      ∃ r, sc.Receive D = some r ∧ r.err = none ∧
        r.out.StatusReport
          = ⟨b0 + 256 * b1, b2 + 256 * b3 + 65536 * b4 + 16777216 * b5, b6 + 256 * b7⟩ := by
  have hread : readStatusReport (b0 :: b1 :: b2 :: b3 :: b4 :: b5 :: b6 :: b7 :: rest)
      = ⟨b0 + 256 * b1, b2 + 256 * b3 + 65536 * b4 + 16777216 * b5, b6 + 256 * b7⟩ := by
    rw [readStatusReport_fields]
    simp only [List.length_cons, List.take_succ_cons, List.take_zero, List.drop_succ_cons,
      List.drop_zero, getLE]
    have h2 : 2 ≤ rest.length + 1 + 1 + 1 + 1 + 1 + 1 + 1 + 1 := by omega
    have h6 : 6 ≤ rest.length + 1 + 1 + 1 + 1 + 1 + 1 + 1 + 1 := by omega
    have h8 : 8 ≤ rest.length + 1 + 1 + 1 + 1 + 1 + 1 + 1 + 1 := by omega
    simp only [h2, h6, h8, if_true]
    congr 1; omega
  refine ⟨?_, ?_, ?_⟩
  · obtain ⟨g1, g2, g3⟩ := decodeStatusReport_eq_readStatusReport
      (b0 :: b1 :: b2 :: b3 :: b4 :: b5 :: b6 :: b7 :: rest)
    rw [hread] at g1 g2 g3
    cases hd : (decodeStatusReport
      (NewBuffer (b0 :: b1 :: b2 :: b3 :: b4 :: b5 :: b6 :: b7 :: rest))).1 with
    | mk a b c =>
      rw [hd] at g1 g2 g3
      simp only at g1 g2 g3
      rw [g1, g2, g3]
  · simp [decodeStatusReport, NewBuffer, binaryRead, ReadFull, Buffer.Read, Buffer.Bytes]
  · intro D sc ch c m more out hudp hconn hopen hin hm hid hop hpay
    obtain ⟨r, hr, he, hsr, _, _⟩ :=
      Receive_status_report D sc ch c m more out hudp hconn hopen hin hm hid hop
    exact ⟨r, hr, he, by rw [hsr, hpay, hread]⟩

/-- C22 at the status report `(1, 0, 2)`: the body `01 00 00 00 00 00 02 00`
received in the clear. -/
theorem status_report_body_parsing_witness :
    ∃ r, (plainChannel 0 [examplePlain 3 (specEncodeStatusReport ⟨1, 0, 2⟩)]).Receive exampleDeps
        = some r ∧ r.err = none ∧ r.out.StatusReport = ⟨1, 0, 2⟩ :=
  (status_report_body_parsing 1 0 0 0 0 0 2 0 []).2.2 exampleDeps
    (plainChannel 0 [examplePlain 3 (specEncodeStatusReport ⟨1, 0, 2⟩)]) _ _ _ [] _
    rfl rfl rfl rfl rfl rfl rfl rfl

/-- C27: for every body, `decodeStatusReport` gives each field its little-endian
value when all bytes of the field are there (2, then 4, then 2) and 0 otherwise,
and has no error to return; a body shorter than 2 bytes gives `(0, 0, 0)`, the
same as the body of eight zero bytes; and `Receive`, on an open socket whose
next datagram decodes to a message with protocol id 0, opcode `0x40` and that
body as payload, returns no error and a record with the same three values. -/
theorem short_status_report_is_zero (body : List Nat) :
    (decodeStatusReport (NewBuffer body)).1 =
      ⟨if 2 ≤ body.length then getLE (body.take 2) else 0,
       if 6 ≤ body.length then getLE ((body.drop 2).take 4) else 0,
       if 8 ≤ body.length then getLE ((body.drop 6).take 2) else 0⟩ ∧
    (body.length < 2 →
      (decodeStatusReport (NewBuffer body)).1 = ⟨0, 0, 0⟩ ∧
      (decodeStatusReport (NewBuffer body)).1
        = (decodeStatusReport (NewBuffer [0, 0, 0, 0, 0, 0, 0, 0])).1) ∧
    ∀ (D : Deps) (sc : SecureChannel) (ch : udpChannel) (c : PacketConn) (m : List Nat)
      (more : List (List Nat)) (out : DecodedGeneric D.TlvItem),
      sc.Udp = some ch → ch.Udp = some c → c.closed = false → c.inbound = m :: more →
      sc.decodeDatagram D (m.take (1024 * 10)) = Except.ok out →
      out.ProtocolHeader.ProtocolId = 0 → out.ProtocolHeader.Opcode = 0x40 →
      out.Payload = body →
      ∃ r, sc.Receive D = some r ∧ r.err = none ∧
        r.out.StatusReport =
          ⟨if 2 ≤ body.length then getLE (body.take 2) else 0,
           if 6 ≤ body.length then getLE ((body.drop 2).take 4) else 0,
           if 8 ≤ body.length then getLE ((body.drop 6).take 2) else 0⟩ := by
  have hdec : (decodeStatusReport (NewBuffer body)).1 =
      ⟨if 2 ≤ body.length then getLE (body.take 2) else 0,
       if 6 ≤ body.length then getLE ((body.drop 2).take 4) else 0,
       if 8 ≤ body.length then getLE ((body.drop 6).take 2) else 0⟩ := by
    obtain ⟨g1, g2, g3⟩ := decodeStatusReport_eq_readStatusReport body
    rw [readStatusReport_fields] at g1 g2 g3
    cases hd : (decodeStatusReport (NewBuffer body)).1 with
    | mk a b c =>
      rw [hd] at g1 g2 g3
      simp only at g1 g2 g3
      rw [g1, g2, g3]
  refine ⟨hdec, ?_, ?_⟩
  · intro hlt
    have h2 : ¬ 2 ≤ body.length := by omega
    have h6 : ¬ 6 ≤ body.length := by omega
    have h8 : ¬ 8 ≤ body.length := by omega
    have hz : (decodeStatusReport (NewBuffer body)).1 = ⟨0, 0, 0⟩ := by
      rw [hdec]; simp only [h2, h6, h8, if_false]
    exact ⟨hz, by rw [hz]; rfl⟩
  · intro D sc ch c m more out hudp hconn hopen hin hm hid hop hpay
    obtain ⟨r, hr, he, hsr, _, _⟩ :=
      Receive_status_report D sc ch c m more out hudp hconn hopen hin hm hid hop
    exact ⟨r, hr, he, by rw [hsr, hpay, readStatusReport_fields]⟩

/-- C27 at a status report with an empty body, received in the clear: `Receive`
returns no error and the codes `(0, 0, 0)`. -/
theorem short_status_report_is_zero_witness :
    ∃ r, (plainChannel 0 [examplePlain 3 (exampleHeader 0x40 1 0)]).Receive exampleDeps
        = some r ∧ r.err = none ∧ r.out.StatusReport = ⟨0, 0, 0⟩ :=
  (short_status_report_is_zero []).2.2 exampleDeps
    (plainChannel 0 [examplePlain 3 (exampleHeader 0x40 1 0)]) _ _ _ [] _
    rfl rfl rfl rfl rfl rfl rfl rfl

/-! ### Protocol header and standalone ACK -/

/-- The message `Ack` builds. -/
theorem Ack_bytes (cnt counter : Nat) :
    Ack cnt counter = 4 :: (putLE 2 0 ++ (0 :: (putLE 4 (cnt % 2 ^ 32) ++
      ([1, 2, 3, 4, 5, 6, 7, 8] ++ (3 :: 0x10 :: (putLE 2 0xba3e ++ (putLE 2 0 ++
        putLE 4 (counter % 2 ^ 32)))))))) := by
  have h : Ack cnt counter =
      ((⟨0, 0, cnt, [1, 2, 3, 4, 5, 6, 7, 8], [], ⟨3, SEC_CHAN_OPCODE_ACK, 0xba3e, 0, 0⟩⟩ :
        Message).encode Buffer.empty).Bytes ++ putLE 4 (counter % 2 ^ 32) := rfl
  rw [h, encode_bytes]
  have hf : (⟨0, 0, cnt, [1, 2, 3, 4, 5, 6, 7, 8], [], ⟨3, SEC_CHAN_OPCODE_ACK, 0xba3e, 0, 0⟩⟩ :
      Message).calcMessageFlags = 4 := by simp [Message.calcMessageFlags]
  rw [hf]
  simp only [List.length_cons, List.length_nil, SEC_CHAN_OPCODE_ACK, Nat.reduceMod,
    Nat.reduceAdd, Nat.reducePow, if_true, gt_iff_lt, Nat.lt_irrefl, if_false, List.nil_append,
    List.cons_append, List.append_assoc]

theorem decode_Ack (cnt counter : Nat) (hcnt : cnt < 2 ^ 32) (hctr : counter < 2 ^ 32) :
    Message.zero.decode (NewBuffer (Ack cnt counter)) =
      (⟨0, 0, cnt, [1, 2, 3, 4, 5, 6, 7, 8], [], ⟨3, 0x10, 0xba3e, 0, counter⟩⟩,
        ⟨(Ack cnt counter).reverse, [], true⟩, none) := by
  have e1 : cnt % 256 ^ 4 = cnt := by omega
  have e2 : counter % 256 ^ 4 = counter := by omega
  have hr := fun d r l => readSlice_append d [1, 2, 3, 4, 5, 6, 7, 8] r l 8 rfl (by decide)
  rw [Ack_bytes, Nat.mod_eq_of_lt hcnt, Nat.mod_eq_of_lt hctr]
  have hend : ∀ (d : List Nat) (l : Bool), binaryRead ⟨d, putLE 4 counter, l⟩ 4 0
      = (⟨(putLE 4 counter).reverse ++ d, [], true⟩, counter, none) := by
    intro d l
    have h := binaryRead_putLE4 d [] l counter 0
    rw [List.append_nil, e2] at h
    exact h
  have f1 : 4 &&& 4 ≠ 0 := by decide
  have f2 : 4 &&& 3 = 0 := by decide
  have f3 : 3 &&& 2 ≠ 0 := by decide
  have f4 : 47678 % 256 ^ 2 = 47678 := by decide
  have f5 : 0 % 256 ^ 2 = 0 := by decide
  simp only [Message.decode, Message.decodeDest, Message.decodeProt, NewBuffer, ReadByte_cons,
    binaryRead_putLE2, binaryRead_putLE4, hend, e1, e2, hr, f1, f2, f3, f4, f5, ne_eq,
    not_true_eq_false, not_false_eq_true, if_true, if_false, Message.zero]
  simp

/-- C24: for every pair of 32-bit values `cnt` and `counter`, `decode` of
`Ack(cnt, counter)` returns no error and leaves nothing unread of the 26 bytes;
the message has protocolId 0, opcode `0x10`, the ack-present bit of the exchange
flags set, messageCounter `cnt` and ackCounter `counter`. -/
theorem ack_decoding (cnt counter : Nat) (hcnt : cnt < 2 ^ 32) (hctr : counter < 2 ^ 32) :
    (Message.zero.decode (NewBuffer (Ack cnt counter))).2.2 = none ∧
    (Message.zero.decode (NewBuffer (Ack cnt counter))).2.1.Bytes = [] ∧
    (Ack cnt counter).length = 26 ∧
    (Message.zero.decode (NewBuffer (Ack cnt counter))).1.prot.protocolId = 0 ∧
    (Message.zero.decode (NewBuffer (Ack cnt counter))).1.prot.opcode = 0x10 ∧
    (Message.zero.decode (NewBuffer (Ack cnt counter))).1.prot.exchangeFlags &&& 0x2 = 0x2 ∧
    (Message.zero.decode (NewBuffer (Ack cnt counter))).1.messageCounter = cnt ∧
    (Message.zero.decode (NewBuffer (Ack cnt counter))).1.prot.ackCounter = counter := by
  rw [decode_Ack cnt counter hcnt hctr]
  refine ⟨rfl, rfl, ?_, rfl, rfl, (by decide : 3 &&& 0x2 = 0x2), rfl, rfl⟩
  rw [Ack_bytes]
  simp only [List.length_cons, List.length_append, putLE_length, List.length_nil]

/-- C24 at `Ack(0x01020304, 0xffffffff)`. -/
theorem ack_decoding_witness :
    (Message.zero.decode (NewBuffer (Ack 0x01020304 0xffffffff))).2.2 = none ∧
    (Message.zero.decode (NewBuffer (Ack 0x01020304 0xffffffff))).2.1.Bytes = [] ∧
    (Ack 0x01020304 0xffffffff).length = 26 ∧
    (Message.zero.decode (NewBuffer (Ack 0x01020304 0xffffffff))).1.prot.protocolId = 0 ∧
    (Message.zero.decode (NewBuffer (Ack 0x01020304 0xffffffff))).1.prot.opcode = 0x10 ∧
    (Message.zero.decode (NewBuffer (Ack 0x01020304 0xffffffff))).1.prot.exchangeFlags &&& 0x2
      = 0x2 ∧
    (Message.zero.decode (NewBuffer (Ack 0x01020304 0xffffffff))).1.messageCounter
      = 0x01020304 ∧
    (Message.zero.decode (NewBuffer (Ack 0x01020304 0xffffffff))).1.prot.ackCounter
      = 0xffffffff :=
  ack_decoding 0x01020304 0xffffffff (by decide) (by decide)

theorem decodeProt_header (m : Message) (d rest : List Nat) (l : Bool) (xf op xid pid : Nat)
    (hx : xid < 2 ^ 16) (hp : pid < 2 ^ 16) (hclear : xf &&& 0x2 = 0) :
    (m.decodeProt ⟨d, xf :: op :: (putLE 2 xid ++ (putLE 2 pid ++ rest)), l⟩).2.2 = none ∧
    (m.decodeProt ⟨d, xf :: op :: (putLE 2 xid ++ (putLE 2 pid ++ rest)), l⟩).2.1.Bytes = rest ∧
    (m.decodeProt ⟨d, xf :: op :: (putLE 2 xid ++ (putLE 2 pid ++ rest)), l⟩).1.prot
      = ⟨xf, op, xid, pid, m.prot.ackCounter⟩ := by
  have e1 : xid % 256 ^ 2 = xid := by omega
  have e2 : pid % 256 ^ 2 = pid := by omega
  simp only [Message.decodeProt, ReadByte_cons, binaryRead_putLE2, e1, e2, hclear, ne_eq,
    not_true_eq_false, if_false, Buffer.Bytes, and_self]

theorem decodeProt_header_ack (m : Message) (d rest : List Nat) (l : Bool)
    (xf op xid pid ack : Nat) (hx : xid < 2 ^ 16) (hp : pid < 2 ^ 16) (ha : ack < 2 ^ 32)
    (hset : xf &&& 0x2 ≠ 0) :
    (m.decodeProt
      ⟨d, xf :: op :: (putLE 2 xid ++ (putLE 2 pid ++ (putLE 4 ack ++ rest))), l⟩).2.2 = none ∧
    (m.decodeProt
      ⟨d, xf :: op :: (putLE 2 xid ++ (putLE 2 pid ++ (putLE 4 ack ++ rest))), l⟩).2.1.Bytes
      = rest ∧
    (m.decodeProt
      ⟨d, xf :: op :: (putLE 2 xid ++ (putLE 2 pid ++ (putLE 4 ack ++ rest))), l⟩).1.prot
      = ⟨xf, op, xid, pid, ack⟩ := by
  have e1 : xid % 256 ^ 2 = xid := by omega
  have e2 : pid % 256 ^ 2 = pid := by omega
  have e3 : ack % 256 ^ 4 = ack := by omega
  simp only [Message.decodeProt, ReadByte_cons, binaryRead_putLE2, binaryRead_putLE4, e1, e2, e3,
    hset, ne_eq, not_false_eq_true, if_true, Buffer.Bytes, and_self]

theorem decodeProt_four (m : Message) (d rest : List Nat) (l : Bool) (xf op xid pid : Nat)
    (hx : xid < 2 ^ 16) (hp : pid < 2 ^ 16) :
    (m.decodeProt ⟨d, xf :: op :: (putLE 2 xid ++ (putLE 2 pid ++ rest)), l⟩).1.prot.exchangeFlags
      = xf ∧
    (m.decodeProt ⟨d, xf :: op :: (putLE 2 xid ++ (putLE 2 pid ++ rest)), l⟩).1.prot.opcode = op ∧
    (m.decodeProt ⟨d, xf :: op :: (putLE 2 xid ++ (putLE 2 pid ++ rest)), l⟩).1.prot.exchangeId
      = xid ∧
    (m.decodeProt ⟨d, xf :: op :: (putLE 2 xid ++ (putLE 2 pid ++ rest)), l⟩).1.prot.protocolId
      = pid := by
  have e1 : xid % 256 ^ 2 = xid := by omega
  have e2 : pid % 256 ^ 2 = pid := by omega
  simp only [Message.decodeProt, ReadByte_cons, binaryRead_putLE2, e1, e2]
  split_ifs <;> exact ⟨rfl, rfl, rfl, rfl⟩

theorem decodeDest_to_prot (m : Message) (flags : Nat) (d dst p : List Nat) (l : Bool)
    (h : (dst.length = 0 ∧ flags &&& 3 = 0) ∨ (dst.length = 8 ∧ flags &&& 3 = 1) ∨
      (dst.length = 2 ∧ flags &&& 3 = 2)) :
    ∃ (d1 : List Nat) (l1 : Bool) (m1 : Message),
      m.decodeDest flags ⟨d, dst ++ p, l⟩ = m1.decodeProt ⟨d1, p, l1⟩ ∧ m1.prot = m.prot := by
  rcases h with ⟨hl, hf⟩ | ⟨hl, hf⟩ | ⟨hl, hf⟩
  · have h0 := List.length_eq_zero.mp hl
    subst h0
    exact ⟨d, l, m, by simp only [Message.decodeDest, hf, List.nil_append]; rfl, rfl⟩
  · have hr := readSlice_append d dst p l 8 hl (by decide)
    exact ⟨dst.reverse ++ d, true, { m with destinationNodeId := dst },
      by simp [Message.decodeDest, hf, hr], rfl⟩
  · have hr := readSlice_append d dst p l 2 hl (by decide)
    exact ⟨dst.reverse ++ d, true, { m with destinationNodeId := dst },
      by simp [Message.decodeDest, hf, hr], rfl⟩

theorem decode_to_prot (m0 : Message) (flags sid sf ctr : Nat) (src dst p : List Nat)
    (hs : (src.length = 0 ∧ flags &&& 4 = 0) ∨ (src.length = 8 ∧ flags &&& 4 ≠ 0))
    (hd : (dst.length = 0 ∧ flags &&& 3 = 0) ∨ (dst.length = 8 ∧ flags &&& 3 = 1) ∨
      (dst.length = 2 ∧ flags &&& 3 = 2)) :
    ∃ (d1 : List Nat) (l1 : Bool) (m1 : Message),
      m0.decode (NewBuffer (flags :: (putLE 2 sid ++ (sf :: (putLE 4 ctr ++
          (src ++ (dst ++ p))))))) = m1.decodeProt ⟨d1, p, l1⟩ ∧
      m1.prot = m0.prot := by
  simp only [Message.decode, NewBuffer, ReadByte_cons, binaryRead_putLE2, binaryRead_putLE4]
  rcases hs with ⟨hl, hf⟩ | ⟨hl, hf⟩
  · have h0 := List.length_eq_zero.mp hl
    subst h0
    simp only [hf, List.nil_append, ne_eq, not_true_eq_false, if_false]
    obtain ⟨d1, l1, m1, h1, h2⟩ := decodeDest_to_prot
      { m0 with sessionId := sid % 256 ^ 2, securityFlags := sf, messageCounter := ctr % 256 ^ 4 }
      flags ((putLE 4 ctr).reverse ++ sf :: ((putLE 2 sid).reverse ++ [flags])) dst p true hd
    exact ⟨d1, l1, m1, h1, h2⟩
  · have hr := fun d r l => readSlice_append d src r l 8 hl (by decide)
    simp only [hf, ne_eq, not_false_eq_true, if_true, hr]
    obtain ⟨d1, l1, m1, h1, h2⟩ := decodeDest_to_prot
      { m0 with sessionId := sid % 256 ^ 2, securityFlags := sf, messageCounter := ctr % 256 ^ 4,
                sourceNodeId := src }
      flags (src.reverse ++ ((putLE 4 ctr).reverse ++ sf :: ((putLE 2 sid).reverse ++ [flags])))
      dst p true hd
    exact ⟨d1, l1, m1, h1, h2⟩

theorem decode_encode_to_prot (m0 m : Message) (tail : List Nat)
    (hsrc : m.sourceNodeId.length = 0 ∨ m.sourceNodeId.length = 8)
    (hdst : m.destinationNodeId.length = 0 ∨ m.destinationNodeId.length = 2 ∨
      m.destinationNodeId.length = 8) :
    ∃ (d1 : List Nat) (l1 : Bool) (m1 : Message),
      m0.decode (NewBuffer ((m.encode Buffer.empty).Bytes ++ tail)) =
        m1.decodeProt ⟨d1, m.prot.exchangeFlags :: m.prot.opcode ::
          (putLE 2 (m.prot.exchangeId % 2 ^ 16) ++
            (putLE 2 (m.prot.protocolId % 2 ^ 16) ++ tail)), l1⟩ ∧
      m1.prot = m0.prot := by
  rw [encode_bytes]
  have hfs := calcMessageFlags_src m
  have hfd := calcMessageFlags_dst m
  have key := decode_to_prot m0 m.calcMessageFlags (m.sessionId % 2 ^ 16) m.securityFlags
    (m.messageCounter % 2 ^ 32) (if m.sourceNodeId.length = 8 then m.sourceNodeId else [])
    (if m.destinationNodeId.length > 0 then m.destinationNodeId else [])
    (m.prot.exchangeFlags :: m.prot.opcode ::
      (putLE 2 (m.prot.exchangeId % 2 ^ 16) ++ (putLE 2 (m.prot.protocolId % 2 ^ 16) ++ tail)))
    (by
      rcases hsrc with h | h
      · left; simp [h]; simpa [h] using hfs
      · right; simp [h]; simpa [h] using hfs)
    (by
      rcases hdst with h | h | h
      · left; simp [h]; simpa [h] using hfd
      · right; right; simp [h]; simpa [h] using hfd
      · right; left; simp [h]; simpa [h] using hfd)
  simpa only [List.cons_append, List.append_assoc] using key

/-- C23 fails on the code: the message `ackCounter_msg` has well-formed node ids,
the ack-present bit set and ackCounter 5; `encode` writes 22 bytes, none of them
for the ackCounter, and `decode` of these bytes gives ackCounter 0. -/
theorem encode_drops_ackCounter :
    ackCounter_msg.sourceNodeId.length = 8 ∧ ackCounter_msg.destinationNodeId.length = 0 ∧
    ackCounter_msg.prot.exchangeFlags &&& 0x2 ≠ 0 ∧ ackCounter_msg.prot.ackCounter = 5 ∧
    (ackCounter_msg.encode Buffer.empty).Bytes.length = 22 ∧
    (Message.zero.decode (NewBuffer (ackCounter_msg.encode Buffer.empty).Bytes)).1.prot.ackCounter
      = 0 ∧
    ¬ (Message.zero.decode
        (NewBuffer (ackCounter_msg.encode Buffer.empty).Bytes)).1.prot.ackCounter
      = ackCounter_msg.prot.ackCounter := by
  decide

/-- C23 as amended: for every `Message` `m` whose `sourceNodeId` is empty or 8
bytes long, whose `destinationNodeId` is empty, 2 or 8 bytes long and whose
`exchangeId`, `protocolId` and `ackCounter` are 16-, 16- and 32-bit values, and
for every receiver `m0`: `decode` of the bytes written by `m.encode` recovers
`exchangeFlags`, `opcode`, `exchangeId` and `protocolId`; when the ack-present
bit of `m`'s exchange flags is clear it returns no error, reads all the bytes
and leaves the receiver's `ackCounter` as it was; `encode` does not write
`ackCounter`, and when the bit is set `decode` of the bytes written by
`m.encode` followed by the four little-endian bytes of `m`'s `ackCounter` (which
the caller appends, as `Ack` does) returns no error, reads all the bytes and
recovers the four fields and the `ackCounter`. -/
theorem protocol_header_round_trip (m0 m : Message)
    (hsrc : m.sourceNodeId.length = 0 ∨ m.sourceNodeId.length = 8)
    (hdst : m.destinationNodeId.length = 0 ∨ m.destinationNodeId.length = 2 ∨
      m.destinationNodeId.length = 8)
    (hx : m.prot.exchangeId < 2 ^ 16) (hp : m.prot.protocolId < 2 ^ 16)
    (ha : m.prot.ackCounter < 2 ^ 32) :
    ((m0.decode (NewBuffer (m.encode Buffer.empty).Bytes)).1.prot.exchangeFlags
        = m.prot.exchangeFlags ∧
      (m0.decode (NewBuffer (m.encode Buffer.empty).Bytes)).1.prot.opcode = m.prot.opcode ∧
      (m0.decode (NewBuffer (m.encode Buffer.empty).Bytes)).1.prot.exchangeId
        = m.prot.exchangeId ∧
      (m0.decode (NewBuffer (m.encode Buffer.empty).Bytes)).1.prot.protocolId
        = m.prot.protocolId) ∧
    (m.prot.exchangeFlags &&& 0x2 = 0 →
      (m0.decode (NewBuffer (m.encode Buffer.empty).Bytes)).2.2 = none ∧
      (m0.decode (NewBuffer (m.encode Buffer.empty).Bytes)).2.1.Bytes = [] ∧
      (m0.decode (NewBuffer (m.encode Buffer.empty).Bytes)).1.prot.ackCounter
        = m0.prot.ackCounter) ∧
    (m.prot.exchangeFlags &&& 0x2 ≠ 0 →
      (m0.decode (NewBuffer ((m.encode Buffer.empty).Bytes ++ putLE 4 m.prot.ackCounter))).2.2
        = none ∧
      (m0.decode
        (NewBuffer ((m.encode Buffer.empty).Bytes ++ putLE 4 m.prot.ackCounter))).2.1.Bytes
        = [] ∧
      (m0.decode (NewBuffer ((m.encode Buffer.empty).Bytes ++ putLE 4 m.prot.ackCounter))).1.prot
        = m.prot) := by
  refine ⟨?_, ?_, ?_⟩
  · obtain ⟨d1, l1, m1, h1, _⟩ := decode_encode_to_prot m0 m [] hsrc hdst
    rw [List.append_nil, Nat.mod_eq_of_lt hx, Nat.mod_eq_of_lt hp] at h1
    rw [h1]
    exact decodeProt_four m1 d1 [] l1 m.prot.exchangeFlags m.prot.opcode m.prot.exchangeId
      m.prot.protocolId hx hp
  · intro hclear
    obtain ⟨d1, l1, m1, h1, h2⟩ := decode_encode_to_prot m0 m [] hsrc hdst
    rw [List.append_nil, Nat.mod_eq_of_lt hx, Nat.mod_eq_of_lt hp] at h1
    rw [h1, ← h2]
    have key := decodeProt_header m1 d1 [] l1 m.prot.exchangeFlags m.prot.opcode
      m.prot.exchangeId m.prot.protocolId hx hp hclear
    exact ⟨key.1, key.2.1, by rw [key.2.2]⟩
  · intro hset
    obtain ⟨d1, l1, m1, h1, _⟩ := decode_encode_to_prot m0 m (putLE 4 m.prot.ackCounter) hsrc hdst
    rw [Nat.mod_eq_of_lt hx, Nat.mod_eq_of_lt hp] at h1
    rw [h1]
    have key := decodeProt_header_ack m1 d1 [] l1 m.prot.exchangeFlags m.prot.opcode
      m.prot.exchangeId m.prot.protocolId m.prot.ackCounter hx hp ha hset
    rw [List.append_nil] at key
    exact key

/-- The amended C23 at the message of `test1` (ack-present bit clear), decoded
into a receiver that holds an older message with ackCounter 5, and at
`ackCounter_msg` (bit set) with the four bytes of its ackCounter appended. -/
theorem protocol_header_round_trip_witness :
    ((Message.decode ackCounter_msg (NewBuffer (test1_msg.encode Buffer.empty).Bytes)).2.2 = none ∧
      (Message.decode ackCounter_msg
        (NewBuffer (test1_msg.encode Buffer.empty).Bytes)).1.prot.opcode = 0x20 ∧
      (Message.decode ackCounter_msg
        (NewBuffer (test1_msg.encode Buffer.empty).Bytes)).1.prot.ackCounter = 5) ∧
    ((Message.zero.decode (NewBuffer ((ackCounter_msg.encode Buffer.empty).Bytes ++
        putLE 4 ackCounter_msg.prot.ackCounter))).2.2 = none ∧
      (Message.zero.decode (NewBuffer ((ackCounter_msg.encode Buffer.empty).Bytes ++
        putLE 4 ackCounter_msg.prot.ackCounter))).1.prot = ackCounter_msg.prot) :=
  ⟨⟨((protocol_header_round_trip ackCounter_msg test1_msg (Or.inr rfl) (Or.inl rfl) (by decide)
        (by decide) (by decide)).2.1 (by decide)).1,
     (protocol_header_round_trip ackCounter_msg test1_msg (Or.inr rfl) (Or.inl rfl) (by decide)
        (by decide) (by decide)).1.2.1,
     ((protocol_header_round_trip ackCounter_msg test1_msg (Or.inr rfl) (Or.inl rfl) (by decide)
        (by decide) (by decide)).2.1 (by decide)).2.2⟩,
   ⟨((protocol_header_round_trip Message.zero ackCounter_msg (Or.inr rfl) (Or.inl rfl) (by decide)
        (by decide) (by decide)).2.2 (by decide)).1,
     ((protocol_header_round_trip Message.zero ackCounter_msg (Or.inr rfl) (Or.inl rfl)
        (by decide) (by decide) (by decide)).2.2 (by decide)).2.2⟩⟩

/-! ### checkAndSkipBytes -/

theorem unreadTimes_idle (d u : List Nat) : ∀ n, unreadTimes n ⟨d, u, false⟩ = ⟨d, u, false⟩ := by
  intro n
  induction n with
  | zero => rfl
  | succ n ih => simpa [unreadTimes, Buffer.UnreadByte] using ih

theorem unreadTimes_once (c : Nat) (d u : List Nat) (n : Nat) :
    unreadTimes (n + 1) ⟨c :: d, u, true⟩ = ⟨d, c :: u, false⟩ := by
  simp only [unreadTimes, Buffer.UnreadByte, if_true]
  exact unreadTimes_idle d (c :: u) n

theorem checkAndSkipBytesLoop_mismatch (all rest more : List Nat) (o now : Nat)
    (hne : o ≠ now) :
    ∀ (pre dn : List Nat) (l : Bool) (k : Nat),
      checkAndSkipBytesLoop all (pre ++ now :: more) k ⟨dn, pre ++ o :: rest, l⟩
        = (⟨pre.reverse ++ dn, o :: rest, false⟩,
            some (Error.Errorf "unexpected byte %x, expected %x" (o :: all))) := by
  intro pre
  induction pre with
  | nil =>
    intro dn l k
    simp only [List.nil_append, checkAndSkipBytesLoop, ReadByte_cons, ne_eq, hne,
      not_false_eq_true, if_true, unreadTimes_once, List.reverse_nil]
  | cons p ps ih =>
    intro dn l k
    simp only [List.cons_append, checkAndSkipBytesLoop, ReadByte_cons, ne_eq, not_true_eq_false,
      if_false, List.append_eq, ih, List.reverse_cons, List.append_assoc, List.singleton_append,
      List.nil_append]

theorem checkAndSkipBytesLoop_match (all rest : List Nat) :
    ∀ (d dn : List Nat) (l : Bool) (k : Nat),
      checkAndSkipBytesLoop all d k ⟨dn, d ++ rest, l⟩
        = (⟨d.reverse ++ dn, rest, l || !d.isEmpty⟩, none) := by
  intro d
  induction d with
  | nil => intro dn l k; simp [checkAndSkipBytesLoop]
  | cons p ps ih =>
    intro dn l k
    simp only [List.cons_append, checkAndSkipBytesLoop, ReadByte_cons, ne_eq, not_true_eq_false,
      if_false, ih, List.reverse_cons, List.append_assoc, List.singleton_append]
    simp

/-- When the buffer starts with the bytes of `d`, `checkAndSkipBytes(d)` returns
no error and consumes exactly these bytes. -/
theorem checkAndSkipBytes_match (dn d rest : List Nat) (l : Bool) :
    (TLVBufferDec.checkAndSkipBytes ⟨⟨dn, d ++ rest, l⟩⟩ d).2 = none ∧
    (TLVBufferDec.checkAndSkipBytes ⟨⟨dn, d ++ rest, l⟩⟩ d).1.data.Bytes = rest := by
  simp only [TLVBufferDec.checkAndSkipBytes, checkAndSkipBytesLoop_match d rest d dn l 0,
    Buffer.Bytes, and_self]

/-- C25 fails on the code: when the buffer holds a non-empty run `pre` of bytes
that match the start of `d` and then a byte `o` that differs from the next byte
`now` of `d`, `checkAndSkipBytes(d)` returns the mismatch error and leaves
`o :: rest` unread: of the `len(pre) + 1` bytes read only the last one is put
back, because `UnreadByte` steps back once only, and the bytes `pre` are lost. -/
theorem checkAndSkipBytes_restores_one_byte (dn pre rest more : List Nat) (l : Bool)
    (o now : Nat) (hne : o ≠ now) (hpre : pre ≠ []) :
    (TLVBufferDec.checkAndSkipBytes ⟨⟨dn, pre ++ o :: rest, l⟩⟩ (pre ++ now :: more)).2
      = some (Error.Errorf "unexpected byte %x, expected %x" (o :: (pre ++ now :: more))) ∧
    (TLVBufferDec.checkAndSkipBytes ⟨⟨dn, pre ++ o :: rest, l⟩⟩ (pre ++ now :: more)).1.data.Bytes
      = o :: rest ∧
    (TLVBufferDec.checkAndSkipBytes ⟨⟨dn, pre ++ o :: rest, l⟩⟩ (pre ++ now :: more)).1.data.Bytes
      ≠ pre ++ o :: rest := by
  simp only [TLVBufferDec.checkAndSkipBytes,
    checkAndSkipBytesLoop_mismatch (pre ++ now :: more) rest more o now hne pre dn l 0,
    Buffer.Bytes, true_and]
  intro h
  have hlen := congrArg List.length h
  simp only [List.length_cons, List.length_append] at hlen
  have : pre.length = 0 := by omega
  exact hpre (List.length_eq_zero.mp this)

/-- C25 fails at the buffer `01 02 03` with `d = 01 09`: the call returns the
mismatch error and leaves `02 03` unread. -/
theorem checkAndSkipBytes_loses_prefix :
    (TLVBufferDec.checkAndSkipBytes ⟨NewBuffer [1, 2, 3]⟩ [1, 9]).2
      = some (Error.Errorf "unexpected byte %x, expected %x" [2, 1, 9]) ∧
    (TLVBufferDec.checkAndSkipBytes ⟨NewBuffer [1, 2, 3]⟩ [1, 9]).1.data.Bytes = [2, 3] ∧
    (TLVBufferDec.checkAndSkipBytes ⟨NewBuffer [1, 2, 3]⟩ [1, 9]).1.data.Bytes ≠ [1, 2, 3] :=
  checkAndSkipBytes_restores_one_byte [] [1] [3] [] false 2 9 (by decide) (by decide)

/-! ### QR payload: no panic -/

theorem b38_decode_length (s : List Nat) (hs : ∀ c ∈ s, c ∈ alphabet) :
    ∃ bb, b38_decode s = some bb ∧ bb.bytes.length = 3 * ((s.length + 4) / 5) := by
  have hg : ∀ g ∈ in_array s, (∀ c ∈ g, c ∈ alphabet) ∧ g.length ≤ 5 := by
    intro g hg
    refine ⟨fun c hc => hs c (in_array_mem s.length s (le_refl _) g hg c hc), ?_⟩
    rw [in_array_eq_groupsOf5 s.length s (le_refl _), groupsOf5, List.mem_map] at hg
    obtain ⟨k, _, rfl⟩ := hg
    rw [List.length_take]
    omega
  refine ⟨_, b38_decodeLoop_value (in_array s) ⟨[], 0, 0, 0⟩ hg, ?_⟩
  simp only [List.nil_append, in_array_eq_groupsOf5 s.length s (le_refl _),
    groupsOf5_flatMap_length]

/-- C26: for every string `s` of at least 16 characters, all of the base-38
alphabet, `b38_decode(s)` returns (no call of `a2n` panics) a buffer of at least
12 bytes, which covers the 84 bits read, and `decode_qr_text("MT:" + s)` returns
a `QrContent`. -/
theorem qr_decoding_panic_free (s : List Nat) (hs : ∀ c ∈ s, c ∈ alphabet)
    (hlen : 16 ≤ s.length) :
    ∃ bb q, b38_decode s = some bb ∧ 84 ≤ 8 * bb.bytes.length ∧
      decode_qr_text (ascii "MT:" ++ s) = some q := by
  obtain ⟨bb, hbb, hl⟩ := b38_decode_length s hs
  have h12 : 12 ≤ bb.bytes.length := by omega
  exact ⟨bb, _, hbb, by omega, qr_fields bb (by omega) s hbb⟩

/-- C26 at the 16 characters `0123456789ABCDEF`. -/
theorem qr_decoding_panic_free_witness :
    ∃ bb q, b38_decode (ascii "0123456789ABCDEF") = some bb ∧ 84 ≤ 8 * bb.bytes.length ∧
      decode_qr_text (ascii "MT:" ++ ascii "0123456789ABCDEF") = some q :=
  qr_decoding_panic_free (ascii "0123456789ABCDEF") (by decide) (by decide)

end Gomat
